import Mathlib

/-!
# Teapot mesh generation (`src/fg_teapot.c`)

A shallow embedding of the Bezier-patch teapot generator and the properties
proved about it.

Modelling conventions:

* `GLfloat` values are elements of an arbitrary field `α` (exact arithmetic).
  `sqrt` comes from the C library and is a parameter `sqrt : α → α`.
* A C array / pointer target is a total map `Nat → α` from index to value; a
  store is `Function.update`.  The pointer `buf + o` is the view
  `ptrAdd buf o`, and what a callee did through that pointer is written
  back with `ptrStore`.
* `int` loop counters are `Nat`; `GLushort` stores are taken modulo `2 ^ 16`.
* The static variables of the translation unit form the record `TeapotState`.
* `fg_teapot_data.h` is not part of the sources: its tables and its patch
  count are the fields of `TeapotData`.
-/

set_option autoImplicit false

namespace Teapot

/-! ## Loops and pointers -/

/-- Counted loop `for (i = 0; i < n; i++) s = body i s`. -/
def forLoop {σ : Type} : Nat → (Nat → σ → σ) → σ → σ
  | 0, _, s => s
  | n + 1, body, s => body n (forLoop n body s)

/-- Strided loop `for (o = 0; o < bound; o += stride) s = body o s`. -/
def forStride {σ : Type} (bound stride : Nat) (body : Nat → σ → σ) (s : σ) : σ :=
  forLoop ((bound + (stride - 1)) / stride) (fun t => body (stride * t)) s

/-- The pointer `buf + o`, seen as a buffer of its own. -/
def ptrAdd {β : Type} (buf : Nat → β) (o : Nat) : Nat → β :=
  fun k => buf (o + k)

/-- Write back what was done through the pointer `buf + o`. -/
def ptrStore {β : Type} (buf : Nat → β) (o : Nat) (view : Nat → β) : Nat → β :=
  fun k => if k < o then buf k else view (k - o)

/-- C `memset(buf, 0, n * sizeof(GLfloat))`. -/
def memsetZero {β : Type} [Zero β] (buf : Nat → β) (n : Nat) : Nat → β :=
  fun k => if k < n then 0 else buf k

/-- Store into a two-dimensional table: `t[a][b] = x`. -/
def set2 {β : Type} (t : Nat → Nat → β) (a b : Nat) (x : β) : Nat → Nat → β :=
  Function.update t a (Function.update (t a) b x)

/-- Store into a three-dimensional table: `t[a][b][c] = x`. -/
def set3 {β : Type} (t : Nat → Nat → Nat → β) (a b c : Nat) (x : β) :
    Nat → Nat → Nat → β :=
  Function.update t a (set2 (t a) b c x)

/-! ## Constants (lines 41-47) -/

/-- Number of patch copies, `(6*4 + 4*2)`. -/
def GLUT_TEAPOT_N_PATCHES : Nat := 6 * 4 + 4 * 2

/-- Subdivisions of the solid teapot. -/
def GLUT_SOLID_TEAPOT_N_SUBDIV : Nat := 10

/-- Vertex count of the solid teapot. -/
def GLUT_SOLID_TEAPOT_N_VERT : Nat :=
  GLUT_SOLID_TEAPOT_N_SUBDIV * GLUT_SOLID_TEAPOT_N_SUBDIV * GLUT_TEAPOT_N_PATCHES

/-- Triangle count of the solid teapot. -/
def GLUT_SOLID_TEAPOT_N_TRI : Nat :=
  (GLUT_SOLID_TEAPOT_N_SUBDIV - 1) * (GLUT_SOLID_TEAPOT_N_SUBDIV - 1)
    * GLUT_TEAPOT_N_PATCHES * 2

/-- Subdivisions of the wire teapot. -/
def GLUT_WIRE_TEAPOT_N_SUBDIV : Nat := 7

/-- Vertex count of the wire teapot. -/
def GLUT_WIRE_TEAPOT_N_VERT : Nat :=
  GLUT_WIRE_TEAPOT_N_SUBDIV * GLUT_WIRE_TEAPOT_N_SUBDIV * GLUT_TEAPOT_N_PATCHES

/-! ## Bernstein tables (lines 85-128) -/

section Code

variable {α : Type} [Field α]

/-- Function `bernstein3`: the pair `(*r0, *r1)` it stores. -/
def bernstein3 (i : Int) (x : α) : α × α :=
  let invx := 1 - x
  if i = 0 then
    let temp := invx * invx
    (invx * temp, -3 * temp)
  else if i = 1 then
    let temp := invx * invx
    (3 * x * temp, 3 * temp - 6 * x * invx)
  else if i = 2 then
    let temp := x * x
    (3 * temp * invx, 6 * x * invx - 3 * temp)
  else if i = 3 then
    let temp := x * x
    (x * temp, 3 * temp)
  else
    (0, 0)

/-- Function `pregenBernstein`: the tables `(bern_0, bern_1)` after the call. -/
def pregenBernstein (nSubDivs : Nat) (bern_0 bern_1 : Nat → Nat → α) :
    (Nat → Nat → α) × (Nat → Nat → α) :=
  forLoop nSubDivs (fun s tabs =>
    let x : α := (s : α) / ((nSubDivs : α) - 1)
    forLoop 4 (fun i tabs =>
      let r := bernstein3 (i : Int) x
      (set2 tabs.1 s i r.1, set2 tabs.2 s i r.2)) tabs) (bern_0, bern_1)

/-! ## Symmetry replication (lines 130-169) -/

/-- Body of the rotation loop of `rotOrReflect` (lines 140-151). -/
def rotOrReflect_rot (i1 i2 i3 o : Nat) (vals : Nat → α) : Nat → α :=
  let vals := Function.update vals (i1 + o + 0) (vals (o + 2))
  let vals := Function.update vals (i1 + o + 1) (vals (o + 1))
  let vals := Function.update vals (i1 + o + 2) (-vals (o + 0))
  let vals := Function.update vals (i2 + o + 0) (-vals (o + 0))
  let vals := Function.update vals (i2 + o + 1) (vals (o + 1))
  let vals := Function.update vals (i2 + o + 2) (-vals (o + 2))
  let vals := Function.update vals (i3 + o + 0) (-vals (o + 2))
  let vals := Function.update vals (i3 + o + 1) (vals (o + 1))
  let vals := Function.update vals (i3 + o + 2) (vals (o + 0))
  vals

/-- Body of the inner reflection loop of `rotOrReflect` (lines 163-165), with
the loop counters `i` and `o`. -/
def rotOrReflect_flip (off i : Nat) (st : (Nat → α) × Nat) : (Nat → α) × Nat :=
  let vals := st.1
  let o := st.2
  let vals := Function.update vals (o + 0) (vals (off + i + 0))
  let vals := Function.update vals (o + 1) (vals (off + i + 1))
  let vals := Function.update vals (o + 2) (-vals (off + i + 2))
  (vals, o + 3)

/-- Body of the row loop of `rotOrReflect` (lines 159-166). -/
def rotOrReflect_flipRow (nVals nSubDivs u : Nat) (vals : Nat → α) : Nat → α :=
  let off := (nSubDivs - u - 1) * nSubDivs * 3
  let o := nVals + u * nSubDivs * 3
  (forStride (nSubDivs * 3) 3 (rotOrReflect_flip off) (vals, o)).1

/-- Function `rotOrReflect`: the buffer `vals` after the call. -/
def rotOrReflect (flag nVals nSubDivs : Nat) (vals : Nat → α) : Nat → α :=
  if flag = 4 then
    let i1 := nVals
    let i2 := nVals * 2
    let i3 := nVals * 3
    forStride nVals 3 (rotOrReflect_rot i1 i2 i3) vals
  else if flag = 2 then
    forLoop nSubDivs (rotOrReflect_flipRow nVals nSubDivs) vals
  else
    vals

/-! ## Patch evaluation (lines 171-272) -/

/-- The `j` loop of `evalBezier` (lines 253-259): the local `vert_0`. -/
def evalBezier_row (cp : Nat → Nat → Nat → α) (bern_0 : Nat → Nat → α) (v i : Nat) :
    Nat → α :=
  forLoop 4 (fun j vert_0 =>
    let vert_0 := Function.update vert_0 0 (vert_0 0 + bern_0 v j * cp i j 0)
    let vert_0 := Function.update vert_0 1 (vert_0 1 + bern_0 v j * cp i j 1)
    let vert_0 := Function.update vert_0 2 (vert_0 2 + bern_0 v j * cp i j 2)
    vert_0) (fun _ => 0)

/-- Body of the `i` loop of `evalBezier` (lines 253-263). -/
def evalBezier_acc (cp : Nat → Nat → Nat → α) (bern_0 : Nat → Nat → α)
    (u v o i : Nat) (verts : Nat → α) : Nat → α :=
  let vert_0 := evalBezier_row cp bern_0 v i
  let verts := Function.update verts (o + 0) (verts (o + 0) + bern_0 u i * vert_0 0)
  let verts := Function.update verts (o + 1) (verts (o + 1) + bern_0 u i * vert_0 1)
  let verts := Function.update verts (o + 2) (verts (o + 2) + bern_0 u i * vert_0 2)
  verts

/-- Body of the `(u, v)` loop of `evalBezier` (lines 251-264) at offset `o`. -/
def evalBezier_cell (cp : Nat → Nat → Nat → α) (bern_0 : Nat → Nat → α)
    (u v o : Nat) (verts : Nat → α) : Nat → α :=
  forLoop 4 (evalBezier_acc cp bern_0 u v o) verts

/-- The `(u, v)` loop of `evalBezier` (lines 247-266): the buffer `verts` and
the counter `o` after it. -/
def evalBezier_grid (cp : Nat → Nat → Nat → α) (nSubDivs : Nat)
    (bern_0 : Nat → Nat → α) (verts : Nat → α) : (Nat → α) × Nat :=
  forLoop nSubDivs (fun u st =>
    forLoop nSubDivs (fun v (st : (Nat → α) × Nat) =>
      (evalBezier_cell cp bern_0 u v st.2 st.1, st.2 + 3)) st) (verts, 0)

/-- Function `evalBezier`: the buffer `verts` after the call and the value
returned. -/
def evalBezier (cp : Nat → Nat → Nat → α) (nSubDivs : Nat) (bern_0 : Nat → Nat → α)
    (flag : Nat) (verts : Nat → α) : (Nat → α) × Nat :=
  let nVerts := nSubDivs * nSubDivs
  let nVertVals := nVerts * 3
  let st := evalBezier_grid cp nSubDivs bern_0 verts
  (rotOrReflect flag nVertVals nSubDivs st.1, nVertVals * flag)

/-- Locals of the `i` loop of `evalBezierWithNorm`. -/
structure CellAcc (α : Type) where
  /-- The output buffer `verts`. -/
  verts : Nat → α
  /-- Local `tan1`. -/
  tan1 : Nat → α
  /-- Local `tan2`. -/
  tan2 : Nat → α

/-- The `j` loop of `evalBezierWithNorm` (lines 187-197): the locals
`(vert_0, vert_1)`. -/
def evalBezierWithNorm_row (cp : Nat → Nat → Nat → α) (bern_0 bern_1 : Nat → Nat → α)
    (v i : Nat) : (Nat → α) × (Nat → α) :=
  forLoop 4 (fun j (vs : (Nat → α) × (Nat → α)) =>
    let vert_0 := vs.1
    let vert_1 := vs.2
    let vert_0 := Function.update vert_0 0 (vert_0 0 + bern_0 v j * cp i j 0)
    let vert_0 := Function.update vert_0 1 (vert_0 1 + bern_0 v j * cp i j 1)
    let vert_0 := Function.update vert_0 2 (vert_0 2 + bern_0 v j * cp i j 2)
    let vert_1 := Function.update vert_1 0 (vert_1 0 + bern_1 v j * cp i j 0)
    let vert_1 := Function.update vert_1 1 (vert_1 1 + bern_1 v j * cp i j 1)
    let vert_1 := Function.update vert_1 2 (vert_1 2 + bern_1 v j * cp i j 2)
    (vert_0, vert_1)) (fun _ => 0, fun _ => 0)

/-- Body of the `i` loop of `evalBezierWithNorm` (lines 187-208). -/
def evalBezierWithNorm_acc (cp : Nat → Nat → Nat → α) (bern_0 bern_1 : Nat → Nat → α)
    (u v o i : Nat) (acc : CellAcc α) : CellAcc α :=
  let vs := evalBezierWithNorm_row cp bern_0 bern_1 v i
  let vert_0 := vs.1
  let vert_1 := vs.2
  let verts := acc.verts
  let verts := Function.update verts (o + 0) (verts (o + 0) + bern_0 u i * vert_0 0)
  let verts := Function.update verts (o + 1) (verts (o + 1) + bern_0 u i * vert_0 1)
  let verts := Function.update verts (o + 2) (verts (o + 2) + bern_0 u i * vert_0 2)
  let tan1 := acc.tan1
  let tan2 := acc.tan2
  let tan1 := Function.update tan1 0 (tan1 0 + bern_0 u i * vert_1 0)
  let tan1 := Function.update tan1 1 (tan1 1 + bern_0 u i * vert_1 1)
  let tan1 := Function.update tan1 2 (tan1 2 + bern_0 u i * vert_1 2)
  let tan2 := Function.update tan2 0 (tan2 0 + bern_1 u i * vert_0 0)
  let tan2 := Function.update tan2 1 (tan2 1 + bern_1 u i * vert_0 1)
  let tan2 := Function.update tan2 2 (tan2 2 + bern_1 u i * vert_0 2)
  { verts := verts, tan1 := tan1, tan2 := tan2 }

/-- The normal of one vertex (lines 211-217), stored at offset `o` of `norms`. -/
def evalBezierWithNorm_normal (sqrt : α → α) (tan1 tan2 : Nat → α) (o : Nat)
    (norms : Nat → α) : Nat → α :=
  let norms := Function.update norms (o + 0) (tan1 1 * tan2 2 - tan1 2 * tan2 1)
  let norms := Function.update norms (o + 1) (tan1 2 * tan2 0 - tan1 0 * tan2 2)
  let norms := Function.update norms (o + 2) (tan1 0 * tan2 1 - tan1 1 * tan2 0)
  let len := sqrt (norms (o + 0) * norms (o + 0) + norms (o + 1) * norms (o + 1)
    + norms (o + 2) * norms (o + 2))
  let norms := Function.update norms (o + 0) (norms (o + 0) / len)
  let norms := Function.update norms (o + 1) (norms (o + 1) / len)
  let norms := Function.update norms (o + 2) (norms (o + 2) / len)
  norms

/-- Body of the `(u, v)` loop of `evalBezierWithNorm` (lines 183-217) at
offset `o`: the buffers `(verts, norms)` after it. -/
def evalBezierWithNorm_cell (sqrt : α → α) (cp : Nat → Nat → Nat → α)
    (bern_0 bern_1 : Nat → Nat → α) (u v o : Nat) (verts norms : Nat → α) :
    (Nat → α) × (Nat → α) :=
  let acc := forLoop 4 (evalBezierWithNorm_acc cp bern_0 bern_1 u v o)
    { verts := verts, tan1 := fun _ => 0, tan2 := fun _ => 0 }
  (acc.verts, evalBezierWithNorm_normal sqrt acc.tan1 acc.tan2 o norms)

/-- Result of `evalBezierWithNorm`: both buffers and the value returned. -/
structure EvalResult (α : Type) where
  /-- The buffer `verts` after the call. -/
  verts : Nat → α
  /-- The buffer `norms` after the call. -/
  norms : Nat → α
  /-- The value returned. -/
  ret : Nat

/-- The `(u, v)` loop of `evalBezierWithNorm` (lines 179-219): the buffers
`(verts, norms)` and the counter `o` after it. -/
def evalBezierWithNorm_grid (sqrt : α → α) (cp : Nat → Nat → Nat → α)
    (nSubDivs : Nat) (bern_0 bern_1 : Nat → Nat → α) (verts norms : Nat → α) :
    ((Nat → α) × (Nat → α)) × Nat :=
  forLoop nSubDivs (fun u st =>
    forLoop nSubDivs (fun v (st : ((Nat → α) × (Nat → α)) × Nat) =>
      (evalBezierWithNorm_cell sqrt cp bern_0 bern_1 u v st.2 st.1.1 st.1.2, st.2 + 3))
      st) ((verts, norms), 0)

/-- Body of the normal fix loop of `evalBezierWithNorm` (lines 226-228). -/
def evalBezierWithNorm_fixRow (normalFix o : Nat) (norms : Nat → α) : Nat → α :=
  let norms := Function.update norms (o + 0) 0
  let norms := Function.update norms (o + 1) (if normalFix = 1 then 1 else -1)
  let norms := Function.update norms (o + 2) 0
  norms

/-- The normal fix of `evalBezierWithNorm` (lines 221-230). -/
def evalBezierWithNorm_fix (nSubDivs normalFix : Nat) (norms : Nat → α) : Nat → α :=
  if normalFix ≠ 0 then
    forStride (nSubDivs * 3) 3 (evalBezierWithNorm_fixRow normalFix) norms
  else
    norms

/-- Function `evalBezierWithNorm`. -/
def evalBezierWithNorm (sqrt : α → α) (cp : Nat → Nat → Nat → α) (nSubDivs : Nat)
    (bern_0 bern_1 : Nat → Nat → α) (flag normalFix : Nat) (verts norms : Nat → α) :
    EvalResult α :=
  let nVerts := nSubDivs * nSubDivs
  let nVertVals := nVerts * 3
  let st := evalBezierWithNorm_grid sqrt cp nSubDivs bern_0 bern_1 verts norms
  let verts := st.1.1
  let norms := evalBezierWithNorm_fix nSubDivs normalFix st.1.2
  { verts := rotOrReflect flag nVertVals nSubDivs verts,
    norms := rotOrReflect flag nVertVals nSubDivs norms,
    ret := nVertVals * flag }

/-! ## Data from `fg_teapot_data.h` and static state (lines 55-76) -/

/-- Contents of the header `fg_teapot_data.h`. -/
structure TeapotData (α : Type) where
  /-- Constant `GLUT_TEAPOT_N_INPUT_PATCHES`. -/
  nInputPatches : Nat
  /-- Table `cpdata[][3]`. -/
  cpdata : Nat → Nat → α
  /-- Table `patchdata[][16]`. -/
  patchdata : Nat → Nat → Nat

/-- Static variables of the translation unit. -/
structure TeapotState (α : Type) where
  /-- Static `bernWire_0`. -/
  bernWire_0 : Nat → Nat → α
  /-- Static `bernWire_1`. -/
  bernWire_1 : Nat → Nat → α
  /-- Static `bernSolid_0`. -/
  bernSolid_0 : Nat → Nat → α
  /-- Static `bernSolid_1`. -/
  bernSolid_1 : Nat → Nat → α
  /-- Static `vertIdxsSolid`. -/
  vertIdxsSolid : Nat → Nat
  /-- Static `normsSolid`. -/
  normsSolid : Nat → α
  /-- Static `vertsSolid`. -/
  vertsSolid : Nat → α
  /-- Static `texcsSolid`. -/
  texcsSolid : Nat → α
  /-- Static `lastScaleSolid`. -/
  lastScaleSolid : α
  /-- Static `initedSolid`. -/
  initedSolid : Bool
  /-- Static `vertIdxsWire`. -/
  vertIdxsWire : Nat → Nat
  /-- Static `normsWire`. -/
  normsWire : Nat → α
  /-- Static `vertsWire`. -/
  vertsWire : Nat → α
  /-- Static `lastScaleWire`. -/
  lastScaleWire : α
  /-- Static `initedWire`. -/
  initedWire : Bool

/-- State at program start: statics are zero-initialised. -/
def initState : TeapotState α where
  bernWire_0 := fun _ _ => 0
  bernWire_1 := fun _ _ => 0
  bernSolid_0 := fun _ _ => 0
  bernSolid_1 := fun _ _ => 0
  vertIdxsSolid := fun _ => 0
  normsSolid := fun _ => 0
  vertsSolid := fun _ => 0
  texcsSolid := fun _ => 0
  lastScaleSolid := 0
  initedSolid := false
  vertIdxsWire := fun _ => 0
  normsWire := fun _ => 0
  vertsWire := fun _ => 0
  lastScaleWire := 0
  initedWire := false

/-- Observable actions of `fghTeapot`: the line it prints and the call to the
external drawing routine, with the counts passed. -/
inductive Event where
  /-- Action `printf("regen\n")`. -/
  | printRegen
  /-- Call `fghDrawGeometryWire(verts, norms, numVertices, vertIdxs, numParts,
  numVertPerPart, GL_LINE_STRIP, NULL, 0, 0)`. -/
  | drawWire (numVertices numParts numVertPerPart : Nat)
  /-- Call `fghDrawGeometrySolid(verts, norms, texcsSolid, numVertices,
  vertIdxs, numParts, numVertIdxsPerPart)`. -/
  | drawSolid (numVertices numParts numVertIdxsPerPart : Nat)
  deriving DecidableEq, Repr

/-! ## The generator (lines 274-423) -/

/-- Conversion of an `int` to `GLushort` on a store. -/
def toGLushort (n : Nat) : Nat := n % 2 ^ 16

/-- C `memcpy(buf + dst, buf + src, n * sizeof(GLfloat))` for ranges that do
not overlap. -/
def memcpy {β : Type} (buf : Nat → β) (dst src n : Nat) : Nat → β :=
  fun k => if dst ≤ k ∧ k < dst + n then buf (src + (k - dst)) else buf k

/-- Body of the control point loop of `fghTeapot` (lines 326-328). -/
def fghTeapot_cpStep (d : TeapotData α) (scale : α) (p i : Nat)
    (cp : Nat → Nat → Nat → α) : Nat → Nat → Nat → α :=
  let cp := set3 cp (i / 4) (i % 4) 0 (d.cpdata (d.patchdata p i) 0 * scale / 2)
  let cp := set3 cp (i / 4) (i % 4) 1
    ((d.cpdata (d.patchdata p i) 2 - 3 / 2) * scale / 2)
  let cp := set3 cp (i / 4) (i % 4) 2 (-d.cpdata (d.patchdata p i) 1 * scale / 2)
  cp

/-- Control point collection of `fghTeapot` (lines 317-329) for patch `p`. -/
def fghTeapot_cp (d : TeapotData α) (scale : α) (p : Nat)
    (cp : Nat → Nat → Nat → α) : Nat → Nat → Nat → α :=
  forLoop 16 (fghTeapot_cpStep d scale p) cp

/-- Body of the patch loop of `fghTeapot` (lines 311-335).  The local array
`cp` is not initialised in the source; each of its entries read by the
evaluators is stored by `fghTeapot_cp` in every iteration, so it starts from
zero here. -/
def fghTeapot_patch (d : TeapotData α) (sqrt : α → α) (scale : α) (nSubDivs : Nat)
    (bern_0 bern_1 : Nat → Nat → α) (inited : Bool) (p : Nat)
    (st : ((Nat → α) × (Nat → α)) × Nat) : ((Nat → α) × (Nat → α)) × Nat :=
  let verts := st.1.1
  let norms := st.1.2
  let o := st.2
  let flag := if p < 6 then 4 else 2
  let normalFix := if p = 3 then 1 else if p = 5 then 2 else 0
  let cp := fghTeapot_cp d scale p (fun _ _ _ => 0)
  if inited = false then
    let r := evalBezierWithNorm sqrt cp nSubDivs bern_0 bern_1 flag normalFix
      (ptrAdd verts o) (ptrAdd norms o)
    ((ptrStore verts o r.verts, ptrStore norms o r.norms), o + r.ret)
  else
    let r := evalBezier cp nSubDivs bern_0 flag (ptrAdd verts o)
    ((ptrStore verts o r.1, norms), o + r.2)

/-- Patch loop of `fghTeapot` (lines 309-336): the buffers `(verts, norms)` and
the counter `o` after it. -/
def fghTeapot_patches (d : TeapotData α) (sqrt : α → α) (scale : α) (nSubDivs : Nat)
    (bern_0 bern_1 : Nat → Nat → α) (inited : Bool) (verts norms : Nat → α) :
    ((Nat → α) × (Nat → α)) × Nat :=
  forLoop d.nInputPatches (fghTeapot_patch d sqrt scale nSubDivs bern_0 bern_1 inited)
    ((verts, norms), 0)

/-- Texture coordinates of the solid teapot (lines 345-358). -/
def fghTeapot_texcs (nSubDivs : Nat) (texcsSolid : Nat → α) : Nat → α :=
  let st := forLoop nSubDivs (fun r (st : (Nat → α) × Nat) =>
    let u : α := (r : α) / ((nSubDivs : α) - 1)
    forLoop nSubDivs (fun c (st : (Nat → α) × Nat) =>
      let v : α := (c : α) / ((nSubDivs : α) - 1)
      let o := st.2
      let texcsSolid := Function.update st.1 (o + 0) u
      let texcsSolid := Function.update texcsSolid (o + 1) v
      (texcsSolid, o + 2)) st) (texcsSolid, 0)
  forLoop (GLUT_TEAPOT_N_PATCHES - 1) (fun q texcsSolid =>
    let p := q + 1
    memcpy texcsSolid (p * nSubDivs * nSubDivs * 2) 0 (nSubDivs * nSubDivs * 2)) st.1

/-- First pass of the wire index generation (lines 366-372): strips along
increasing `u`, with the write position `o` carried in the state. -/
def fghTeapot_idxWire_pass1 (nSubDivs : Nat) (st : (Nat → Nat) × Nat) :
    (Nat → Nat) × Nat :=
  forLoop GLUT_TEAPOT_N_PATCHES (fun p (st : (Nat → Nat) × Nat) =>
    let idx := nSubDivs * nSubDivs * p
    forLoop nSubDivs (fun c (st : (Nat → Nat) × Nat) =>
      forLoop nSubDivs (fun r (st : (Nat → Nat) × Nat) =>
        (Function.update st.1 st.2 (toGLushort (idx + r * nSubDivs + c)), st.2 + 1))
        st) st) st

/-- Second pass of the wire index generation (lines 375-384): strips along
increasing `v`; `o` is not reset. -/
def fghTeapot_idxWire_pass2 (nSubDivs : Nat) (st : (Nat → Nat) × Nat) :
    (Nat → Nat) × Nat :=
  forLoop GLUT_TEAPOT_N_PATCHES (fun p (st : (Nat → Nat) × Nat) =>
    let idx := nSubDivs * nSubDivs * p
    forLoop nSubDivs (fun r (st : (Nat → Nat) × Nat) =>
      let loc := r * nSubDivs
      forLoop nSubDivs (fun c (st : (Nat → Nat) × Nat) =>
        (Function.update st.1 st.2 (toGLushort (idx + loc + c)), st.2 + 1)) st) st) st

/-- Wire index generation (lines 364-384): the buffer and the final write
position `o`. -/
def fghTeapot_idxWire_loop (nSubDivs : Nat) (vertIdxs : Nat → Nat) : (Nat → Nat) × Nat :=
  fghTeapot_idxWire_pass2 nSubDivs (fghTeapot_idxWire_pass1 nSubDivs (vertIdxs, 0))

/-- Line-strip indices of the wire teapot (lines 364-384). -/
def fghTeapot_idxWire (nSubDivs : Nat) (vertIdxs : Nat → Nat) : Nat → Nat :=
  (fghTeapot_idxWire_loop nSubDivs vertIdxs).1

/-- Body of the cell loop of the solid index generation (lines 397-407): the
two triangles of cell `(r, c)` of patch copy `p`, stored at offset `o`. -/
def fghTeapot_quad (nSubDivs idx loc c o : Nat) (vertIdxs : Nat → Nat) : Nat → Nat :=
  let row1 := idx + loc + c
  let row2 := row1 + nSubDivs
  let vertIdxs := Function.update vertIdxs (o + 0) (toGLushort (row1 + 0))
  let vertIdxs := Function.update vertIdxs (o + 1) (toGLushort (row2 + 0))
  let vertIdxs := Function.update vertIdxs (o + 2) (toGLushort (row2 + 1))
  let vertIdxs := Function.update vertIdxs (o + 3) (toGLushort (row1 + 0))
  let vertIdxs := Function.update vertIdxs (o + 4) (toGLushort (row2 + 1))
  let vertIdxs := Function.update vertIdxs (o + 5) (toGLushort (row1 + 1))
  vertIdxs

/-- Solid index generation (lines 388-410): the buffer and the final write
position `o`. -/
def fghTeapot_idxSolid_loop (nSubDivs : Nat) (vertIdxs : Nat → Nat) :
    (Nat → Nat) × Nat :=
  forLoop GLUT_TEAPOT_N_PATCHES (fun p (st : (Nat → Nat) × Nat) =>
    let idx := nSubDivs * nSubDivs * p
    forLoop (nSubDivs - 1) (fun r (st : (Nat → Nat) × Nat) =>
      let loc := r * nSubDivs
      forLoop (nSubDivs - 1) (fun c (st : (Nat → Nat) × Nat) =>
        (fghTeapot_quad nSubDivs idx loc c st.2 st.1, st.2 + 6)) st) st) (vertIdxs, 0)

/-- Triangle indices of the solid teapot (lines 388-410). -/
def fghTeapot_idxSolid (nSubDivs : Nat) (vertIdxs : Nat → Nat) : Nat → Nat :=
  (fghTeapot_idxSolid_loop nSubDivs vertIdxs).1

/-- Static `bernWire_0` or `bernSolid_0` (line 287). -/
def TeapotState.bern_0 (st : TeapotState α) (useWireMode : Bool) : Nat → Nat → α :=
  if useWireMode then st.bernWire_0 else st.bernSolid_0

/-- Static `bernWire_1` or `bernSolid_1` (line 288). -/
def TeapotState.bern_1 (st : TeapotState α) (useWireMode : Bool) : Nat → Nat → α :=
  if useWireMode then st.bernWire_1 else st.bernSolid_1

/-- Static `vertsWire` or `vertsSolid` (line 289). -/
def TeapotState.verts (st : TeapotState α) (useWireMode : Bool) : Nat → α :=
  if useWireMode then st.vertsWire else st.vertsSolid

/-- Static `normsWire` or `normsSolid` (line 290). -/
def TeapotState.norms (st : TeapotState α) (useWireMode : Bool) : Nat → α :=
  if useWireMode then st.normsWire else st.normsSolid

/-- Static `lastScaleWire` or `lastScaleSolid` (line 291). -/
def TeapotState.lastScale (st : TeapotState α) (useWireMode : Bool) : α :=
  if useWireMode then st.lastScaleWire else st.lastScaleSolid

/-- Static `vertIdxsWire` or `vertIdxsSolid` (line 292). -/
def TeapotState.vertIdxs (st : TeapotState α) (useWireMode : Bool) : Nat → Nat :=
  if useWireMode then st.vertIdxsWire else st.vertIdxsSolid

/-- Static `initedWire` or `initedSolid` (line 293). -/
def TeapotState.inited (st : TeapotState α) (useWireMode : Bool) : Bool :=
  if useWireMode then st.initedWire else st.initedSolid

/-- Local `nSubDivs` of `fghTeapot` (line 294). -/
def nSubDivsOf (useWireMode : Bool) : Nat :=
  if useWireMode then GLUT_WIRE_TEAPOT_N_SUBDIV else GLUT_SOLID_TEAPOT_N_SUBDIV

/-- Local `nVerts` of `fghTeapot` (line 295). -/
def nVertsOf (useWireMode : Bool) : Nat :=
  if useWireMode then GLUT_WIRE_TEAPOT_N_VERT else GLUT_SOLID_TEAPOT_N_VERT

/-- The call to the drawing routine at the end of `fghTeapot` (lines 419-422). -/
def fghTeapot_draw (useWireMode : Bool) : Event :=
  if useWireMode then
    Event.drawWire (nVertsOf useWireMode)
      (GLUT_TEAPOT_N_PATCHES * nSubDivsOf useWireMode * 2) (nSubDivsOf useWireMode)
  else
    Event.drawSolid (nVertsOf useWireMode) 1 (GLUT_SOLID_TEAPOT_N_TRI * 3)

/-- Regeneration branch of `fghTeapot` (lines 300-414): the static state after
it. -/
def fghTeapot_regen (d : TeapotData α) (sqrt : α → α) (scale : α)
    (useWireMode : Bool) (st : TeapotState α) : TeapotState α :=
  let bern_0 := st.bern_0 useWireMode
  let bern_1 := st.bern_1 useWireMode
  let verts := st.verts useWireMode
  let norms := st.norms useWireMode
  let vertIdxs := st.vertIdxs useWireMode
  let inited := st.inited useWireMode
  let nSubDivs := nSubDivsOf useWireMode
  let nVerts := nVertsOf useWireMode
  let verts := memsetZero verts (nVerts * 3)
  let berns := if inited = false then pregenBernstein nSubDivs bern_0 bern_1
    else (bern_0, bern_1)
  let vn := (fghTeapot_patches d sqrt scale nSubDivs berns.1 berns.2 inited
    verts norms).1
  let lastScale := scale
  let texcsSolid :=
    if inited = false ∧ useWireMode = false then fghTeapot_texcs nSubDivs st.texcsSolid
    else st.texcsSolid
  let vertIdxs :=
    if inited = false then
      if useWireMode then fghTeapot_idxWire nSubDivs vertIdxs
      else fghTeapot_idxSolid nSubDivs vertIdxs
    else vertIdxs
  let inited := if inited = false then true else inited
  if useWireMode then
    { st with bernWire_0 := berns.1, bernWire_1 := berns.2, vertsWire := vn.1,
              normsWire := vn.2, lastScaleWire := lastScale,
              vertIdxsWire := vertIdxs, initedWire := inited }
  else
    { st with bernSolid_0 := berns.1, bernSolid_1 := berns.2, vertsSolid := vn.1,
              normsSolid := vn.2, lastScaleSolid := lastScale,
              vertIdxsSolid := vertIdxs, initedSolid := inited,
              texcsSolid := texcsSolid }

/-- Function `fghTeapot`: the static state after the call and the actions it
performed, in order. -/
def fghTeapot [DecidableEq α] (d : TeapotData α) (sqrt : α → α) (scale : α)
    (useWireMode : Bool) (st : TeapotState α) : TeapotState α × List Event :=
  if st.inited useWireMode = false ∨ scale ≠ st.lastScale useWireMode then
    (fghTeapot_regen d sqrt scale useWireMode st,
      [Event.printRegen, fghTeapot_draw useWireMode])
  else
    (st, [fghTeapot_draw useWireMode])

/-- State after a sequence of calls `(scale, useWireMode)`, first to last. -/
def fghTeapot_calls [DecidableEq α] (d : TeapotData α) (sqrt : α → α)
    (calls : List (α × Bool)) (st : TeapotState α) : TeapotState α :=
  calls.foldl (fun st c => (fghTeapot d sqrt c.1 c.2 st).1) st

end Code

/-! ## Notions used by the specification -/

section Spec

variable {α : Type} [Field α]

/-- Tensor-product sum over the 4x4 control grid, component `c`, with the
weights `wu` on the first index and `wv` on the second. -/
def tensorSum (cp : Nat → Nat → Nat → α) (wu wv : Nat → α) (c : Nat) : α :=
  ∑ i in Finset.range 4, ∑ j in Finset.range 4, wu i * wv j * cp i j c

/-- Tangent in the `u` direction at cell `(u, v)`: `derivBasis[u]` against
`basis[v]`. -/
def tangentU (cp : Nat → Nat → Nat → α) (basis derivBasis : Nat → Nat → α)
    (u v : Nat) : Nat → α :=
  fun c => tensorSum cp (derivBasis u) (basis v) c

/-- Tangent in the `v` direction at cell `(u, v)`: `basis[u]` against
`derivBasis[v]`. -/
def tangentV (cp : Nat → Nat → Nat → α) (basis derivBasis : Nat → Nat → α)
    (u v : Nat) : Nat → α :=
  fun c => tensorSum cp (basis u) (derivBasis v) c

/-- Cross product `a x b` of two 3-vectors. -/
def cross (a b : Nat → α) : Nat → α :=
  fun c =>
    if c = 0 then a 1 * b 2 - a 2 * b 1
    else if c = 1 then a 2 * b 0 - a 0 * b 2
    else a 0 * b 1 - a 1 * b 0

/-- A 3-vector divided by its Euclidean length. -/
def normalize (sqrt : α → α) (w : Nat → α) : Nat → α :=
  fun c => w c / sqrt (w 0 * w 0 + w 1 * w 1 + w 2 * w 2)

/-- Block `b` (1, 2, 3) of `dst` holds the vertex at offset `o` of `src`
rotated about the Y axis by `b` quarter turns: `(z, y, -x)`, `(-x, y, -z)`,
`(-z, y, x)` for the vertex `(x, y, z) = src[o .. o+2]`. -/
def RotatedCopies (nVals : Nat) (src dst : Nat → α) (o : Nat) : Prop :=
  (dst (nVals + o + 0) = src (o + 2) ∧ dst (nVals + o + 1) = src (o + 1)
    ∧ dst (nVals + o + 2) = -src (o + 0)) ∧
  (dst (nVals * 2 + o + 0) = -src (o + 0) ∧ dst (nVals * 2 + o + 1) = src (o + 1)
    ∧ dst (nVals * 2 + o + 2) = -src (o + 2)) ∧
  (dst (nVals * 3 + o + 0) = -src (o + 2) ∧ dst (nVals * 3 + o + 1) = src (o + 1)
    ∧ dst (nVals * 3 + o + 2) = src (o + 0))

/-- Control patch `(i/3, j/3, 0)`, the flat unit square, used in examples. -/
def flatPatch : Nat → Nat → Nat → α :=
  fun i j c => if c = 0 then (i : α) / 3 else if c = 1 then (j : α) / 3 else 0

/-- The all-zero buffer or table row. -/
def zeroBuf : Nat → α := fun _ => 0

/-- The all-zero table. -/
def zeroTab : Nat → Nat → α := fun _ _ => 0

/-- Translation of a point by the vector `t`. -/
def translate (t v : α × α × α) : α × α × α :=
  (v.1 + t.1, v.2.1 + t.2.1, v.2.2 + t.2.2)

/-- Uniform scaling of a point by the factor `k`. -/
def scaleUniform (k : α) (v : α × α × α) : α × α × α :=
  (k * v.1, k * v.2.1, k * v.2.2)

/-- Rotation by 90 degrees about the X axis: `(x, y, z)` goes to
`(x, y cos - z sin, y sin + z cos)` with `cos = 0`, `sin = 1`. -/
def rotateX90 (v : α × α × α) : α × α × α :=
  (v.1, -v.2.2, v.2.1)

/-- Rotation by 270 degrees about the X axis: three quarter turns. -/
def rotateX270 (v : α × α × α) : α × α × α :=
  rotateX90 (rotateX90 (rotateX90 v))

/-- Two buffers hold the same values at every index below `M`. -/
def AgreeBelow {β : Type} (M : Nat) (f g : Nat → β) : Prop :=
  ∀ k, k < M → f k = g k

/-- Example data: control point `a` is `(a, a + 1, a + 2)` and patch `p`
uses the control points `p + i`. -/
def exampleData : TeapotData α where
  nInputPatches := 10
  cpdata := fun a k => (a : α) + (k : α)
  patchdata := fun p i => p + i

/-- Value stored at position `j` (0 to 5) of the six indices of cell `c` of the
row starting at `idx + loc`: the store of lines 401-407 that reaches `o + j`. -/
def quadValue (nSubDivs idx loc c j : Nat) : Nat :=
  if j = 0 then toGLushort (idx + loc + c + 0)
  else if j = 1 then toGLushort (idx + loc + c + nSubDivs + 0)
  else if j = 2 then toGLushort (idx + loc + c + nSubDivs + 1)
  else if j = 3 then toGLushort (idx + loc + c + 0)
  else if j = 4 then toGLushort (idx + loc + c + nSubDivs + 1)
  else toGLushort (idx + loc + c + 1)

/-- Running offset `o` of the patch loop of `fghTeapot` at the start of
iteration `p` (lines 309, 312, 333, 335): the values `nVertVals*flag` returned
for the patches before `p`, added up. -/
def fghTeapot_offset (nSubDivs p : Nat) : Nat :=
  forLoop p (fun q o => o + nSubDivs * nSubDivs * 3 * (if q < 6 then 4 else 2)) 0

/-- Sum of the squares of the three values at offset `o`: the squared Euclidean
length of the vector stored there. -/
def sqLen (buf : Nat → α) (o : Nat) : α :=
  buf (o + 0) * buf (o + 0) + buf (o + 1) * buf (o + 1) + buf (o + 2) * buf (o + 2)

/-- The three values at offset `o` of `buf` are `(x, y, z)`. -/
def VecAt (buf : Nat → α) (o : Nat) (x y z : α) : Prop :=
  buf (o + 0) = x ∧ buf (o + 1) = y ∧ buf (o + 2) = z

/-- The `int` value that the solid index loops (lines 389-410, `nSubDivs = 10`)
assign to entry `j` of the index buffer, before its conversion to `GLushort`:
entry `j` is slot `j % 6` of cell `(r, c) = (j % 486 / 54, j % 54 / 6)` of patch
copy `p = j / 486`. -/
def solidIndexInt (j : Nat) : Nat :=
  let row1 := 10 * 10 * (j / 486) + (j % 486 / 54) * 10 + j % 54 / 6
  let row2 := row1 + 10
  if j % 6 = 0 then row1 + 0
  else if j % 6 = 1 then row2 + 0
  else if j % 6 = 2 then row2 + 1
  else if j % 6 = 3 then row1 + 0
  else if j % 6 = 4 then row2 + 1
  else row1 + 1

/-- The `int` value that the wire index loops (lines 366-384, `nSubDivs = 7`)
assign to entry `j` of the index buffer, before its conversion to `GLushort`:
in the first pass entry `j` is row `j % 7` of column `j % 49 / 7` of patch copy
`j / 49`; in the second pass entry `1568 + j` is column `j % 7` of row
`j % 49 / 7` of patch copy `j / 49`. -/
def wireIndexInt (j : Nat) : Nat :=
  if j < 1568 then 7 * 7 * (j / 49) + (j % 49 % 7) * 7 + j % 49 / 7
  else 7 * 7 * ((j - 1568) / 49) + ((j - 1568) % 49 / 7) * 7 + (j - 1568) % 49 % 7

/-- Below index `M`, every entry of `f` is `s` times the entry of `g`. -/
def ScaledBelow (M : Nat) (s : α) (f g : Nat → α) : Prop :=
  ∀ k, k < M → f k = s * g k

/-- A 3-vector rotated a quarter turn about the Y axis: `(x, y, z)` becomes
`(z, y, -x)`. -/
def rotY (w : Nat → α) : Nat → α :=
  fun c => if c = 0 then w 2 else if c = 2 then -w 0 else w c

/-- A control patch with each of its 16 points rotated a quarter turn about the
Y axis. -/
def rotateCpY (cp : Nat → Nat → Nat → α) : Nat → Nat → Nat → α :=
  fun i j => rotY (cp i j)

end Spec

/-! ## Loop lemmas -/

section Loops

variable {σ τ : Type}

theorem forLoop_succ (n : Nat) (body : Nat → σ → σ) (s : σ) :
    forLoop (n + 1) body s = body n (forLoop n body s) := rfl

/-- Relational induction over two loops of the same length. -/
theorem forLoop_rel (R : σ → τ → Prop) (n : Nat) (f : Nat → σ → σ) (g : Nat → τ → τ)
    (hstep : ∀ i, i < n → ∀ s t, R s t → R (f i s) (g i t)) (s : σ) (t : τ)
    (h : R s t) : R (forLoop n f s) (forLoop n g t) := by
  induction n with
  | zero => exact h
  | succ n ih =>
    exact hstep n (Nat.lt_succ_self n) _ _
      (ih (fun i hi => hstep i (Nat.lt_succ_of_lt hi)))

/-- Invariant induction over a loop. -/
theorem forLoop_inv (P : σ → Prop) (n : Nat) (f : Nat → σ → σ)
    (hstep : ∀ i, i < n → ∀ s, P s → P (f i s)) (s : σ) (h : P s) :
    P (forLoop n f s) := by
  induction n with
  | zero => exact h
  | succ n ih =>
    exact hstep n (Nat.lt_succ_self n) _ (ih (fun i hi => hstep i (Nat.lt_succ_of_lt hi)))

/-- Loops whose bodies agree on the indices visited are equal. -/
theorem forLoop_congr (n : Nat) (f g : Nat → σ → σ)
    (h : ∀ i, i < n → ∀ s, f i s = g i s) (s : σ) : forLoop n f s = forLoop n g s := by
  induction n with
  | zero => rfl
  | succ n ih =>
    rw [forLoop_succ, forLoop_succ, ih (fun i hi => h i (Nat.lt_succ_of_lt hi)),
      h n (Nat.lt_succ_self n)]

/-- A counter advanced by `c` in every iteration is `o + c * i` in iteration `i`. -/
theorem forLoop_counter (c : Nat) (f : Nat → Nat → σ → σ) (n o : Nat) (s : σ) :
    forLoop n (fun i (st : σ × Nat) => (f i st.2 st.1, st.2 + c)) (s, o)
      = (forLoop n (fun i s => f i (o + c * i) s) s, o + c * n) := by
  induction n with
  | zero => simp [forLoop]
  | succ n ih => simp [forLoop, ih, Nat.mul_succ, Nat.add_assoc]

end Loops

/-! ## Stores -/

theorem upd_eq {β : Type} (f : Nat → β) (i k : Nat) (v : β) (h : k = i) :
    Function.update f i v k = v := by
  subst h; simp

theorem upd_ne {β : Type} (f : Nat → β) (i k : Nat) (v : β) (h : k ≠ i) :
    Function.update f i v k = f k := by
  simp [h]

theorem set2_apply {β : Type} (t : Nat → Nat → β) (a b : Nat) (x : β) (a' b' : Nat) :
    set2 t a b x a' b' = if a' = a ∧ b' = b then x else t a' b' := by
  unfold set2
  by_cases ha : a' = a
  · subst ha
    by_cases hb : b' = b
    · subst hb; simp
    · simp [hb]
  · simp [ha]

theorem set3_apply {β : Type} (t : Nat → Nat → Nat → β) (a b c : Nat) (x : β)
    (a' b' c' : Nat) :
    set3 t a b c x a' b' c' = if a' = a ∧ b' = b ∧ c' = c then x else t a' b' c' := by
  unfold set3
  by_cases ha : a' = a
  · subst ha
    simp [set2_apply]
  · simp [ha]

theorem forStride_three {σ : Type} (n : Nat) (body : Nat → σ → σ) (s : σ) :
    forStride (n * 3) 3 body s = forLoop n (fun t => body (3 * t)) s := by
  unfold forStride
  have h : (n * 3 + (3 - 1)) / 3 = n := by omega
  rw [h]

section Proofs

variable {α : Type} [Field α]

/-! ## Bernstein tables -/

/-- One row of `pregenBernstein`. -/
theorem pregenBernstein_row (x : α) (s : Nat) (tabs : (Nat → Nat → α) × (Nat → Nat → α))
    (s' i' : Nat) :
    (forLoop 4 (fun i (tabs : (Nat → Nat → α) × (Nat → Nat → α)) =>
      (set2 tabs.1 s i (bernstein3 (i : Int) x).1,
       set2 tabs.2 s i (bernstein3 (i : Int) x).2)) tabs).1 s' i'
      = (if s' = s ∧ i' < 4 then (bernstein3 (i' : Int) x).1 else tabs.1 s' i') ∧
    (forLoop 4 (fun i (tabs : (Nat → Nat → α) × (Nat → Nat → α)) =>
      (set2 tabs.1 s i (bernstein3 (i : Int) x).1,
       set2 tabs.2 s i (bernstein3 (i : Int) x).2)) tabs).2 s' i'
      = (if s' = s ∧ i' < 4 then (bernstein3 (i' : Int) x).2 else tabs.2 s' i') := by
  simp only [forLoop, set2_apply]
  by_cases hs : s' = s
  · by_cases h3 : i' = 3
    · subst h3; simp [hs]
    by_cases h2 : i' = 2
    · subst h2; simp [hs]
    by_cases h1 : i' = 1
    · subst h1; simp [hs]
    by_cases h0 : i' = 0
    · subst h0; simp [hs]
    have : ¬ i' < 4 := by omega
    simp [hs, h3, h2, h1, h0, this]
  · simp [hs]

/-- Entries of the tables built by `pregenBernstein`. -/
theorem pregenBernstein_apply (N : Nat) (b0 b1 : Nat → Nat → α) (s i : Nat)
    (hs : s < N) (hi : i < 4) :
    (pregenBernstein N b0 b1).1 s i = (bernstein3 (i : Int) ((s : α) / ((N : α) - 1))).1 ∧
    (pregenBernstein N b0 b1).2 s i
      = (bernstein3 (i : Int) ((s : α) / ((N : α) - 1))).2 := by
  unfold pregenBernstein
  generalize hx : (fun s : Nat => (s : α) / ((N : α) - 1)) = X
  have hX : ∀ s : Nat, (s : α) / ((N : α) - 1) = X s := fun s => by rw [← hx]
  simp only [hX]
  generalize N = n at hs
  induction n with
  | zero => omega
  | succ n ih =>
    rw [forLoop_succ]
    have hrow := pregenBernstein_row (X n) n
      (forLoop n (fun s tabs => forLoop 4 (fun i (tabs : (Nat → Nat → α) × (Nat → Nat → α)) =>
        (set2 tabs.1 s i (bernstein3 (i : Int) (X s)).1,
         set2 tabs.2 s i (bernstein3 (i : Int) (X s)).2)) tabs) (b0, b1)) s i
    rw [hrow.1, hrow.2]
    by_cases hsn : s = n
    · subst hsn; simp [hi]
    · have hlt : s < n := by omega
      simp only [hsn, false_and, if_false]
      exact ih hlt

/-! ## Symmetry replication -/

theorem rotOrReflect_rot_loop (nVals : Nat) (vals : Nat → α) (n : Nat)
    (hn : 3 * n ≤ nVals) :
    (∀ k, k < nVals →
      forLoop n (fun t => rotOrReflect_rot nVals (nVals * 2) (nVals * 3) (3 * t)) vals k
        = vals k) ∧
    (∀ t, t < n →
      forLoop n (fun t => rotOrReflect_rot nVals (nVals * 2) (nVals * 3) (3 * t)) vals
          (nVals + 3 * t + 0) = vals (3 * t + 2) ∧
      forLoop n (fun t => rotOrReflect_rot nVals (nVals * 2) (nVals * 3) (3 * t)) vals
          (nVals + 3 * t + 1) = vals (3 * t + 1) ∧
      forLoop n (fun t => rotOrReflect_rot nVals (nVals * 2) (nVals * 3) (3 * t)) vals
          (nVals + 3 * t + 2) = -vals (3 * t + 0) ∧
      forLoop n (fun t => rotOrReflect_rot nVals (nVals * 2) (nVals * 3) (3 * t)) vals
          (nVals * 2 + 3 * t + 0) = -vals (3 * t + 0) ∧
      forLoop n (fun t => rotOrReflect_rot nVals (nVals * 2) (nVals * 3) (3 * t)) vals
          (nVals * 2 + 3 * t + 1) = vals (3 * t + 1) ∧
      forLoop n (fun t => rotOrReflect_rot nVals (nVals * 2) (nVals * 3) (3 * t)) vals
          (nVals * 2 + 3 * t + 2) = -vals (3 * t + 2) ∧
      forLoop n (fun t => rotOrReflect_rot nVals (nVals * 2) (nVals * 3) (3 * t)) vals
          (nVals * 3 + 3 * t + 0) = -vals (3 * t + 2) ∧
      forLoop n (fun t => rotOrReflect_rot nVals (nVals * 2) (nVals * 3) (3 * t)) vals
          (nVals * 3 + 3 * t + 1) = vals (3 * t + 1) ∧
      forLoop n (fun t => rotOrReflect_rot nVals (nVals * 2) (nVals * 3) (3 * t)) vals
          (nVals * 3 + 3 * t + 2) = vals (3 * t + 0)) := by
  induction n with
  | zero => exact ⟨fun k _ => rfl, fun t ht => absurd ht (Nat.not_lt_zero t)⟩
  | succ n ih =>
    obtain ⟨ih1, ih2⟩ := ih (by omega)
    rw [forLoop_succ]
    generalize forLoop n (fun t => rotOrReflect_rot nVals (nVals * 2) (nVals * 3) (3 * t))
      vals = r at ih1 ih2 ⊢
    have h0 := ih1 (3 * n + 0) (by omega)
    have h1 := ih1 (3 * n + 1) (by omega)
    have h2 := ih1 (3 * n + 2) (by omega)
    constructor
    · intro k hk
      unfold rotOrReflect_rot
      simp (disch := omega) only [upd_ne]
      exact ih1 k hk
    · intro t ht
      by_cases htn : t = n
      · subst htn
        unfold rotOrReflect_rot
        simp (disch := omega) only [upd_ne, upd_eq]
        simp only [h0, h1, h2, and_self]
      · have hlt : t < n := by omega
        unfold rotOrReflect_rot
        simp (disch := omega) only [upd_ne]
        exact ih2 t hlt

theorem rotOrReflect_flip_loop (off W : Nat) (vals : Nat → α) (N n : Nat)
    (hoff : off + 3 * N ≤ W) (hn : n ≤ N) :
    (forLoop n (fun t => rotOrReflect_flip off (3 * t)) (vals, W)).2 = W + 3 * n ∧
    (∀ k, k < W →
      (forLoop n (fun t => rotOrReflect_flip off (3 * t)) (vals, W)).1 k = vals k) ∧
    (∀ k, W + 3 * n ≤ k →
      (forLoop n (fun t => rotOrReflect_flip off (3 * t)) (vals, W)).1 k = vals k) ∧
    (∀ c, c < n →
      (forLoop n (fun t => rotOrReflect_flip off (3 * t)) (vals, W)).1 (W + 3 * c + 0)
        = vals (off + 3 * c + 0) ∧
      (forLoop n (fun t => rotOrReflect_flip off (3 * t)) (vals, W)).1 (W + 3 * c + 1)
        = vals (off + 3 * c + 1) ∧
      (forLoop n (fun t => rotOrReflect_flip off (3 * t)) (vals, W)).1 (W + 3 * c + 2)
        = -vals (off + 3 * c + 2)) := by
  induction n with
  | zero =>
    exact ⟨rfl, fun k _ => rfl, fun k _ => rfl, fun c hc => absurd hc (Nat.not_lt_zero c)⟩
  | succ n ih =>
    obtain ⟨iho, ih1, ih2, ih3⟩ := ih (by omega)
    rw [forLoop_succ]
    generalize forLoop n (fun t => rotOrReflect_flip off (3 * t)) (vals, W) = r
      at iho ih1 ih2 ih3 ⊢
    obtain ⟨b, o⟩ := r
    simp only at iho ih1 ih2 ih3
    subst iho
    have h0 := ih1 (off + 3 * n + 0) (by omega)
    have h1 := ih1 (off + 3 * n + 1) (by omega)
    have h2 := ih1 (off + 3 * n + 2) (by omega)
    unfold rotOrReflect_flip
    refine ⟨by simp only; omega, ?_, ?_, ?_⟩
    · intro k hk
      simp (disch := omega) only [upd_ne]
      exact ih1 k hk
    · intro k hk
      simp (disch := omega) only [upd_ne]
      exact ih2 k (by omega)
    · intro c hc
      by_cases hcn : c = n
      · subst hcn
        simp (disch := omega) only [upd_ne, upd_eq]
        simp only [h0, h1, h2, and_self]
      · have hlt : c < n := by omega
        simp (disch := omega) only [upd_ne]
        exact ih3 c hlt

theorem rotOrReflect_flipRow_loop (nVals N : Nat) (vals : Nat → α) (n : Nat)
    (hV : N * N * 3 ≤ nVals) (hn : n ≤ N) :
    (∀ k, k < nVals → forLoop n (rotOrReflect_flipRow nVals N) vals k = vals k) ∧
    (∀ k, nVals + n * N * 3 ≤ k →
      forLoop n (rotOrReflect_flipRow nVals N) vals k = vals k) ∧
    (∀ u c, u < n → c < N →
      forLoop n (rotOrReflect_flipRow nVals N) vals (nVals + u * N * 3 + 3 * c + 0)
        = vals ((N - u - 1) * N * 3 + 3 * c + 0) ∧
      forLoop n (rotOrReflect_flipRow nVals N) vals (nVals + u * N * 3 + 3 * c + 1)
        = vals ((N - u - 1) * N * 3 + 3 * c + 1) ∧
      forLoop n (rotOrReflect_flipRow nVals N) vals (nVals + u * N * 3 + 3 * c + 2)
        = -vals ((N - u - 1) * N * 3 + 3 * c + 2)) := by
  induction n with
  | zero =>
    exact ⟨fun k _ => rfl, fun k _ => rfl, fun u c hu _ => absurd hu (Nat.not_lt_zero u)⟩
  | succ n ih =>
    obtain ⟨ih1, ih2, ih3⟩ := ih (by omega)
    rw [forLoop_succ]
    generalize forLoop n (rotOrReflect_flipRow nVals N) vals = r at ih1 ih2 ih3 ⊢
    have hm : (N - n - 1) * N + N ≤ N * N := by
      have h1 : (N - n - 1 + 1) * N ≤ N * N := Nat.mul_le_mul_right N (by omega)
      rw [Nat.add_mul, Nat.one_mul] at h1
      exact h1
    have hs : (n + 1) * N = n * N + N := by rw [Nat.add_mul, Nat.one_mul]
    obtain ⟨-, f1, f2, f3⟩ := rotOrReflect_flip_loop ((N - n - 1) * N * 3)
      (nVals + n * N * 3) r N N (by omega) (Nat.le_refl N)
    unfold rotOrReflect_flipRow
    simp only [forStride_three]
    refine ⟨?_, ?_, ?_⟩
    · intro k hk
      rw [f1 k (by omega)]
      exact ih1 k hk
    · intro k hk
      rw [f2 k (by omega)]
      exact ih2 k (by omega)
    · intro u c hu hc
      by_cases hun : u = n
      · subst hun
        obtain ⟨g0, g1, g2⟩ := f3 c hc
        rw [g0, g1, g2, ih1 _ (by omega), ih1 _ (by omega), ih1 _ (by omega)]
        exact ⟨rfl, rfl, rfl⟩
      · have hlt : u < n := by omega
        have hu' : u * N + N ≤ n * N := by
          have h1 : (u + 1) * N ≤ n * N := Nat.mul_le_mul_right N (by omega)
          rw [Nat.add_mul, Nat.one_mul] at h1
          exact h1
        rw [f1 _ (by omega), f1 _ (by omega), f1 _ (by omega)]
        exact ih3 u c hlt hc

/-- Base block is left alone by `rotOrReflect`. -/
theorem rotOrReflect_base (flag N : Nat) (vals : Nat → α) (k : Nat)
    (hk : k < N * N * 3) : rotOrReflect flag (N * N * 3) N vals k = vals k := by
  unfold rotOrReflect
  split_ifs with h4 h2
  · simp only [forStride_three]
    exact (rotOrReflect_rot_loop (N * N * 3) vals (N * N) (by omega)).1 k hk
  · exact (rotOrReflect_flipRow_loop (N * N * 3) N vals N (Nat.le_refl _) (Nat.le_refl _)).1 k hk
  · rfl

/-! ## Patch evaluation -/

theorem evalBezier_row_apply (cp : Nat → Nat → Nat → α) (b : Nat → Nat → α) (v i c : Nat)
    (hc : c < 3) :
    evalBezier_row cp b v i c = ∑ j in Finset.range 4, b v j * cp i j c := by
  unfold evalBezier_row
  interval_cases c <;> simp [forLoop, Finset.sum_range_succ, Function.update_apply]

theorem evalBezierWithNorm_row_fst (cp : Nat → Nat → Nat → α) (b0 b1 : Nat → Nat → α)
    (v i : Nat) : (evalBezierWithNorm_row cp b0 b1 v i).1 = evalBezier_row cp b0 v i := by
  unfold evalBezierWithNorm_row evalBezier_row
  exact forLoop_rel (fun (s : (Nat → α) × (Nat → α)) t => s.1 = t) 4 _ _
    (fun j _ s t h => by simp only [h]) _ _ rfl

theorem evalBezierWithNorm_row_snd (cp : Nat → Nat → Nat → α) (b0 b1 : Nat → Nat → α)
    (v i : Nat) : (evalBezierWithNorm_row cp b0 b1 v i).2 = evalBezier_row cp b1 v i := by
  unfold evalBezierWithNorm_row evalBezier_row
  exact forLoop_rel (fun (s : (Nat → α) × (Nat → α)) t => s.2 = t) 4 _ _
    (fun j _ s t h => by simp only [h]) _ _ rfl

theorem evalBezier_acc_apply (cp : Nat → Nat → Nat → α) (b : Nat → Nat → α)
    (u v o i : Nat) (verts : Nat → α) (k : Nat) :
    evalBezier_acc cp b u v o i verts k
      = if k = o + 2 then verts (o + 2) + b u i * evalBezier_row cp b v i 2
        else if k = o + 1 then verts (o + 1) + b u i * evalBezier_row cp b v i 1
        else if k = o + 0 then verts (o + 0) + b u i * evalBezier_row cp b v i 0
        else verts k := by
  unfold evalBezier_acc
  simp only [Function.update_apply]
  split_ifs <;> first | rfl | omega

theorem evalBezier_cell_frame (cp : Nat → Nat → Nat → α) (b : Nat → Nat → α)
    (u v o : Nat) (verts : Nat → α) (k : Nat) (hk : k < o ∨ o + 3 ≤ k) :
    evalBezier_cell cp b u v o verts k = verts k := by
  unfold evalBezier_cell
  have h2 : k ≠ o + 2 := by omega
  have h1 : k ≠ o + 1 := by omega
  have h0 : k ≠ o := by omega
  simp [forLoop, evalBezier_acc_apply, h2, h1, h0]

theorem evalBezier_cell_at (cp : Nat → Nat → Nat → α) (b : Nat → Nat → α)
    (u v o : Nat) (verts : Nat → α) (c : Nat) (hc : c < 3) :
    evalBezier_cell cp b u v o verts (o + c)
      = verts (o + c) + ∑ i in Finset.range 4, ∑ j in Finset.range 4,
          b u i * b v j * cp i j c := by
  unfold evalBezier_cell
  interval_cases c <;>
    simp [forLoop, evalBezier_acc_apply, evalBezier_row_apply, Finset.sum_range_succ] <;>
    ring

/-- Pointwise description of a loop over cells of three values each. -/
theorem cells_row {β : Type} (cellv : Nat → Nat → (Nat → β) → Nat → β)
    (F : Nat → Nat → β → β)
    (hframe : ∀ v o b k, (k < o ∨ o + 3 ≤ k) → cellv v o b k = b k)
    (hat : ∀ v o b c, c < 3 → cellv v o b (o + c) = F v c (b (o + c)))
    (lo n : Nat) (b : Nat → β) :
    (∀ k, (k < lo ∨ lo + 3 * n ≤ k) →
      forLoop n (fun v s => cellv v (lo + 3 * v) s) b k = b k) ∧
    (∀ v c, v < n → c < 3 →
      forLoop n (fun v s => cellv v (lo + 3 * v) s) b (lo + 3 * v + c)
        = F v c (b (lo + 3 * v + c))) := by
  induction n with
  | zero => exact ⟨fun k _ => rfl, fun v c hv _ => absurd hv (Nat.not_lt_zero v)⟩
  | succ n ih =>
    obtain ⟨ih1, ih2⟩ := ih
    rw [forLoop_succ]
    generalize forLoop n (fun v s => cellv v (lo + 3 * v) s) b = r at ih1 ih2 ⊢
    constructor
    · intro k hk
      rw [hframe _ _ _ _ (by omega)]
      exact ih1 k (by omega)
    · intro v c hv hc
      by_cases hvn : v = n
      · subst hvn
        rw [hat _ _ _ _ hc, ih1 _ (by omega)]
      · rw [hframe _ _ _ _ (by omega)]
        exact ih2 v c (by omega) hc

/-- Pointwise description of the `(u, v)` loops over a grid of cells. -/
theorem cells_grid {β : Type} (cell : Nat → Nat → Nat → (Nat → β) → Nat → β)
    (F : Nat → Nat → Nat → β → β)
    (hframe : ∀ u v o b k, (k < o ∨ o + 3 ≤ k) → cell u v o b k = b k)
    (hat : ∀ u v o b c, c < 3 → cell u v o b (o + c) = F u v c (b (o + c)))
    (N n : Nat) (b : Nat → β) :
    (∀ k, 3 * N * n ≤ k →
      forLoop n (fun u s => forLoop N (fun v s => cell u v (3 * N * u + 3 * v) s) s) b k
        = b k) ∧
    (∀ u v c, u < n → v < N → c < 3 →
      forLoop n (fun u s => forLoop N (fun v s => cell u v (3 * N * u + 3 * v) s) s) b
          (3 * N * u + 3 * v + c)
        = F u v c (b (3 * N * u + 3 * v + c))) := by
  induction n with
  | zero => exact ⟨fun k _ => rfl, fun u v c hu _ _ => absurd hu (Nat.not_lt_zero u)⟩
  | succ n ih =>
    obtain ⟨ih1, ih2⟩ := ih
    rw [forLoop_succ]
    generalize forLoop n
      (fun u s => forLoop N (fun v s => cell u v (3 * N * u + 3 * v) s) s) b = r
      at ih1 ih2 ⊢
    obtain ⟨f1, f2⟩ := cells_row (cell n) (F n) (hframe n) (hat n) (3 * N * n) N r
    have hs : 3 * N * (n + 1) = 3 * N * n + 3 * N := by ring
    constructor
    · intro k hk
      rw [f1 k (by omega)]
      exact ih1 k (by omega)
    · intro u v c hu hv hc
      by_cases hun : u = n
      · subst hun
        rw [f2 v c hv hc, ih1 _ (by omega)]
      · have hu' : 3 * N * u + 3 * N ≤ 3 * N * n := by
          have h1 : 3 * N * (u + 1) ≤ 3 * N * n := Nat.mul_le_mul_left _ (by omega)
          rw [Nat.mul_add, Nat.mul_one] at h1
          exact h1
        rw [f1 _ (by omega)]
        exact ih2 u v c (by omega) hv hc

/-- The offset counter of the `(u, v)` loops is `3 * N * u + 3 * v`. -/
theorem grid_counter {σ : Type} (cell : Nat → Nat → Nat → σ → σ) (N n : Nat) (s : σ) :
    forLoop n (fun u st =>
        forLoop N (fun v (st : σ × Nat) => (cell u v st.2 st.1, st.2 + 3)) st) (s, 0)
      = (forLoop n (fun u s => forLoop N (fun v s => cell u v (3 * N * u + 3 * v) s) s) s,
          3 * N * n) := by
  have h : ∀ u (st : σ × Nat),
      forLoop N (fun v (st : σ × Nat) => (cell u v st.2 st.1, st.2 + 3)) st
        = (forLoop N (fun v s => cell u v (st.2 + 3 * v) s) st.1, st.2 + 3 * N) := by
    intro u st
    obtain ⟨s, o⟩ := st
    exact forLoop_counter 3 (cell u) N o s
  simp only [h]
  have h2 := forLoop_counter (3 * N)
    (fun u o s => forLoop N (fun v s => cell u v (o + 3 * v) s) s) n 0 s
  simp only [Nat.zero_add] at h2
  exact h2

theorem evalBezier_grid_eq (cp : Nat → Nat → Nat → α) (N : Nat) (b : Nat → Nat → α)
    (verts : Nat → α) :
    evalBezier_grid cp N b verts
      = (forLoop N (fun u s =>
          forLoop N (fun v s => evalBezier_cell cp b u v (3 * N * u + 3 * v) s) s) verts,
          3 * N * N) := by
  unfold evalBezier_grid
  exact grid_counter (evalBezier_cell cp b) N N verts

/-- Values left by the `(u, v)` loop of `evalBezier`. -/
theorem evalBezier_grid_at (cp : Nat → Nat → Nat → α) (N : Nat) (b : Nat → Nat → α)
    (verts : Nat → α) (u v c : Nat) (hu : u < N) (hv : v < N) (hc : c < 3) :
    (evalBezier_grid cp N b verts).1 (3 * (u * N + v) + c)
      = verts (3 * (u * N + v) + c)
        + ∑ i in Finset.range 4, ∑ j in Finset.range 4, b u i * b v j * cp i j c := by
  rw [evalBezier_grid_eq]
  have hidx : 3 * (u * N + v) + c = 3 * N * u + 3 * v + c := by ring
  rw [hidx]
  exact (cells_grid (evalBezier_cell cp b)
    (fun u v c x => x + ∑ i in Finset.range 4, ∑ j in Finset.range 4,
      b u i * b v j * cp i j c)
    (evalBezier_cell_frame cp b) (evalBezier_cell_at cp b) N N verts).2 u v c hu hv hc

theorem evalBezier_grid_frame (cp : Nat → Nat → Nat → α) (N : Nat) (b : Nat → Nat → α)
    (verts : Nat → α) (k : Nat) (hk : N * N * 3 ≤ k) :
    (evalBezier_grid cp N b verts).1 k = verts k := by
  rw [evalBezier_grid_eq]
  have h3 : 3 * N * N = N * N * 3 := by ring
  exact (cells_grid (evalBezier_cell cp b)
    (fun u v c x => x + ∑ i in Finset.range 4, ∑ j in Finset.range 4,
      b u i * b v j * cp i j c)
    (evalBezier_cell_frame cp b) (evalBezier_cell_at cp b) N N verts).1 k (by omega)

theorem evalBezierWithNorm_acc_verts (cp : Nat → Nat → Nat → α) (b0 b1 : Nat → Nat → α)
    (u v o i : Nat) (acc : CellAcc α) :
    (evalBezierWithNorm_acc cp b0 b1 u v o i acc).verts
      = evalBezier_acc cp b0 u v o i acc.verts := by
  unfold evalBezierWithNorm_acc evalBezier_acc
  simp only [evalBezierWithNorm_row_fst]

theorem evalBezierWithNorm_cell_fst (sqrt : α → α) (cp : Nat → Nat → Nat → α)
    (b0 b1 : Nat → Nat → α) (u v o : Nat) (verts norms : Nat → α) :
    (evalBezierWithNorm_cell sqrt cp b0 b1 u v o verts norms).1
      = evalBezier_cell cp b0 u v o verts := by
  unfold evalBezierWithNorm_cell evalBezier_cell
  exact forLoop_rel (fun (s : CellAcc α) t => s.verts = t) 4 _ _
    (fun i _ s t h => by
      show (evalBezierWithNorm_acc cp b0 b1 u v o i s).verts = evalBezier_acc cp b0 u v o i t
      have h' : s.verts = t := h
      rw [evalBezierWithNorm_acc_verts, h']) _ _ rfl

/-- Positions computed by `evalBezierWithNorm` are those of `evalBezier`. -/
theorem evalBezierWithNorm_grid_verts (sqrt : α → α) (cp : Nat → Nat → Nat → α) (N : Nat)
    (b0 b1 : Nat → Nat → α) (verts norms : Nat → α) :
    (evalBezierWithNorm_grid sqrt cp N b0 b1 verts norms).1.1
      = (evalBezier_grid cp N b0 verts).1 := by
  unfold evalBezierWithNorm_grid evalBezier_grid
  have h := forLoop_rel
    (fun (s : ((Nat → α) × (Nat → α)) × Nat) (t : (Nat → α) × Nat) =>
      s.1.1 = t.1 ∧ s.2 = t.2) N
    (fun u st => forLoop N (fun v (st : ((Nat → α) × (Nat → α)) × Nat) =>
      (evalBezierWithNorm_cell sqrt cp b0 b1 u v st.2 st.1.1 st.1.2, st.2 + 3)) st)
    (fun u st => forLoop N (fun v (st : (Nat → α) × Nat) =>
      (evalBezier_cell cp b0 u v st.2 st.1, st.2 + 3)) st)
    (fun u _ s t h => forLoop_rel
      (fun (s : ((Nat → α) × (Nat → α)) × Nat) (t : (Nat → α) × Nat) =>
        s.1.1 = t.1 ∧ s.2 = t.2) N _ _
      (fun v _ s t h => by
        refine ⟨?_, ?_⟩
        · simp only [evalBezierWithNorm_cell_fst, h.1, h.2]
        · simp only [h.2]) s t h)
    ((verts, norms), 0) (verts, 0) ⟨rfl, rfl⟩
  exact h.1

theorem evalBezierWithNorm_verts (sqrt : α → α) (cp : Nat → Nat → Nat → α) (N : Nat)
    (b0 b1 : Nat → Nat → α) (flag normalFix : Nat) (verts norms : Nat → α) :
    (evalBezierWithNorm sqrt cp N b0 b1 flag normalFix verts norms).verts
      = (evalBezier cp N b0 flag verts).1 := by
  unfold evalBezierWithNorm evalBezier
  simp only [evalBezierWithNorm_grid_verts]

theorem evalBezierWithNorm_ret (sqrt : α → α) (cp : Nat → Nat → Nat → α) (N : Nat)
    (b0 b1 : Nat → Nat → α) (flag normalFix : Nat) (verts norms : Nat → α) :
    (evalBezierWithNorm sqrt cp N b0 b1 flag normalFix verts norms).ret
      = (evalBezier cp N b0 flag verts).2 := rfl

/-- Base block after `evalBezier`. -/
theorem evalBezier_base (cp : Nat → Nat → Nat → α) (N : Nat) (b : Nat → Nat → α)
    (flag : Nat) (verts : Nat → α) (u v c : Nat) (hu : u < N) (hv : v < N) (hc : c < 3) :
    (evalBezier cp N b flag verts).1 (3 * (u * N + v) + c)
      = verts (3 * (u * N + v) + c)
        + ∑ i in Finset.range 4, ∑ j in Finset.range 4, b u i * b v j * cp i j c := by
  have hlt : 3 * (u * N + v) + c < N * N * 3 := by
    have h1 : (u + 1) * N ≤ N * N := Nat.mul_le_mul_right N (by omega)
    rw [Nat.add_mul, Nat.one_mul] at h1
    omega
  unfold evalBezier
  simp only
  rw [rotOrReflect_base flag N _ _ hlt]
  exact evalBezier_grid_at cp N b verts u v c hu hv hc

/-! ## Normals -/

theorem evalBezierWithNorm_acc_tan (cp : Nat → Nat → Nat → α) (b0 b1 : Nat → Nat → α)
    (u v o : Nat) (verts : Nat → α) (c : Nat) (hc : c < 3) :
    (forLoop 4 (evalBezierWithNorm_acc cp b0 b1 u v o)
        { verts := verts, tan1 := fun _ => 0, tan2 := fun _ => 0 }).tan1 c
      = tangentV cp b0 b1 u v c ∧
    (forLoop 4 (evalBezierWithNorm_acc cp b0 b1 u v o)
        { verts := verts, tan1 := fun _ => 0, tan2 := fun _ => 0 }).tan2 c
      = tangentU cp b0 b1 u v c := by
  interval_cases c <;>
    simp [forLoop, evalBezierWithNorm_acc, evalBezierWithNorm_row_fst,
      evalBezierWithNorm_row_snd, evalBezier_row_apply, tangentU, tangentV, tensorSum,
      Finset.sum_range_succ, Function.update_apply] <;>
    constructor <;> ring

theorem evalBezierWithNorm_normal_frame (sqrt : α → α) (t1 t2 : Nat → α) (o : Nat)
    (norms : Nat → α) (k : Nat) (hk : k < o ∨ o + 3 ≤ k) :
    evalBezierWithNorm_normal sqrt t1 t2 o norms k = norms k := by
  unfold evalBezierWithNorm_normal
  simp (disch := omega) only [upd_ne]

theorem evalBezierWithNorm_normal_at (sqrt : α → α) (t1 t2 : Nat → α) (o : Nat)
    (norms : Nat → α) (c : Nat) (hc : c < 3) :
    evalBezierWithNorm_normal sqrt t1 t2 o norms (o + c) = normalize sqrt (cross t1 t2) c := by
  unfold evalBezierWithNorm_normal normalize cross
  interval_cases c <;> simp (disch := omega) only [upd_ne, upd_eq] <;> simp

theorem evalBezierWithNorm_cell_snd_frame (sqrt : α → α) (cp : Nat → Nat → Nat → α)
    (b0 b1 : Nat → Nat → α) (u v o : Nat) (verts norms : Nat → α) (k : Nat)
    (hk : k < o ∨ o + 3 ≤ k) :
    (evalBezierWithNorm_cell sqrt cp b0 b1 u v o verts norms).2 k = norms k := by
  unfold evalBezierWithNorm_cell
  exact evalBezierWithNorm_normal_frame sqrt _ _ o norms k hk

theorem evalBezierWithNorm_cell_snd_at (sqrt : α → α) (cp : Nat → Nat → Nat → α)
    (b0 b1 : Nat → Nat → α) (u v o : Nat) (verts norms : Nat → α) (c : Nat)
    (hc : c < 3) :
    (evalBezierWithNorm_cell sqrt cp b0 b1 u v o verts norms).2 (o + c)
      = normalize sqrt (cross (tangentV cp b0 b1 u v) (tangentU cp b0 b1 u v)) c := by
  unfold evalBezierWithNorm_cell
  simp only
  rw [evalBezierWithNorm_normal_at sqrt _ _ o norms c hc]
  unfold normalize cross
  simp only [(evalBezierWithNorm_acc_tan cp b0 b1 u v o verts 0 (by omega)).1,
    (evalBezierWithNorm_acc_tan cp b0 b1 u v o verts 1 (by omega)).1,
    (evalBezierWithNorm_acc_tan cp b0 b1 u v o verts 2 (by omega)).1,
    (evalBezierWithNorm_acc_tan cp b0 b1 u v o verts 0 (by omega)).2,
    (evalBezierWithNorm_acc_tan cp b0 b1 u v o verts 1 (by omega)).2,
    (evalBezierWithNorm_acc_tan cp b0 b1 u v o verts 2 (by omega)).2]

/-- Normals written by one cell do not depend on the position buffer. -/
theorem evalBezierWithNorm_cell_snd_indep (sqrt : α → α) (cp : Nat → Nat → Nat → α)
    (b0 b1 : Nat → Nat → α) (u v o : Nat) (verts verts' norms : Nat → α) :
    (evalBezierWithNorm_cell sqrt cp b0 b1 u v o verts norms).2
      = (evalBezierWithNorm_cell sqrt cp b0 b1 u v o verts' norms).2 := by
  funext k
  by_cases hk : k < o ∨ o + 3 ≤ k
  · rw [evalBezierWithNorm_cell_snd_frame _ _ _ _ _ _ _ _ _ _ hk,
      evalBezierWithNorm_cell_snd_frame _ _ _ _ _ _ _ _ _ _ hk]
  · have hko : k = o + (k - o) := by omega
    rw [hko, evalBezierWithNorm_cell_snd_at _ _ _ _ _ _ _ _ _ _ (by omega),
      evalBezierWithNorm_cell_snd_at _ _ _ _ _ _ _ _ _ _ (by omega)]

theorem evalBezierWithNorm_grid_norms (sqrt : α → α) (cp : Nat → Nat → Nat → α) (N : Nat)
    (b0 b1 : Nat → Nat → α) (verts norms : Nat → α) :
    (evalBezierWithNorm_grid sqrt cp N b0 b1 verts norms).1.2
      = forLoop N (fun u s => forLoop N (fun v s =>
          (evalBezierWithNorm_cell sqrt cp b0 b1 u v (3 * N * u + 3 * v) (fun _ => 0) s).2)
          s) norms := by
  unfold evalBezierWithNorm_grid
  have hc := grid_counter
    (fun u v o (s : (Nat → α) × (Nat → α)) =>
      evalBezierWithNorm_cell sqrt cp b0 b1 u v o s.1 s.2) N N (verts, norms)
  simp only at hc
  rw [hc]
  simp only
  exact forLoop_rel (fun (s : (Nat → α) × (Nat → α)) (t : Nat → α) => s.2 = t) N _ _
    (fun u _ s t h => forLoop_rel
      (fun (s : (Nat → α) × (Nat → α)) (t : Nat → α) => s.2 = t) N _ _
      (fun v _ s t h => by
        have h' : s.2 = t := h
        show (evalBezierWithNorm_cell sqrt cp b0 b1 u v (3 * N * u + 3 * v) s.1 s.2).2
          = (evalBezierWithNorm_cell sqrt cp b0 b1 u v (3 * N * u + 3 * v) (fun _ => 0) t).2
        rw [h']
        exact evalBezierWithNorm_cell_snd_indep _ _ _ _ _ _ _ _ _ _) s t h)
    (verts, norms) norms rfl

/-- Normal left by the `(u, v)` loop of `evalBezierWithNorm` for cell `(u, v)`. -/
theorem evalBezierWithNorm_grid_norms_at (sqrt : α → α) (cp : Nat → Nat → Nat → α)
    (N : Nat) (b0 b1 : Nat → Nat → α) (verts norms : Nat → α) (u v c : Nat)
    (hu : u < N) (hv : v < N) (hc : c < 3) :
    (evalBezierWithNorm_grid sqrt cp N b0 b1 verts norms).1.2 (3 * (u * N + v) + c)
      = normalize sqrt (cross (tangentV cp b0 b1 u v) (tangentU cp b0 b1 u v)) c := by
  rw [evalBezierWithNorm_grid_norms]
  have hidx : 3 * (u * N + v) + c = 3 * N * u + 3 * v + c := by ring
  rw [hidx]
  exact (cells_grid
    (fun u v o s => (evalBezierWithNorm_cell sqrt cp b0 b1 u v o (fun _ => 0) s).2)
    (fun u v c _ =>
      normalize sqrt (cross (tangentV cp b0 b1 u v) (tangentU cp b0 b1 u v)) c)
    (fun u v o b k hk => evalBezierWithNorm_cell_snd_frame sqrt cp b0 b1 u v o _ b k hk)
    (fun u v o b c hc => evalBezierWithNorm_cell_snd_at sqrt cp b0 b1 u v o _ b c hc)
    N N norms).2 u v c hu hv hc

theorem evalBezierWithNorm_grid_norms_frame (sqrt : α → α) (cp : Nat → Nat → Nat → α)
    (N : Nat) (b0 b1 : Nat → Nat → α) (verts norms : Nat → α) (k : Nat)
    (hk : N * N * 3 ≤ k) :
    (evalBezierWithNorm_grid sqrt cp N b0 b1 verts norms).1.2 k = norms k := by
  rw [evalBezierWithNorm_grid_norms]
  have h3 : 3 * N * N = N * N * 3 := by ring
  exact (cells_grid
    (fun u v o s => (evalBezierWithNorm_cell sqrt cp b0 b1 u v o (fun _ => 0) s).2)
    (fun u v c _ =>
      normalize sqrt (cross (tangentV cp b0 b1 u v) (tangentU cp b0 b1 u v)) c)
    (fun u v o b k hk => evalBezierWithNorm_cell_snd_frame sqrt cp b0 b1 u v o _ b k hk)
    (fun u v o b c hc => evalBezierWithNorm_cell_snd_at sqrt cp b0 b1 u v o _ b c hc)
    N N norms).1 k (by omega)

theorem rotOrReflect_four (vals : Nat → α) (m nSubDivs t : Nat) (ht : t < m) :
    RotatedCopies (3 * m) vals (rotOrReflect 4 (3 * m) nSubDivs vals) (3 * t) := by
  unfold rotOrReflect RotatedCopies
  have h3 : 3 * m = m * 3 := Nat.mul_comm 3 m
  simp only [if_true]
  rw [h3, forStride_three, ← h3]
  obtain ⟨h0, h1, h2, h3, h4, h5, h6, h7, h8⟩ :=
    (rotOrReflect_rot_loop (3 * m) vals m (Nat.le_refl _)).2 t ht
  exact ⟨⟨h0, h1, h2⟩, ⟨h3, h4, h5⟩, ⟨h6, h7, h8⟩⟩

theorem rotOrReflect_four_base (vals : Nat → α) (m nSubDivs k : Nat) (hk : k < 3 * m) :
    rotOrReflect 4 (3 * m) nSubDivs vals k = vals k := by
  unfold rotOrReflect
  have h3 : 3 * m = m * 3 := Nat.mul_comm 3 m
  simp only [if_true]
  rw [h3, forStride_three, ← h3]
  exact (rotOrReflect_rot_loop (3 * m) vals m (Nat.le_refl _)).1 k hk

/-- Copies made by `rotOrReflect 4`, relative to the base block it leaves. -/
theorem rotOrReflect_four_self (vals : Nat → α) (m nSubDivs t : Nat) (ht : t < m) :
    RotatedCopies (3 * m) (rotOrReflect 4 (3 * m) nSubDivs vals)
      (rotOrReflect 4 (3 * m) nSubDivs vals) (3 * t) := by
  have h := rotOrReflect_four vals m nSubDivs t ht
  unfold RotatedCopies at h ⊢
  rw [rotOrReflect_four_base vals m nSubDivs (3 * t + 0) (by omega),
    rotOrReflect_four_base vals m nSubDivs (3 * t + 1) (by omega),
    rotOrReflect_four_base vals m nSubDivs (3 * t + 2) (by omega)]
  exact h

/-! ## Claims C1 to C5 -/

/-- C1: for every control patch `cp`, subdivision count `N` and grid cell
`(u, v)` with `u, v < N`, when the patch's block of the output buffer is zero on
entry, `evalBezier` and `evalBezierWithNorm` both leave in
`verts[3*(u*N+v)+k]` (`k = 0, 1, 2`) the tensor-product sum over `i, j` in `0..3`
of `basis[u][i] * basis[v][j] * cp[i][j][k]`. -/
theorem evalBezier_tensor_product (sqrt : α → α) (cp : Nat → Nat → Nat → α) (N : Nat)
    (basis derivBasis : Nat → Nat → α) (flag normalFix : Nat) (verts norms : Nat → α)
    (u v k : Nat) (hu : u < N) (hv : v < N) (hk : k < 3)
    (hz : ∀ i, i < N * N * 3 → verts i = 0) :
    (evalBezier cp N basis flag verts).1 (3 * (u * N + v) + k)
      = ∑ i in Finset.range 4, ∑ j in Finset.range 4, basis u i * basis v j * cp i j k ∧
    (evalBezierWithNorm sqrt cp N basis derivBasis flag normalFix verts norms).verts
        (3 * (u * N + v) + k)
      = ∑ i in Finset.range 4, ∑ j in Finset.range 4, basis u i * basis v j * cp i j k := by
  have hlt : 3 * (u * N + v) + k < N * N * 3 := by
    have h1 : (u + 1) * N ≤ N * N := Nat.mul_le_mul_right N (by omega)
    rw [Nat.add_mul, Nat.one_mul] at h1
    omega
  have h := evalBezier_base cp N basis flag verts u v k hu hv hk
  rw [hz _ hlt, zero_add] at h
  exact ⟨h, by rw [evalBezierWithNorm_verts]; exact h⟩

/-- C1 at the flat patch with `N = 2`, cell `(1, 0)`, component `0`. -/
theorem evalBezier_tensor_product_witness :
    (1 < 2 ∧ 0 < 2 ∧ 0 < 3 ∧ ∀ i, i < 2 * 2 * 3 → (zeroBuf : Nat → ℚ) i = 0) ∧
    ((evalBezier flatPatch 2 (pregenBernstein 2 zeroTab zeroTab).1 4
        (zeroBuf : Nat → ℚ)).1 (3 * (1 * 2 + 0) + 0)
      = ∑ i in Finset.range 4, ∑ j in Finset.range 4,
          (pregenBernstein 2 zeroTab zeroTab).1 1 i
            * (pregenBernstein 2 zeroTab zeroTab).1 0 j * flatPatch i j 0 ∧
    (evalBezierWithNorm (fun x => x) flatPatch 2 (pregenBernstein 2 zeroTab zeroTab).1
        (pregenBernstein 2 zeroTab zeroTab).2 4 0 (zeroBuf : Nat → ℚ) zeroBuf).verts
        (3 * (1 * 2 + 0) + 0)
      = ∑ i in Finset.range 4, ∑ j in Finset.range 4,
          (pregenBernstein 2 zeroTab zeroTab).1 1 i
            * (pregenBernstein 2 zeroTab zeroTab).1 0 j * flatPatch i j 0) :=
  ⟨⟨by decide, by decide, by decide, fun _ _ => rfl⟩,
    evalBezier_tensor_product (fun x => x) flatPatch 2 _ _ 4 0 zeroBuf zeroBuf 1 0 0
      (by decide) (by decide) (by decide) (fun _ _ => rfl)⟩

/-- C2 (as amended): for every control patch `cp`, `N` and grid cell `(u, v)`, the
normal that `evalBezierWithNorm` computes for that cell in the base block, before
any polar correction, is `normalize (tangent_v x tangent_u)`: the cross product
is taken in the order `(d/dv) x (d/du)`.  With `normalFix = 0` this is also the
value in the buffer returned. -/
theorem evalBezierWithNorm_normal_order (sqrt : α → α) (cp : Nat → Nat → Nat → α)
    (N : Nat) (basis derivBasis : Nat → Nat → α) (flag : Nat) (verts norms : Nat → α)
    (u v k : Nat) (hu : u < N) (hv : v < N) (hk : k < 3) :
    (evalBezierWithNorm_grid sqrt cp N basis derivBasis verts norms).1.2
        (3 * (u * N + v) + k)
      = normalize sqrt (cross (tangentV cp basis derivBasis u v)
          (tangentU cp basis derivBasis u v)) k ∧
    (evalBezierWithNorm sqrt cp N basis derivBasis flag 0 verts norms).norms
        (3 * (u * N + v) + k)
      = normalize sqrt (cross (tangentV cp basis derivBasis u v)
          (tangentU cp basis derivBasis u v)) k := by
  have hlt : 3 * (u * N + v) + k < N * N * 3 := by
    have h1 : (u + 1) * N ≤ N * N := Nat.mul_le_mul_right N (by omega)
    rw [Nat.add_mul, Nat.one_mul] at h1
    omega
  have h := evalBezierWithNorm_grid_norms_at sqrt cp N basis derivBasis verts norms
    u v k hu hv hk
  refine ⟨h, ?_⟩
  unfold evalBezierWithNorm
  simp only
  rw [rotOrReflect_base flag N _ _ hlt]
  unfold evalBezierWithNorm_fix
  simp only [ne_eq, not_true_eq_false, if_false]
  exact h

/-- C2 (as amended) at the flat patch with `N = 2`, cell `(0, 0)`, component `2`. -/
theorem evalBezierWithNorm_normal_order_witness :
    (0 < 2 ∧ 0 < 2 ∧ 2 < 3) ∧
    ((evalBezierWithNorm_grid (fun x => x) flatPatch 2 (pregenBernstein 2 zeroTab zeroTab).1
        (pregenBernstein 2 zeroTab zeroTab).2 (zeroBuf : Nat → ℚ) zeroBuf).1.2
        (3 * (0 * 2 + 0) + 2)
      = normalize (fun x => x)
          (cross (tangentV flatPatch (pregenBernstein 2 zeroTab zeroTab).1
              (pregenBernstein 2 zeroTab zeroTab).2 0 0)
            (tangentU flatPatch (pregenBernstein 2 zeroTab zeroTab).1
              (pregenBernstein 2 zeroTab zeroTab).2 0 0)) 2 ∧
    (evalBezierWithNorm (fun x => x) flatPatch 2 (pregenBernstein 2 zeroTab zeroTab).1
        (pregenBernstein 2 zeroTab zeroTab).2 4 0 (zeroBuf : Nat → ℚ) zeroBuf).norms
        (3 * (0 * 2 + 0) + 2)
      = normalize (fun x => x)
          (cross (tangentV flatPatch (pregenBernstein 2 zeroTab zeroTab).1
              (pregenBernstein 2 zeroTab zeroTab).2 0 0)
            (tangentU flatPatch (pregenBernstein 2 zeroTab zeroTab).1
              (pregenBernstein 2 zeroTab zeroTab).2 0 0)) 2) :=
  ⟨⟨by decide, by decide, by decide⟩,
    evalBezierWithNorm_normal_order (fun x => x) flatPatch 2 _ _ 4 zeroBuf zeroBuf 0 0 2
      (by decide) (by decide) (by decide)⟩

/-- Bernstein tables for `N = 2` at sample `0`: `basis[0] = (1, 0, 0, 0)` and
`derivBasis[0] = (-3, 3, 0, 0)`. -/
theorem pregenBernstein_two_zero (i : Nat) (hi : i < 4) :
    (pregenBernstein 2 (zeroTab : Nat → Nat → α) zeroTab).1 0 i
      = (if i = 0 then 1 else 0) ∧
    (pregenBernstein 2 (zeroTab : Nat → Nat → α) zeroTab).2 0 i
      = (if i = 0 then -3 else if i = 1 then 3 else 0) := by
  obtain ⟨h1, h2⟩ := pregenBernstein_apply 2 (zeroTab : Nat → Nat → α) zeroTab 0 i
    (by decide) hi
  rw [h1, h2]
  interval_cases i <;> simp [bernstein3]

/-- Tangents of the flat patch at cell `(0, 0)` for `N = 2`. -/
theorem flatPatch_tangents (c : Nat) (hc : c < 3) :
    tangentU (flatPatch : Nat → Nat → Nat → α)
        (pregenBernstein 2 zeroTab zeroTab).1 (pregenBernstein 2 zeroTab zeroTab).2 0 0 c
      = 3 * ((if c = 0 then 1 else 0) / 3) ∧
    tangentV (flatPatch : Nat → Nat → Nat → α)
        (pregenBernstein 2 zeroTab zeroTab).1 (pregenBernstein 2 zeroTab zeroTab).2 0 0 c
      = 3 * ((if c = 1 then 1 else 0) / 3) := by
  unfold tangentU tangentV tensorSum
  simp only [Finset.sum_range_succ, Finset.sum_range_zero,
    (pregenBernstein_two_zero 0 (by decide)).1, (pregenBernstein_two_zero 1 (by decide)).1,
    (pregenBernstein_two_zero 2 (by decide)).1, (pregenBernstein_two_zero 3 (by decide)).1,
    (pregenBernstein_two_zero 0 (by decide)).2, (pregenBernstein_two_zero 1 (by decide)).2,
    (pregenBernstein_two_zero 2 (by decide)).2, (pregenBernstein_two_zero 3 (by decide)).2]
  interval_cases c <;> simp [flatPatch]

/-- C2 fails as stated: for the flat patch `cp[i][j] = (i/3, j/3, 0)` with `N = 2`
over the reals, the third component of the normal computed for cell `(0, 0)` is
`-1`, whereas `normalize (tangent_u x tangent_v)` has third component `1`. -/
theorem evalBezierWithNorm_cross_order_counterexample :
    (evalBezierWithNorm_grid Real.sqrt flatPatch 2 (pregenBernstein 2 zeroTab zeroTab).1
        (pregenBernstein 2 zeroTab zeroTab).2 zeroBuf zeroBuf).1.2 (3 * (0 * 2 + 0) + 2)
      = -1 ∧
    normalize Real.sqrt
        (cross (tangentU flatPatch (pregenBernstein 2 zeroTab zeroTab).1
            (pregenBernstein 2 zeroTab zeroTab).2 0 0)
          (tangentV flatPatch (pregenBernstein 2 zeroTab zeroTab).1
            (pregenBernstein 2 zeroTab zeroTab).2 0 0)) 2
      = 1 ∧
    (evalBezierWithNorm_grid Real.sqrt flatPatch 2 (pregenBernstein 2 zeroTab zeroTab).1
        (pregenBernstein 2 zeroTab zeroTab).2 zeroBuf zeroBuf).1.2 (3 * (0 * 2 + 0) + 2)
      ≠ normalize Real.sqrt
        (cross (tangentU flatPatch (pregenBernstein 2 zeroTab zeroTab).1
            (pregenBernstein 2 zeroTab zeroTab).2 0 0)
          (tangentV flatPatch (pregenBernstein 2 zeroTab zeroTab).1
            (pregenBernstein 2 zeroTab zeroTab).2 0 0)) 2 := by
  have hs := evalBezierWithNorm_grid_norms_at Real.sqrt (flatPatch : Nat → Nat → Nat → ℝ)
    2 (pregenBernstein 2 zeroTab zeroTab).1 (pregenBernstein 2 zeroTab zeroTab).2
    zeroBuf zeroBuf 0 0 2 (by decide) (by decide) (by decide)
  have hstored : normalize Real.sqrt
        (cross (tangentV (flatPatch : Nat → Nat → Nat → ℝ)
            (pregenBernstein 2 zeroTab zeroTab).1 (pregenBernstein 2 zeroTab zeroTab).2 0 0)
          (tangentU flatPatch (pregenBernstein 2 zeroTab zeroTab).1
            (pregenBernstein 2 zeroTab zeroTab).2 0 0)) 2 = -1 := by
    unfold normalize cross
    simp only [(flatPatch_tangents 0 (by decide)).1, (flatPatch_tangents 1 (by decide)).1,
      (flatPatch_tangents 2 (by decide)).1, (flatPatch_tangents 0 (by decide)).2,
      (flatPatch_tangents 1 (by decide)).2, (flatPatch_tangents 2 (by decide)).2]
    norm_num
  have hclaimed : normalize Real.sqrt
        (cross (tangentU (flatPatch : Nat → Nat → Nat → ℝ)
            (pregenBernstein 2 zeroTab zeroTab).1 (pregenBernstein 2 zeroTab zeroTab).2 0 0)
          (tangentV flatPatch (pregenBernstein 2 zeroTab zeroTab).1
            (pregenBernstein 2 zeroTab zeroTab).2 0 0)) 2 = 1 := by
    unfold normalize cross
    simp only [(flatPatch_tangents 0 (by decide)).1, (flatPatch_tangents 1 (by decide)).1,
      (flatPatch_tangents 2 (by decide)).1, (flatPatch_tangents 0 (by decide)).2,
      (flatPatch_tangents 1 (by decide)).2, (flatPatch_tangents 2 (by decide)).2]
    norm_num
  rw [hs, hstored, hclaimed]
  exact ⟨rfl, rfl, by norm_num⟩

/-- C3: for every buffer `vals`, block size `nVals = 3 * m` and every vertex
offset `o = 3 * t < nVals`, after `rotOrReflect` with `flag = 4` the three
appended blocks hold the base vertex `(x, y, z) = vals[o..o+2]` rotated about the
Y axis: block 1 holds `(z, y, -x)`, block 2 holds `(-x, y, -z)`, block 3 holds
`(-z, y, x)`, and the base vertex itself is kept; in the buffers returned by
`evalBezierWithNorm` with `flag = 4` the same relation holds between the base
block and the three copies, for positions and for normals alike. -/
theorem rotOrReflect_rotation (vals : Nat → α) (m nSubDivs t : Nat) (ht : t < m)
    (sqrt : α → α) (cp : Nat → Nat → Nat → α) (N : Nat) (basis derivBasis : Nat → Nat → α)
    (normalFix : Nat) (verts norms : Nat → α) (w : Nat) (hw : w < N * N) :
    (RotatedCopies (3 * m) vals (rotOrReflect 4 (3 * m) nSubDivs vals) (3 * t) ∧
      rotOrReflect 4 (3 * m) nSubDivs vals (3 * t + 0) = vals (3 * t + 0) ∧
      rotOrReflect 4 (3 * m) nSubDivs vals (3 * t + 1) = vals (3 * t + 1) ∧
      rotOrReflect 4 (3 * m) nSubDivs vals (3 * t + 2) = vals (3 * t + 2)) ∧
    RotatedCopies (N * N * 3)
      (evalBezierWithNorm sqrt cp N basis derivBasis 4 normalFix verts norms).verts
      (evalBezierWithNorm sqrt cp N basis derivBasis 4 normalFix verts norms).verts
      (3 * w) ∧
    RotatedCopies (N * N * 3)
      (evalBezierWithNorm sqrt cp N basis derivBasis 4 normalFix verts norms).norms
      (evalBezierWithNorm sqrt cp N basis derivBasis 4 normalFix verts norms).norms
      (3 * w) := by
  have h3 : N * N * 3 = 3 * (N * N) := Nat.mul_comm _ _
  refine ⟨⟨rotOrReflect_four vals m nSubDivs t ht,
    rotOrReflect_four_base vals m nSubDivs _ (by omega),
    rotOrReflect_four_base vals m nSubDivs _ (by omega),
    rotOrReflect_four_base vals m nSubDivs _ (by omega)⟩, ?_, ?_⟩
  · unfold evalBezierWithNorm
    simp only
    rw [h3]
    exact rotOrReflect_four_self _ (N * N) N w hw
  · unfold evalBezierWithNorm
    simp only
    rw [h3]
    exact rotOrReflect_four_self _ (N * N) N w hw

/-- C3 on a buffer of two vertices and on the flat patch with `N = 2`. -/
theorem rotOrReflect_rotation_witness :
    (1 < 2 ∧ 3 < 2 * 2) ∧
    ((RotatedCopies (3 * 2) (fun k => (k : ℚ)) (rotOrReflect 4 (3 * 2) 1 (fun k => (k : ℚ)))
        (3 * 1) ∧
      rotOrReflect 4 (3 * 2) 1 (fun k => (k : ℚ)) (3 * 1 + 0) = ((3 * 1 + 0 : Nat) : ℚ) ∧
      rotOrReflect 4 (3 * 2) 1 (fun k => (k : ℚ)) (3 * 1 + 1) = ((3 * 1 + 1 : Nat) : ℚ) ∧
      rotOrReflect 4 (3 * 2) 1 (fun k => (k : ℚ)) (3 * 1 + 2) = ((3 * 1 + 2 : Nat) : ℚ)) ∧
    RotatedCopies (2 * 2 * 3)
      (evalBezierWithNorm (fun x => x) flatPatch 2 (pregenBernstein 2 zeroTab zeroTab).1
        (pregenBernstein 2 zeroTab zeroTab).2 4 0 (zeroBuf : Nat → ℚ) zeroBuf).verts
      (evalBezierWithNorm (fun x => x) flatPatch 2 (pregenBernstein 2 zeroTab zeroTab).1
        (pregenBernstein 2 zeroTab zeroTab).2 4 0 (zeroBuf : Nat → ℚ) zeroBuf).verts
      (3 * 3) ∧
    RotatedCopies (2 * 2 * 3)
      (evalBezierWithNorm (fun x => x) flatPatch 2 (pregenBernstein 2 zeroTab zeroTab).1
        (pregenBernstein 2 zeroTab zeroTab).2 4 0 (zeroBuf : Nat → ℚ) zeroBuf).norms
      (evalBezierWithNorm (fun x => x) flatPatch 2 (pregenBernstein 2 zeroTab zeroTab).1
        (pregenBernstein 2 zeroTab zeroTab).2 4 0 (zeroBuf : Nat → ℚ) zeroBuf).norms
      (3 * 3)) :=
  ⟨⟨by decide, by decide⟩,
    rotOrReflect_rotation (fun k => (k : ℚ)) 2 1 1 (by decide) (fun x => x) flatPatch 2
      _ _ 0 zeroBuf zeroBuf 3 (by decide)⟩

/-- C4: for every grid size `N`, every base row `r < N` and every column
`c < N`, after `rotOrReflect` with `flag = 2` and `nVals = N*N*3` the vertex at row
`N-1-r`, column `c` of the appended block equals the base-block vertex at row
`r`, column `c` with its third component negated and its first two components
unchanged; the base-block vertex itself is kept. -/
theorem rotOrReflect_mirror (vals : Nat → α) (N r c : Nat) (hr : r < N) (hc : c < N) :
    (rotOrReflect 2 (N * N * 3) N vals (N * N * 3 + ((N - 1 - r) * N + c) * 3 + 0)
        = vals ((r * N + c) * 3 + 0) ∧
      rotOrReflect 2 (N * N * 3) N vals (N * N * 3 + ((N - 1 - r) * N + c) * 3 + 1)
        = vals ((r * N + c) * 3 + 1) ∧
      rotOrReflect 2 (N * N * 3) N vals (N * N * 3 + ((N - 1 - r) * N + c) * 3 + 2)
        = -vals ((r * N + c) * 3 + 2)) ∧
    (rotOrReflect 2 (N * N * 3) N vals ((r * N + c) * 3 + 0) = vals ((r * N + c) * 3 + 0) ∧
      rotOrReflect 2 (N * N * 3) N vals ((r * N + c) * 3 + 1) = vals ((r * N + c) * 3 + 1) ∧
      rotOrReflect 2 (N * N * 3) N vals ((r * N + c) * 3 + 2)
        = vals ((r * N + c) * 3 + 2)) := by
  have hlt : r * N + N ≤ N * N := by
    have h1 : (r + 1) * N ≤ N * N := Nat.mul_le_mul_right N (by omega)
    rw [Nat.add_mul, Nat.one_mul] at h1
    exact h1
  refine ⟨?_, rotOrReflect_base 2 N vals _ (by omega), rotOrReflect_base 2 N vals _ (by omega),
    rotOrReflect_base 2 N vals _ (by omega)⟩
  obtain ⟨g0, g1, g2⟩ := (rotOrReflect_flipRow_loop (N * N * 3) N vals N (Nat.le_refl _)
    (Nat.le_refl _)).2.2 (N - 1 - r) c (by omega) hc
  have hrow : N - (N - 1 - r) - 1 = r := by omega
  rw [hrow] at g0 g1 g2
  have e0 : N * N * 3 + ((N - 1 - r) * N + c) * 3 + 0
      = N * N * 3 + (N - 1 - r) * N * 3 + 3 * c + 0 := by ring
  have e1 : N * N * 3 + ((N - 1 - r) * N + c) * 3 + 1
      = N * N * 3 + (N - 1 - r) * N * 3 + 3 * c + 1 := by ring
  have e2 : N * N * 3 + ((N - 1 - r) * N + c) * 3 + 2
      = N * N * 3 + (N - 1 - r) * N * 3 + 3 * c + 2 := by ring
  have s0 : (r * N + c) * 3 + 0 = r * N * 3 + 3 * c + 0 := by ring
  have s1 : (r * N + c) * 3 + 1 = r * N * 3 + 3 * c + 1 := by ring
  have s2 : (r * N + c) * 3 + 2 = r * N * 3 + 3 * c + 2 := by ring
  unfold rotOrReflect
  simp only [show (2 : Nat) ≠ 4 by decide, if_false, if_true]
  rw [e0, e1, e2, s0, s1, s2]
  exact ⟨g0, g1, g2⟩

/-- C4 on the 3x3 grid whose entry `k` holds `k`, row `0`, column `1`. -/
theorem rotOrReflect_mirror_witness :
    (0 < 3 ∧ 1 < 3) ∧
    ((rotOrReflect 2 (3 * 3 * 3) 3 (fun k => (k : ℚ))
          (3 * 3 * 3 + ((3 - 1 - 0) * 3 + 1) * 3 + 0)
        = (((0 * 3 + 1) * 3 + 0 : Nat) : ℚ) ∧
      rotOrReflect 2 (3 * 3 * 3) 3 (fun k => (k : ℚ))
          (3 * 3 * 3 + ((3 - 1 - 0) * 3 + 1) * 3 + 1)
        = (((0 * 3 + 1) * 3 + 1 : Nat) : ℚ) ∧
      rotOrReflect 2 (3 * 3 * 3) 3 (fun k => (k : ℚ))
          (3 * 3 * 3 + ((3 - 1 - 0) * 3 + 1) * 3 + 2)
        = -(((0 * 3 + 1) * 3 + 2 : Nat) : ℚ)) ∧
    (rotOrReflect 2 (3 * 3 * 3) 3 (fun k => (k : ℚ)) ((0 * 3 + 1) * 3 + 0)
        = (((0 * 3 + 1) * 3 + 0 : Nat) : ℚ) ∧
      rotOrReflect 2 (3 * 3 * 3) 3 (fun k => (k : ℚ)) ((0 * 3 + 1) * 3 + 1)
        = (((0 * 3 + 1) * 3 + 1 : Nat) : ℚ) ∧
      rotOrReflect 2 (3 * 3 * 3) 3 (fun k => (k : ℚ)) ((0 * 3 + 1) * 3 + 2)
        = (((0 * 3 + 1) * 3 + 2 : Nat) : ℚ))) :=
  ⟨⟨by decide, by decide⟩, rotOrReflect_mirror (fun k => (k : ℚ)) 3 0 1 (by decide) (by decide)⟩

/-- C5: for every `N > 1`, every sample `s < N` and `x = s/(N-1)`,
`pregenBernstein` stores
`basis[s] = ((1-x)^3, 3x(1-x)^2, 3x^2(1-x), x^3)` and
`derivBasis[s] = (-3(1-x)^2, 3(1-x)^2 - 6x(1-x), 6x(1-x) - 3x^2, 3x^2)`,
whatever the tables `b0`, `b1` held before: the entries depend only on `N`.
The bound `1 < N` is the one of the source, where `N = 1` divides by zero. -/
theorem pregenBernstein_spec (N s : Nat) (_hN : 1 < N) (hs : s < N)
    (b0 b1 : Nat → Nat → α) :
    ((pregenBernstein N b0 b1).1 s 0 = (1 - (s : α) / ((N : α) - 1)) ^ 3 ∧
      (pregenBernstein N b0 b1).1 s 1
        = 3 * ((s : α) / ((N : α) - 1)) * (1 - (s : α) / ((N : α) - 1)) ^ 2 ∧
      (pregenBernstein N b0 b1).1 s 2
        = 3 * ((s : α) / ((N : α) - 1)) ^ 2 * (1 - (s : α) / ((N : α) - 1)) ∧
      (pregenBernstein N b0 b1).1 s 3 = ((s : α) / ((N : α) - 1)) ^ 3) ∧
    ((pregenBernstein N b0 b1).2 s 0 = -3 * (1 - (s : α) / ((N : α) - 1)) ^ 2 ∧
      (pregenBernstein N b0 b1).2 s 1
        = 3 * (1 - (s : α) / ((N : α) - 1)) ^ 2
          - 6 * ((s : α) / ((N : α) - 1)) * (1 - (s : α) / ((N : α) - 1)) ∧
      (pregenBernstein N b0 b1).2 s 2
        = 6 * ((s : α) / ((N : α) - 1)) * (1 - (s : α) / ((N : α) - 1))
          - 3 * ((s : α) / ((N : α) - 1)) ^ 2 ∧
      (pregenBernstein N b0 b1).2 s 3 = 3 * ((s : α) / ((N : α) - 1)) ^ 2) := by
  obtain ⟨a0, d0⟩ := pregenBernstein_apply N b0 b1 s 0 hs (by decide)
  obtain ⟨a1, d1⟩ := pregenBernstein_apply N b0 b1 s 1 hs (by decide)
  obtain ⟨a2, d2⟩ := pregenBernstein_apply N b0 b1 s 2 hs (by decide)
  obtain ⟨a3, d3⟩ := pregenBernstein_apply N b0 b1 s 3 hs (by decide)
  rw [a0, a1, a2, a3, d0, d1, d2, d3]
  generalize (s : α) / ((N : α) - 1) = x
  have e0 : bernstein3 ((0 : Nat) : Int) x
      = ((1 - x) * ((1 - x) * (1 - x)), -3 * ((1 - x) * (1 - x))) := by
    simp [bernstein3]
  have e1 : bernstein3 ((1 : Nat) : Int) x
      = (3 * x * ((1 - x) * (1 - x)), 3 * ((1 - x) * (1 - x)) - 6 * x * (1 - x)) := by
    simp [bernstein3]
  have e2 : bernstein3 ((2 : Nat) : Int) x
      = (3 * (x * x) * (1 - x), 6 * x * (1 - x) - 3 * (x * x)) := by
    simp [bernstein3]
  have e3 : bernstein3 ((3 : Nat) : Int) x = (x * (x * x), 3 * (x * x)) := by
    simp [bernstein3]
  rw [e0, e1, e2, e3]
  refine ⟨⟨?_, ?_, ?_, ?_⟩, ?_, ?_, ?_, ?_⟩ <;> simp only <;> ring

/-- C5 at `N = 3`, sample `1` (`x = 1/2`). -/
theorem pregenBernstein_spec_witness :
    (1 < 3 ∧ 1 < 3) ∧
    (((pregenBernstein 3 (zeroTab : Nat → Nat → ℚ) zeroTab).1 1 0
        = (1 - ((1 : Nat) : ℚ) / (((3 : Nat) : ℚ) - 1)) ^ 3 ∧
      (pregenBernstein 3 (zeroTab : Nat → Nat → ℚ) zeroTab).1 1 1
        = 3 * (((1 : Nat) : ℚ) / (((3 : Nat) : ℚ) - 1))
          * (1 - ((1 : Nat) : ℚ) / (((3 : Nat) : ℚ) - 1)) ^ 2 ∧
      (pregenBernstein 3 (zeroTab : Nat → Nat → ℚ) zeroTab).1 1 2
        = 3 * (((1 : Nat) : ℚ) / (((3 : Nat) : ℚ) - 1)) ^ 2
          * (1 - ((1 : Nat) : ℚ) / (((3 : Nat) : ℚ) - 1)) ∧
      (pregenBernstein 3 (zeroTab : Nat → Nat → ℚ) zeroTab).1 1 3
        = (((1 : Nat) : ℚ) / (((3 : Nat) : ℚ) - 1)) ^ 3) ∧
    ((pregenBernstein 3 (zeroTab : Nat → Nat → ℚ) zeroTab).2 1 0
        = -3 * (1 - ((1 : Nat) : ℚ) / (((3 : Nat) : ℚ) - 1)) ^ 2 ∧
      (pregenBernstein 3 (zeroTab : Nat → Nat → ℚ) zeroTab).2 1 1
        = 3 * (1 - ((1 : Nat) : ℚ) / (((3 : Nat) : ℚ) - 1)) ^ 2
          - 6 * (((1 : Nat) : ℚ) / (((3 : Nat) : ℚ) - 1))
            * (1 - ((1 : Nat) : ℚ) / (((3 : Nat) : ℚ) - 1)) ∧
      (pregenBernstein 3 (zeroTab : Nat → Nat → ℚ) zeroTab).2 1 2
        = 6 * (((1 : Nat) : ℚ) / (((3 : Nat) : ℚ) - 1))
            * (1 - ((1 : Nat) : ℚ) / (((3 : Nat) : ℚ) - 1))
          - 3 * (((1 : Nat) : ℚ) / (((3 : Nat) : ℚ) - 1)) ^ 2 ∧
      (pregenBernstein 3 (zeroTab : Nat → Nat → ℚ) zeroTab).2 1 3
        = 3 * (((1 : Nat) : ℚ) / (((3 : Nat) : ℚ) - 1)) ^ 2)) :=
  ⟨⟨by decide, by decide⟩, pregenBernstein_spec 3 1 (by decide) (by decide) zeroTab zeroTab⟩

/-! ## The generator -/

theorem fghTeapot_cp_loop (d : TeapotData α) (scale : α) (p : Nat)
    (cp : Nat → Nat → Nat → α) (n : Nat) (i : Nat) (hi : i < n) :
    forLoop n (fghTeapot_cpStep d scale p) cp (i / 4) (i % 4) 0
      = d.cpdata (d.patchdata p i) 0 * scale / 2 ∧
    forLoop n (fghTeapot_cpStep d scale p) cp (i / 4) (i % 4) 1
      = (d.cpdata (d.patchdata p i) 2 - 3 / 2) * scale / 2 ∧
    forLoop n (fghTeapot_cpStep d scale p) cp (i / 4) (i % 4) 2
      = -d.cpdata (d.patchdata p i) 1 * scale / 2 := by
  induction n with
  | zero => omega
  | succ n ih =>
    rw [forLoop_succ]
    generalize forLoop n (fghTeapot_cpStep d scale p) cp = r at ih ⊢
    unfold fghTeapot_cpStep
    simp only [set3_apply]
    by_cases hin : i = n
    · subst hin
      simp
    · have hlt : i < n := by omega
      by_cases h4 : i / 4 = n / 4
      · have h5 : ¬ (i % 4 = n % 4) := by omega
        simp only [h5, false_and, and_false, if_false]
        exact ih hlt
      · simp only [h4, false_and, if_false]
        exact ih hlt

/-- Control point `cp[a][b]` collected for patch `p`. -/
theorem fghTeapot_cp_apply (d : TeapotData α) (scale : α) (p : Nat)
    (cp : Nat → Nat → Nat → α) (a b : Nat) (ha : a < 4) (hb : b < 4) :
    fghTeapot_cp d scale p cp a b 0
      = d.cpdata (d.patchdata p (4 * a + b)) 0 * scale / 2 ∧
    fghTeapot_cp d scale p cp a b 1
      = (d.cpdata (d.patchdata p (4 * a + b)) 2 - 3 / 2) * scale / 2 ∧
    fghTeapot_cp d scale p cp a b 2
      = -d.cpdata (d.patchdata p (4 * a + b)) 1 * scale / 2 := by
  have h := fghTeapot_cp_loop d scale p cp 16 (4 * a + b) (by omega)
  have h1 : (4 * a + b) / 4 = a := by omega
  have h2 : (4 * a + b) % 4 = b := by omega
  rw [h1, h2] at h
  exact h

/-! ## Claims C6, C7 -/

/-- C6: for every control point `(x, y, z) = cpdata[patchdata[p][4*a+b]]` and every
scale `s`, the control point `cp[a][b]` that `fghTeapot` hands to the evaluator is
`(x*s/2, (z-1.5)*s/2, -y*s/2)`, and this is `(x, y, z)` first translated by
`(0, 0, -1.5)`, then scaled uniformly by `s/2`, then rotated by 270 degrees about
the X axis. -/
theorem fghTeapot_cp_transform (d : TeapotData α) (scale : α) (p : Nat)
    (cp : Nat → Nat → Nat → α) (a b : Nat) (ha : a < 4) (hb : b < 4) :
    (fghTeapot_cp d scale p cp a b 0
        = d.cpdata (d.patchdata p (4 * a + b)) 0 * scale / 2 ∧
      fghTeapot_cp d scale p cp a b 1
        = (d.cpdata (d.patchdata p (4 * a + b)) 2 - 3 / 2) * scale / 2 ∧
      fghTeapot_cp d scale p cp a b 2
        = -d.cpdata (d.patchdata p (4 * a + b)) 1 * scale / 2) ∧
    (fghTeapot_cp d scale p cp a b 0, fghTeapot_cp d scale p cp a b 1,
        fghTeapot_cp d scale p cp a b 2)
      = rotateX270 (scaleUniform (scale / 2) (translate (0, 0, -(3 / 2))
          (d.cpdata (d.patchdata p (4 * a + b)) 0,
            d.cpdata (d.patchdata p (4 * a + b)) 1,
            d.cpdata (d.patchdata p (4 * a + b)) 2))) := by
  obtain ⟨h0, h1, h2⟩ := fghTeapot_cp_apply d scale p cp a b ha hb
  refine ⟨⟨h0, h1, h2⟩, ?_⟩
  rw [h0, h1, h2]
  unfold rotateX270 rotateX90 scaleUniform translate
  simp only [Prod.mk.injEq]
  refine ⟨?_, ?_, ?_⟩ <;> ring

/-- C6 on the example data, patch `1`, control point `cp[2][3]`, scale `4`. -/
theorem fghTeapot_cp_transform_witness :
    (2 < 4 ∧ 3 < 4) ∧
    ((fghTeapot_cp (exampleData : TeapotData ℚ) 4 1 (fun _ _ _ => 0) 2 3 0
        = (exampleData : TeapotData ℚ).cpdata
            ((exampleData : TeapotData ℚ).patchdata 1 (4 * 2 + 3)) 0 * 4 / 2 ∧
      fghTeapot_cp (exampleData : TeapotData ℚ) 4 1 (fun _ _ _ => 0) 2 3 1
        = ((exampleData : TeapotData ℚ).cpdata
            ((exampleData : TeapotData ℚ).patchdata 1 (4 * 2 + 3)) 2 - 3 / 2) * 4 / 2 ∧
      fghTeapot_cp (exampleData : TeapotData ℚ) 4 1 (fun _ _ _ => 0) 2 3 2
        = -(exampleData : TeapotData ℚ).cpdata
            ((exampleData : TeapotData ℚ).patchdata 1 (4 * 2 + 3)) 1 * 4 / 2) ∧
    (fghTeapot_cp (exampleData : TeapotData ℚ) 4 1 (fun _ _ _ => 0) 2 3 0,
        fghTeapot_cp (exampleData : TeapotData ℚ) 4 1 (fun _ _ _ => 0) 2 3 1,
        fghTeapot_cp (exampleData : TeapotData ℚ) 4 1 (fun _ _ _ => 0) 2 3 2)
      = rotateX270 (scaleUniform (4 / 2) (translate (0, 0, -(3 / 2))
          ((exampleData : TeapotData ℚ).cpdata
              ((exampleData : TeapotData ℚ).patchdata 1 (4 * 2 + 3)) 0,
            (exampleData : TeapotData ℚ).cpdata
              ((exampleData : TeapotData ℚ).patchdata 1 (4 * 2 + 3)) 1,
            (exampleData : TeapotData ℚ).cpdata
              ((exampleData : TeapotData ℚ).patchdata 1 (4 * 2 + 3)) 2)))) :=
  ⟨⟨by decide, by decide⟩,
    fghTeapot_cp_transform exampleData 4 1 (fun _ _ _ => 0) 2 3 (by decide) (by decide)⟩

section Cache

variable [DecidableEq α]

/-- After any call the style is initialised and `lastScale` is the scale of the
call. -/
theorem fghTeapot_post (d : TeapotData α) (sqrt : α → α) (scale : α) (w : Bool)
    (st : TeapotState α) :
    (fghTeapot d sqrt scale w st).1.inited w = true ∧
    (fghTeapot d sqrt scale w st).1.lastScale w = scale := by
  unfold fghTeapot
  by_cases h : st.inited w = false ∨ scale ≠ st.lastScale w
  · rw [if_pos h]
    cases w
    · cases hi : st.inited false <;>
        simp [fghTeapot_regen, TeapotState.inited, TeapotState.lastScale, hi]
    · cases hi : st.inited true <;>
        simp [fghTeapot_regen, TeapotState.inited, TeapotState.lastScale, hi]
  · rw [if_neg h]
    have h1 : st.inited w = true := by
      cases hi : st.inited w
      · exact absurd (Or.inl hi) h
      · rfl
    have h2 : scale = st.lastScale w := by
      by_contra hne
      exact h (Or.inr hne)
    exact ⟨h1, h2.symm⟩

/-- A call at the cached scale of an initialised style changes nothing. -/
theorem fghTeapot_hit (d : TeapotData α) (sqrt : α → α) (scale : α) (w : Bool)
    (st : TeapotState α) (hi : st.inited w = true) (hs : st.lastScale w = scale) :
    fghTeapot d sqrt scale w st = (st, [fghTeapot_draw w]) := by
  unfold fghTeapot
  have h : ¬ (st.inited w = false ∨ scale ≠ st.lastScale w) := by
    rw [hi, hs]
    simp
  rw [if_neg h]

/-- C7: for either style `w` and every scale `s`, after a first call
`fghTeapot(s, w)` from any state, a second call with the same `s` and `w` leaves
the whole static state (positions, normals, texture coordinates, index buffers,
Bernstein tables, `lastScale`, `inited`) as it was and does not enter the
regeneration branch: the only action is the drawing call. -/
theorem fghTeapot_second_call (d : TeapotData α) (sqrt : α → α) (s : α) (w : Bool)
    (st : TeapotState α) :
    (fghTeapot d sqrt s w (fghTeapot d sqrt s w st).1).1 = (fghTeapot d sqrt s w st).1 ∧
    (fghTeapot d sqrt s w (fghTeapot d sqrt s w st).1).2 = [fghTeapot_draw w] ∧
    Event.printRegen ∉ (fghTeapot d sqrt s w (fghTeapot d sqrt s w st).1).2 := by
  obtain ⟨hi, hs⟩ := fghTeapot_post d sqrt s w st
  rw [fghTeapot_hit d sqrt s w _ hi hs]
  refine ⟨rfl, rfl, ?_⟩
  cases w <;> simp [fghTeapot_draw]

end Cache

section Topology

variable [DecidableEq α]

/-- A call of any style leaves the index buffer of an initialised style `w`
alone and keeps `w` initialised. -/
theorem fghTeapot_step_vertIdxs (d : TeapotData α) (sqrt : α → α) (s : α) (w w' : Bool)
    (st : TeapotState α) (hi : st.inited w = true) :
    (fghTeapot d sqrt s w' st).1.inited w = true ∧
    (fghTeapot d sqrt s w' st).1.vertIdxs w = st.vertIdxs w := by
  unfold fghTeapot
  by_cases h : st.inited w' = false ∨ s ≠ st.lastScale w'
  · rw [if_pos h]
    cases w <;> cases w' <;>
      simp_all [fghTeapot_regen, TeapotState.inited, TeapotState.vertIdxs]
  · rw [if_neg h]
    exact ⟨hi, rfl⟩

/-- A call of any style leaves the texture coordinates alone once the solid
style is initialised. -/
theorem fghTeapot_step_texcs (d : TeapotData α) (sqrt : α → α) (s : α) (w' : Bool)
    (st : TeapotState α) (hi : st.inited false = true) :
    (fghTeapot d sqrt s w' st).1.texcsSolid = st.texcsSolid := by
  unfold fghTeapot
  by_cases h : st.inited w' = false ∨ s ≠ st.lastScale w'
  · rw [if_pos h]
    cases w' <;> simp_all [fghTeapot_regen, TeapotState.inited]
  · rw [if_neg h]

theorem fghTeapot_calls_topology (d : TeapotData α) (sqrt : α → α)
    (calls : List (α × Bool)) (w : Bool) (st : TeapotState α)
    (hi : st.inited w = true) :
    (fghTeapot_calls d sqrt calls st).inited w = true ∧
    (fghTeapot_calls d sqrt calls st).vertIdxs w = st.vertIdxs w := by
  induction calls generalizing st with
  | nil => exact ⟨hi, rfl⟩
  | cons c cs ih =>
    obtain ⟨h1, h2⟩ := fghTeapot_step_vertIdxs d sqrt c.1 w c.2 st hi
    obtain ⟨h3, h4⟩ := ih (fghTeapot d sqrt c.1 c.2 st).1 h1
    exact ⟨h3, h4.trans h2⟩

theorem fghTeapot_calls_texcs (d : TeapotData α) (sqrt : α → α)
    (calls : List (α × Bool)) (st : TeapotState α) (hi : st.inited false = true) :
    (fghTeapot_calls d sqrt calls st).texcsSolid = st.texcsSolid := by
  induction calls generalizing st with
  | nil => rfl
  | cons c cs ih =>
    have h1 := (fghTeapot_step_vertIdxs d sqrt c.1 false c.2 st hi).1
    have h2 := fghTeapot_step_texcs d sqrt c.1 c.2 st hi
    exact (ih (fghTeapot d sqrt c.1 c.2 st).1 h1).trans h2

/-! ## Claim C9 -/

/-- C9: for either style `w`, every state `st`, every first call at scale `s` and
every finite sequence `calls` of later calls with arbitrary scales (and of either
style), the index buffer of style `w` after the last call is the one left by the
first call; and after a first call of the solid style the texture-coordinate
buffer after the last call is the one left by that first call. -/
theorem fghTeapot_topology_fixed (d : TeapotData α) (sqrt : α → α) (w : Bool) (s : α)
    (calls : List (α × Bool)) (st : TeapotState α) :
    (fghTeapot_calls d sqrt calls (fghTeapot d sqrt s w st).1).vertIdxs w
      = (fghTeapot d sqrt s w st).1.vertIdxs w ∧
    (fghTeapot_calls d sqrt calls (fghTeapot d sqrt s false st).1).texcsSolid
      = (fghTeapot d sqrt s false st).1.texcsSolid :=
  ⟨(fghTeapot_calls_topology d sqrt calls w _ (fghTeapot_post d sqrt s w st).1).2,
    fghTeapot_calls_texcs d sqrt calls _ (fghTeapot_post d sqrt s false st).1⟩

end Topology

/-! ## Index buffers -/

/-- A counter advanced by `c` per iteration, for a body given up to equality. -/
theorem forLoop_counter_of {σ : Type} (c : Nat) (f : Nat → σ × Nat → σ × Nat)
    (g : Nat → Nat → σ → σ) (h : ∀ i st, f i st = (g i st.2 st.1, st.2 + c))
    (n o : Nat) (s : σ) :
    forLoop n f (s, o) = (forLoop n (fun i s => g i (o + c * i) s) s, o + c * n) := by
  have hf : f = fun i (st : σ × Nat) => (g i st.2 st.1, st.2 + c) := by
    funext i st
    exact h i st
  rw [hf]
  exact forLoop_counter c g n o s

/-- Pointwise description of a loop over consecutive blocks of `w` values. -/
theorem blocks_loop {β : Type} (w : Nat) (body : Nat → Nat → (Nat → β) → Nat → β)
    (F : Nat → Nat → β → β)
    (hframe : ∀ i o b k, (k < o ∨ o + w ≤ k) → body i o b k = b k)
    (hat : ∀ i o b c, c < w → body i o b (o + c) = F i c (b (o + c)))
    (lo n : Nat) (b : Nat → β) :
    (∀ k, (k < lo ∨ lo + w * n ≤ k) →
      forLoop n (fun i s => body i (lo + w * i) s) b k = b k) ∧
    (∀ i c, i < n → c < w →
      forLoop n (fun i s => body i (lo + w * i) s) b (lo + w * i + c)
        = F i c (b (lo + w * i + c))) := by
  induction n with
  | zero => exact ⟨fun k _ => rfl, fun i c hi _ => absurd hi (Nat.not_lt_zero i)⟩
  | succ n ih =>
    obtain ⟨ih1, ih2⟩ := ih
    rw [forLoop_succ]
    generalize forLoop n (fun i s => body i (lo + w * i) s) b = r at ih1 ih2 ⊢
    have hs : w * (n + 1) = w * n + w := Nat.mul_succ w n
    constructor
    · intro k hk
      rw [hframe _ _ _ _ (by omega)]
      exact ih1 k (by omega)
    · intro i c hi hc
      by_cases hin : i = n
      · subst hin
        rw [hat _ _ _ _ hc, ih1 _ (by omega)]
      · have hi' : w * i + w ≤ w * n := by
          have h1 : w * (i + 1) ≤ w * n := Nat.mul_le_mul_left w (by omega)
          rw [Nat.mul_succ] at h1
          exact h1
        rw [hframe _ _ _ _ (by omega)]
        exact ih2 i c (by omega) hc

/-- A loop over `m` blocks of width `w` is itself a block of width `w * m`. -/
theorem blocks_nest {β : Type} (w m : Nat) (hw : 0 < w)
    (body : Nat → Nat → (Nat → β) → Nat → β) (F : Nat → Nat → β → β)
    (hframe : ∀ i o b k, (k < o ∨ o + w ≤ k) → body i o b k = b k)
    (hat : ∀ i o b c, c < w → body i o b (o + c) = F i c (b (o + c)))
    (o : Nat) (b : Nat → β) :
    (∀ k, (k < o ∨ o + w * m ≤ k) →
      forLoop m (fun i s => body i (o + w * i) s) b k = b k) ∧
    (∀ c, c < w * m →
      forLoop m (fun i s => body i (o + w * i) s) b (o + c)
        = F (c / w) (c % w) (b (o + c))) := by
  obtain ⟨h1, h2⟩ := blocks_loop w body F hframe hat o m b
  refine ⟨h1, ?_⟩
  intro c hc
  have hdiv : c / w < m := (Nat.div_lt_iff_lt_mul hw).mpr (by rw [Nat.mul_comm]; exact hc)
  have hmod : c % w < w := Nat.mod_lt c hw
  have hc' : o + c = o + w * (c / w) + c % w := by
    have := Nat.div_add_mod c w
    omega
  have := h2 (c / w) (c % w) hdiv hmod
  rw [← hc'] at this
  exact this

theorem toGLushort_of_lt (n : Nat) (h : n < 65536) : toGLushort n = n := by
  unfold toGLushort
  exact Nat.mod_eq_of_lt (by omega)

theorem fghTeapot_quad_frame (N idx loc c o : Nat) (b : Nat → Nat) (k : Nat)
    (hk : k < o ∨ o + 6 ≤ k) : fghTeapot_quad N idx loc c o b k = b k := by
  unfold fghTeapot_quad
  simp (disch := omega) only [upd_ne]

theorem fghTeapot_quad_at (N idx loc c o : Nat) (b : Nat → Nat) (j : Nat) (hj : j < 6) :
    fghTeapot_quad N idx loc c o b (o + j) = quadValue N idx loc c j := by
  unfold fghTeapot_quad quadValue
  interval_cases j <;> simp (disch := omega) only [upd_ne, upd_eq] <;> simp

/-- The offset counter of the solid index loops. -/
theorem fghTeapot_idxSolid_loop_eq (N : Nat) (vertIdxs : Nat → Nat) :
    fghTeapot_idxSolid_loop N vertIdxs
      = (forLoop GLUT_TEAPOT_N_PATCHES (fun p s =>
          forLoop (N - 1) (fun r s =>
            forLoop (N - 1) (fun c s =>
              fghTeapot_quad N (N * N * p) (r * N) c
                (0 + 6 * (N - 1) * (N - 1) * p + 6 * (N - 1) * r + 6 * c) s) s) s)
          vertIdxs, 0 + 6 * (N - 1) * (N - 1) * GLUT_TEAPOT_N_PATCHES) := by
  unfold fghTeapot_idxSolid_loop
  have hin : ∀ p r (st : (Nat → Nat) × Nat),
      forLoop (N - 1) (fun c (st : (Nat → Nat) × Nat) =>
          (fghTeapot_quad N (N * N * p) (r * N) c st.2 st.1, st.2 + 6)) st
        = (forLoop (N - 1) (fun c s =>
            fghTeapot_quad N (N * N * p) (r * N) c (st.2 + 6 * c) s) st.1,
            st.2 + 6 * (N - 1)) := by
    intro p r st
    obtain ⟨s, o⟩ := st
    exact forLoop_counter 6 (fun c o s => fghTeapot_quad N (N * N * p) (r * N) c o s)
      (N - 1) o s
  have hmid : ∀ p (st : (Nat → Nat) × Nat),
      forLoop (N - 1) (fun r (st : (Nat → Nat) × Nat) =>
          forLoop (N - 1) (fun c (st : (Nat → Nat) × Nat) =>
            (fghTeapot_quad N (N * N * p) (r * N) c st.2 st.1, st.2 + 6)) st) st
        = (forLoop (N - 1) (fun r s => forLoop (N - 1) (fun c s =>
            fghTeapot_quad N (N * N * p) (r * N) c
              (st.2 + 6 * (N - 1) * r + 6 * c) s) s) st.1,
            st.2 + 6 * (N - 1) * (N - 1)) := by
    intro p st
    obtain ⟨s, o⟩ := st
    exact forLoop_counter_of (6 * (N - 1)) _
      (fun r o s => forLoop (N - 1) (fun c s =>
        fghTeapot_quad N (N * N * p) (r * N) c (o + 6 * c) s) s)
      (fun r st => hin p r st) (N - 1) o s
  have hout := forLoop_counter_of (6 * (N - 1) * (N - 1))
    (fun p (st : (Nat → Nat) × Nat) =>
      forLoop (N - 1) (fun r (st : (Nat → Nat) × Nat) =>
        forLoop (N - 1) (fun c (st : (Nat → Nat) × Nat) =>
          (fghTeapot_quad N (N * N * p) (r * N) c st.2 st.1, st.2 + 6)) st) st)
    (fun p o s => forLoop (N - 1) (fun r s => forLoop (N - 1) (fun c s =>
        fghTeapot_quad N (N * N * p) (r * N) c (o + 6 * (N - 1) * r + 6 * c) s) s) s)
    (fun p st => hmid p st) GLUT_TEAPOT_N_PATCHES 0 vertIdxs
  exact hout

theorem fghTeapot_idxSolid_eq (N : Nat) (vertIdxs : Nat → Nat) :
    fghTeapot_idxSolid N vertIdxs
      = forLoop GLUT_TEAPOT_N_PATCHES (fun p s =>
          forLoop (N - 1) (fun r s =>
            forLoop (N - 1) (fun c s =>
              fghTeapot_quad N (N * N * p) (r * N) c
                (0 + 6 * (N - 1) * (N - 1) * p + 6 * (N - 1) * r + 6 * c) s) s) s)
          vertIdxs := by
  unfold fghTeapot_idxSolid
  rw [fghTeapot_idxSolid_loop_eq]

/-- Entries of the solid index buffer for `nSubDivs = 10`. -/
theorem fghTeapot_idxSolid_at (vertIdxs : Nat → Nat) (p r c j : Nat)
    (hp : p < GLUT_TEAPOT_N_PATCHES) (hr : r < 9) (hc : c < 9) (hj : j < 6) :
    fghTeapot_idxSolid 10 vertIdxs (6 * ((p * 9 + r) * 9 + c) + j)
      = quadValue 10 (10 * 10 * p) (r * 10) c j := by
  rw [fghTeapot_idxSolid_eq]
  have L1 := fun (p r : Nat) => blocks_nest 6 (10 - 1) (by decide)
    (fun c o s => fghTeapot_quad 10 (10 * 10 * p) (r * 10) c o s)
    (fun c j _ => quadValue 10 (10 * 10 * p) (r * 10) c j)
    (fun c o b k hk => fghTeapot_quad_frame 10 _ _ c o b k hk)
    (fun c o b j hj => fghTeapot_quad_at 10 _ _ c o b j hj)
  have L2 := fun (p : Nat) => blocks_nest (6 * (10 - 1)) (10 - 1) (by decide)
    (fun r o s => forLoop (10 - 1) (fun c s =>
      fghTeapot_quad 10 (10 * 10 * p) (r * 10) c (o + 6 * c) s) s)
    (fun r c' _ => quadValue 10 (10 * 10 * p) (r * 10) (c' / 6) (c' % 6))
    (fun r o b k hk => (L1 p r o b).1 k hk)
    (fun r o b c' hc' => (L1 p r o b).2 c' hc')
  have L3 := (blocks_loop (6 * (10 - 1) * (10 - 1))
    (fun p o s => forLoop (10 - 1) (fun r s => forLoop (10 - 1) (fun c s =>
      fghTeapot_quad 10 (10 * 10 * p) (r * 10) c (o + 6 * (10 - 1) * r + 6 * c) s) s) s)
    (fun p c'' _ => quadValue 10 (10 * 10 * p) ((c'' / (6 * (10 - 1))) * 10)
      ((c'' % (6 * (10 - 1))) / 6) ((c'' % (6 * (10 - 1))) % 6))
    (fun p o b k hk => (L2 p o b).1 k hk)
    (fun p o b c'' hc'' => (L2 p o b).2 c'' hc'')
    0 GLUT_TEAPOT_N_PATCHES vertIdxs).2 p (54 * r + 6 * c + j) hp (by omega)
  have hidx : 6 * ((p * 9 + r) * 9 + c) + j
      = 0 + 6 * (10 - 1) * (10 - 1) * p + (54 * r + 6 * c + j) := by omega
  have h1 : (54 * r + 6 * c + j) / (6 * (10 - 1)) = r := by omega
  have h2 : (54 * r + 6 * c + j) % (6 * (10 - 1)) / 6 = c := by omega
  have h3 : (54 * r + 6 * c + j) % (6 * (10 - 1)) % 6 = j := by omega
  rw [hidx, L3]
  simp only [h1, h2, h3]

/-! ## Claim C10 -/

section SolidIndices

variable [DecidableEq α]

/-- Index buffer left by the first call of the solid style. -/
theorem fghTeapot_first_solid_vertIdxs (d : TeapotData α) (sqrt : α → α) (s : α)
    (st : TeapotState α) (h0 : st.initedSolid = false) :
    (fghTeapot d sqrt s false st).1.vertIdxsSolid
      = fghTeapot_idxSolid 10 st.vertIdxsSolid := by
  unfold fghTeapot
  have h : st.inited false = false ∨ s ≠ st.lastScale false := Or.inl h0
  rw [if_pos h]
  simp [fghTeapot_regen, TeapotState.inited, TeapotState.vertIdxs, h0, nSubDivsOf,
    GLUT_SOLID_TEAPOT_N_SUBDIV]

/-- C10: in the solid index buffer built on first use (`N = 10`), for every patch
copy `p`, every row `r < N-1` and column `c < N-1`, the six indices at offset
`6*((p*(N-1) + r)*(N-1) + c)` are, writing `V(r,c) = p*N*N + r*N + c`:
`V(r,c), V(r+1,c), V(r+1,c+1), V(r,c), V(r+1,c+1), V(r,c+1)`. -/
theorem fghTeapot_solid_triangles (d : TeapotData α) (sqrt : α → α) (s : α)
    (st : TeapotState α) (h0 : st.initedSolid = false) (p r c : Nat)
    (hp : p < GLUT_TEAPOT_N_PATCHES) (hr : r < 10 - 1) (hc : c < 10 - 1) :
    (fghTeapot d sqrt s false st).1.vertIdxsSolid
        (6 * ((p * (10 - 1) + r) * (10 - 1) + c) + 0) = p * 10 * 10 + r * 10 + c ∧
    (fghTeapot d sqrt s false st).1.vertIdxsSolid
        (6 * ((p * (10 - 1) + r) * (10 - 1) + c) + 1) = p * 10 * 10 + (r + 1) * 10 + c ∧
    (fghTeapot d sqrt s false st).1.vertIdxsSolid
        (6 * ((p * (10 - 1) + r) * (10 - 1) + c) + 2)
      = p * 10 * 10 + (r + 1) * 10 + (c + 1) ∧
    (fghTeapot d sqrt s false st).1.vertIdxsSolid
        (6 * ((p * (10 - 1) + r) * (10 - 1) + c) + 3) = p * 10 * 10 + r * 10 + c ∧
    (fghTeapot d sqrt s false st).1.vertIdxsSolid
        (6 * ((p * (10 - 1) + r) * (10 - 1) + c) + 4)
      = p * 10 * 10 + (r + 1) * 10 + (c + 1) ∧
    (fghTeapot d sqrt s false st).1.vertIdxsSolid
        (6 * ((p * (10 - 1) + r) * (10 - 1) + c) + 5)
      = p * 10 * 10 + r * 10 + (c + 1) := by
  have hp' : p < 32 := hp
  have hr' : r < 9 := hr
  have hc' : c < 9 := hc
  rw [fghTeapot_first_solid_vertIdxs d sqrt s st h0]
  have e : (10 : Nat) - 1 = 9 := rfl
  rw [e]
  rw [fghTeapot_idxSolid_at _ p r c 0 hp hr' hc' (by decide),
    fghTeapot_idxSolid_at _ p r c 1 hp hr' hc' (by decide),
    fghTeapot_idxSolid_at _ p r c 2 hp hr' hc' (by decide),
    fghTeapot_idxSolid_at _ p r c 3 hp hr' hc' (by decide),
    fghTeapot_idxSolid_at _ p r c 4 hp hr' hc' (by decide),
    fghTeapot_idxSolid_at _ p r c 5 hp hr' hc' (by decide)]
  unfold quadValue
  simp only [show (1 : Nat) ≠ 0 by decide, show (2 : Nat) ≠ 0 by decide,
    show (3 : Nat) ≠ 0 by decide, show (4 : Nat) ≠ 0 by decide,
    show (5 : Nat) ≠ 0 by decide, show (2 : Nat) ≠ 1 by decide,
    show (3 : Nat) ≠ 1 by decide, show (4 : Nat) ≠ 1 by decide,
    show (5 : Nat) ≠ 1 by decide, show (3 : Nat) ≠ 2 by decide,
    show (4 : Nat) ≠ 2 by decide, show (5 : Nat) ≠ 2 by decide,
    show (4 : Nat) ≠ 3 by decide, show (5 : Nat) ≠ 3 by decide,
    show (5 : Nat) ≠ 4 by decide, if_true, if_false]
  rw [toGLushort_of_lt _ (by omega), toGLushort_of_lt _ (by omega),
    toGLushort_of_lt _ (by omega), toGLushort_of_lt _ (by omega)]
  refine ⟨?_, ?_, ?_, ?_, ?_, ?_⟩ <;> omega

/-- C10 for the first solid call at scale `1` from the initial state, patch copy
`31`, row `8`, column `8` (the last cell). -/
theorem fghTeapot_solid_triangles_witness :
    ((initState : TeapotState ℚ).initedSolid = false ∧ 31 < GLUT_TEAPOT_N_PATCHES
      ∧ 8 < 10 - 1 ∧ 8 < 10 - 1) ∧
    ((fghTeapot exampleData (fun x => x) 1 false (initState : TeapotState ℚ)).1.vertIdxsSolid
        (6 * ((31 * (10 - 1) + 8) * (10 - 1) + 8) + 0) = 31 * 10 * 10 + 8 * 10 + 8 ∧
    (fghTeapot exampleData (fun x => x) 1 false (initState : TeapotState ℚ)).1.vertIdxsSolid
        (6 * ((31 * (10 - 1) + 8) * (10 - 1) + 8) + 1) = 31 * 10 * 10 + (8 + 1) * 10 + 8 ∧
    (fghTeapot exampleData (fun x => x) 1 false (initState : TeapotState ℚ)).1.vertIdxsSolid
        (6 * ((31 * (10 - 1) + 8) * (10 - 1) + 8) + 2)
      = 31 * 10 * 10 + (8 + 1) * 10 + (8 + 1) ∧
    (fghTeapot exampleData (fun x => x) 1 false (initState : TeapotState ℚ)).1.vertIdxsSolid
        (6 * ((31 * (10 - 1) + 8) * (10 - 1) + 8) + 3) = 31 * 10 * 10 + 8 * 10 + 8 ∧
    (fghTeapot exampleData (fun x => x) 1 false (initState : TeapotState ℚ)).1.vertIdxsSolid
        (6 * ((31 * (10 - 1) + 8) * (10 - 1) + 8) + 4)
      = 31 * 10 * 10 + (8 + 1) * 10 + (8 + 1) ∧
    (fghTeapot exampleData (fun x => x) 1 false (initState : TeapotState ℚ)).1.vertIdxsSolid
        (6 * ((31 * (10 - 1) + 8) * (10 - 1) + 8) + 5)
      = 31 * 10 * 10 + 8 * 10 + (8 + 1)) :=
  ⟨⟨rfl, by decide, by decide, by decide⟩,
    fghTeapot_solid_triangles exampleData (fun x => x) 1 initState rfl 31 8 8
      (by decide) (by decide) (by decide)⟩

end SolidIndices

/-! ## Rebuilds: the evaluators only look at the block they write -/

theorem AgreeBelow.update {β : Type} {M : Nat} {f g : Nat → β} (h : AgreeBelow M f g)
    (i : Nat) {x y : β} (hxy : x = y) :
    AgreeBelow M (Function.update f i x) (Function.update g i y) := by
  intro k hk
  simp only [Function.update_apply, hxy, h k hk]

theorem evalBezier_acc_agree (cp : Nat → Nat → Nat → α) (b : Nat → Nat → α)
    (u v o i M : Nat) (f g : Nat → α) (h : AgreeBelow M f g) :
    AgreeBelow M (evalBezier_acc cp b u v o i f) (evalBezier_acc cp b u v o i g) := by
  intro k hk
  rw [evalBezier_acc_apply, evalBezier_acc_apply]
  by_cases h2 : k = o + 2
  · rw [if_pos h2, if_pos h2, ← h2, h k hk]
  · rw [if_neg h2, if_neg h2]
    by_cases h1 : k = o + 1
    · rw [if_pos h1, if_pos h1, ← h1, h k hk]
    · rw [if_neg h1, if_neg h1]
      by_cases h0 : k = o + 0
      · rw [if_pos h0, if_pos h0, ← h0, h k hk]
      · rw [if_neg h0, if_neg h0, h k hk]

theorem evalBezier_grid_agree (cp : Nat → Nat → Nat → α) (N : Nat) (b : Nat → Nat → α)
    (M : Nat) (f g : Nat → α) (h : AgreeBelow M f g) :
    AgreeBelow M (evalBezier_grid cp N b f).1 (evalBezier_grid cp N b g).1 := by
  unfold evalBezier_grid
  have key := forLoop_rel
    (fun (s t : (Nat → α) × Nat) => s.2 = t.2 ∧ AgreeBelow M s.1 t.1) N
    (fun u st => forLoop N (fun v (st : (Nat → α) × Nat) =>
      (evalBezier_cell cp b u v st.2 st.1, st.2 + 3)) st)
    (fun u st => forLoop N (fun v (st : (Nat → α) × Nat) =>
      (evalBezier_cell cp b u v st.2 st.1, st.2 + 3)) st)
    (fun u _ s t hst => forLoop_rel
      (fun (s t : (Nat → α) × Nat) => s.2 = t.2 ∧ AgreeBelow M s.1 t.1) N _ _
      (fun v _ s t hst => by
        obtain ⟨ho, ha⟩ := hst
        refine ⟨by simp only [ho], ?_⟩
        show AgreeBelow M (evalBezier_cell cp b u v s.2 s.1)
          (evalBezier_cell cp b u v t.2 t.1)
        rw [ho]
        unfold evalBezier_cell
        exact forLoop_rel (fun (f g : Nat → α) => AgreeBelow M f g) 4 _ _
          (fun i _ f g hfg => evalBezier_acc_agree cp b u v t.2 i M f g hfg) _ _ ha)
      s t hst)
    (f, 0) (g, 0) ⟨rfl, h⟩
  exact key.2

theorem rotOrReflect_rot_agree (i1 i2 i3 o M : Nat) (ho : o + 3 ≤ M) (f g : Nat → α)
    (h : AgreeBelow M f g) :
    AgreeBelow M (rotOrReflect_rot i1 i2 i3 o f) (rotOrReflect_rot i1 i2 i3 o g) := by
  unfold rotOrReflect_rot
  have a1 := h.update (i1 + o + 0) (h (o + 2) (by omega))
  have a2 := a1.update (i1 + o + 1) (a1 (o + 1) (by omega))
  have a3 := a2.update (i1 + o + 2) (congrArg Neg.neg (a2 (o + 0) (by omega)))
  have a4 := a3.update (i2 + o + 0) (congrArg Neg.neg (a3 (o + 0) (by omega)))
  have a5 := a4.update (i2 + o + 1) (a4 (o + 1) (by omega))
  have a6 := a5.update (i2 + o + 2) (congrArg Neg.neg (a5 (o + 2) (by omega)))
  have a7 := a6.update (i3 + o + 0) (congrArg Neg.neg (a6 (o + 2) (by omega)))
  have a8 := a7.update (i3 + o + 1) (a7 (o + 1) (by omega))
  have a9 := a8.update (i3 + o + 2) (a8 (o + 0) (by omega))
  exact a9

theorem rotOrReflect_flip_agree (off i M : Nat) (ho : off + i + 3 ≤ M)
    (s t : (Nat → α) × Nat) (h : s.2 = t.2 ∧ AgreeBelow M s.1 t.1) :
    (rotOrReflect_flip off i s).2 = (rotOrReflect_flip off i t).2 ∧
    AgreeBelow M (rotOrReflect_flip off i s).1 (rotOrReflect_flip off i t).1 := by
  obtain ⟨f, o⟩ := s
  obtain ⟨g, o'⟩ := t
  obtain ⟨ho', ha⟩ := h
  simp only at ho' ha
  subst ho'
  unfold rotOrReflect_flip
  refine ⟨rfl, ?_⟩
  simp only
  have a1 := ha.update (o + 0) (ha (off + i + 0) (by omega))
  have a2 := a1.update (o + 1) (a1 (off + i + 1) (by omega))
  have a3 := a2.update (o + 2) (congrArg Neg.neg (a2 (off + i + 2) (by omega)))
  exact a3

theorem rotOrReflect_agree (flag N M : Nat) (hM : N * N * 3 ≤ M) (f g : Nat → α)
    (h : AgreeBelow M f g) :
    AgreeBelow M (rotOrReflect flag (N * N * 3) N f) (rotOrReflect flag (N * N * 3) N g) := by
  unfold rotOrReflect
  split_ifs with h4 h2
  · simp only [forStride_three]
    exact forLoop_rel (fun (f g : Nat → α) => AgreeBelow M f g) (N * N) _ _
      (fun t ht f g hfg => rotOrReflect_rot_agree _ _ _ (3 * t) M (by omega) f g hfg)
      f g h
  · exact forLoop_rel (fun (f g : Nat → α) => AgreeBelow M f g) N _ _
      (fun u hu f g hfg => by
        unfold rotOrReflect_flipRow
        simp only [forStride_three]
        have hm : (N - u - 1) * N + N ≤ N * N := by
          have h1 : (N - u - 1 + 1) * N ≤ N * N := Nat.mul_le_mul_right N (by omega)
          rw [Nat.add_mul, Nat.one_mul] at h1
          exact h1
        exact (forLoop_rel
          (fun (s t : (Nat → α) × Nat) => s.2 = t.2 ∧ AgreeBelow M s.1 t.1) N _ _
          (fun t ht s s' hss =>
            rotOrReflect_flip_agree ((N - u - 1) * N * 3) (3 * t) M (by omega) s s' hss)
          (f, N * N * 3 + u * N * 3) (g, N * N * 3 + u * N * 3) ⟨rfl, hfg⟩).2)
      f g h
  · exact h

/-- Below any bound `M` that covers the base block, the positions written by
`evalBezier` are determined by the buffer contents below `M`. -/
theorem evalBezier_agree (cp : Nat → Nat → Nat → α) (N : Nat) (b : Nat → Nat → α)
    (flag M : Nat) (hM : N * N * 3 ≤ M) (f g : Nat → α) (h : AgreeBelow M f g) :
    AgreeBelow M (evalBezier cp N b flag f).1 (evalBezier cp N b flag g).1 := by
  unfold evalBezier
  exact rotOrReflect_agree flag N M hM _ _ (evalBezier_grid_agree cp N b M f g h)

/-- One patch of a first build against the same patch of a rebuild: the
counters stay equal and the position buffers stay equal below `L`, the length
of `P` patch copies. -/
theorem fghTeapot_patch_agree (d : TeapotData α) (sqrt : α → α) (scale : α) (N : Nat)
    (b0 b1 : Nat → Nat → α) (P p : Nat) (sA sB : ((Nat → α) × (Nat → α)) × Nat)
    (h : sA.2 = sB.2 ∧ (∃ c, sB.2 = N * N * 3 * c)
      ∧ AgreeBelow (N * N * 3 * P) sA.1.1 sB.1.1) :
    (fghTeapot_patch d sqrt scale N b0 b1 false p sA).2
        = (fghTeapot_patch d sqrt scale N b0 b1 true p sB).2 ∧
    (∃ c, (fghTeapot_patch d sqrt scale N b0 b1 true p sB).2 = N * N * 3 * c) ∧
    AgreeBelow (N * N * 3 * P) (fghTeapot_patch d sqrt scale N b0 b1 false p sA).1.1
      (fghTeapot_patch d sqrt scale N b0 b1 true p sB).1.1 := by
  obtain ⟨⟨vA, nA⟩, oA⟩ := sA
  obtain ⟨⟨vB, nB⟩, o⟩ := sB
  obtain ⟨ho, ⟨c, hc⟩, ha⟩ := h
  simp only at ho hc ha
  subst ho
  unfold fghTeapot_patch
  simp only [if_true, Bool.true_eq_false, if_false, evalBezierWithNorm_ret,
    evalBezierWithNorm_verts]
  refine ⟨rfl, ⟨c + (if p < 6 then 4 else 2), ?_⟩, ?_⟩
  · unfold evalBezier
    simp only
    rw [hc, Nat.mul_add]
  · intro k hk
    unfold ptrStore
    by_cases hko : k < oA
    · rw [if_pos hko, if_pos hko]
      exact ha k hk
    · rw [if_neg hko, if_neg hko]
      have hcP : c < P := by
        by_contra hge
        have h1 : N * N * 3 * P ≤ N * N * 3 * c := Nat.mul_le_mul_left _ (by omega)
        omega
      have hfit : oA + N * N * 3 ≤ N * N * 3 * P := by
        have h1 : N * N * 3 * (c + 1) ≤ N * N * 3 * P := Nat.mul_le_mul_left _ (by omega)
        rw [Nat.mul_succ] at h1
        omega
      have hview : AgreeBelow (N * N * 3 * P - oA) (ptrAdd vA oA) (ptrAdd vB oA) := by
        intro j hj
        unfold ptrAdd
        exact ha (oA + j) (by omega)
      exact evalBezier_agree _ N b0 _ (N * N * 3 * P - oA) (by omega) _ _ hview
        (k - oA) (by omega)

/-- Patch loop of a first build (through `evalBezierWithNorm`) against the patch
loop of a rebuild (through `evalBezier`): equal positions below the length of
`P` patch copies, when the two buffers agree there on entry. -/
theorem fghTeapot_patches_agree (d : TeapotData α) (sqrt : α → α) (scale : α) (N : Nat)
    (b0 b1 : Nat → Nat → α) (P : Nat) (vA nA vB nB : Nat → α)
    (h : AgreeBelow (N * N * 3 * P) vA vB) :
    AgreeBelow (N * N * 3 * P)
      (fghTeapot_patches d sqrt scale N b0 b1 false vA nA).1.1
      (fghTeapot_patches d sqrt scale N b0 b1 true vB nB).1.1 := by
  unfold fghTeapot_patches
  exact (forLoop_rel
    (fun (sA sB : ((Nat → α) × (Nat → α)) × Nat) =>
      sA.2 = sB.2 ∧ (∃ c, sB.2 = N * N * 3 * c)
        ∧ AgreeBelow (N * N * 3 * P) sA.1.1 sB.1.1)
    d.nInputPatches _ _
    (fun p _ sA sB hAB => fghTeapot_patch_agree d sqrt scale N b0 b1 P p sA sB hAB)
    ((vA, nA), 0) ((vB, nB), 0) ⟨rfl, ⟨0, rfl⟩, h⟩).2.2

theorem memsetZero_agree (f g : Nat → α) (n : Nat) :
    AgreeBelow n (memsetZero f n) (memsetZero g n) := by
  intro k hk
  unfold memsetZero
  rw [if_pos hk, if_pos hk]

theorem nVertsOf_eq (w : Bool) :
    nVertsOf w * 3 = nSubDivsOf w * nSubDivsOf w * 3 * GLUT_TEAPOT_N_PATCHES := by
  cases w <;> rfl

/-- Regeneration of a style that is not initialised. -/
theorem fghTeapot_regen_first (d : TeapotData α) (sqrt : α → α) (s : α) (w : Bool)
    (st : TeapotState α) (h0 : st.inited w = false) :
    (fghTeapot_regen d sqrt s w st).verts w
      = (fghTeapot_patches d sqrt s (nSubDivsOf w)
          (pregenBernstein (nSubDivsOf w) (st.bern_0 w) (st.bern_1 w)).1
          (pregenBernstein (nSubDivsOf w) (st.bern_0 w) (st.bern_1 w)).2 false
          (memsetZero (st.verts w) (nVertsOf w * 3)) (st.norms w)).1.1 ∧
    (fghTeapot_regen d sqrt s w st).bern_0 w
      = (pregenBernstein (nSubDivsOf w) (st.bern_0 w) (st.bern_1 w)).1 ∧
    (fghTeapot_regen d sqrt s w st).bern_1 w
      = (pregenBernstein (nSubDivsOf w) (st.bern_0 w) (st.bern_1 w)).2 ∧
    (fghTeapot_regen d sqrt s w st).inited w = true ∧
    (fghTeapot_regen d sqrt s w st).lastScale w = s := by
  cases w <;>
    simp [fghTeapot_regen, TeapotState.verts, TeapotState.bern_0, TeapotState.bern_1,
      TeapotState.inited, TeapotState.lastScale, TeapotState.norms, h0] <;>
    simp_all [TeapotState.inited]

/-- Regeneration of a style that is initialised. -/
theorem fghTeapot_regen_again (d : TeapotData α) (sqrt : α → α) (s : α) (w : Bool)
    (st : TeapotState α) (h1 : st.inited w = true) :
    (fghTeapot_regen d sqrt s w st).verts w
      = (fghTeapot_patches d sqrt s (nSubDivsOf w) (st.bern_0 w) (st.bern_1 w) true
          (memsetZero (st.verts w) (nVertsOf w * 3)) (st.norms w)).1.1 ∧
    (fghTeapot_regen d sqrt s w st).bern_0 w = st.bern_0 w ∧
    (fghTeapot_regen d sqrt s w st).bern_1 w = st.bern_1 w ∧
    (fghTeapot_regen d sqrt s w st).inited w = true ∧
    (fghTeapot_regen d sqrt s w st).lastScale w = s := by
  cases w <;>
    simp [fghTeapot_regen, TeapotState.verts, TeapotState.bern_0, TeapotState.bern_1,
      TeapotState.inited, TeapotState.lastScale, TeapotState.norms, h1] <;>
    simp_all [TeapotState.inited]

/-! ## Claim C8 -/

section Rebuild

variable [DecidableEq α]

/-- A call of a style that is not initialised, or at a scale other than the
cached one, regenerates. -/
theorem fghTeapot_miss (d : TeapotData α) (sqrt : α → α) (s : α) (w : Bool)
    (st : TeapotState α) (h : st.inited w = false ∨ s ≠ st.lastScale w) :
    (fghTeapot d sqrt s w st).1 = fghTeapot_regen d sqrt s w st := by
  unfold fghTeapot
  rw [if_pos h]

/-- C8: for either style `w`, all scales `s1 ≠ s2` and every state in which the
style is not yet initialised, calling `fghTeapot` at `s1`, then `s2`, then `s1`
again leaves a position buffer whose every entry (index below the declared
length `nVerts*3`) equals the entry left by the first call at `s1`: the first
build goes through `evalBezierWithNorm`, the rebuilds through `evalBezier` on the
re-zeroed buffer. -/
theorem fghTeapot_rebuild_positions (d : TeapotData α) (sqrt : α → α) (w : Bool)
    (s1 s2 : α) (hs : s1 ≠ s2) (st : TeapotState α) (h0 : st.inited w = false)
    (k : Nat) (hk : k < nVertsOf w * 3) :
    (fghTeapot d sqrt s1 w
        (fghTeapot d sqrt s2 w (fghTeapot d sqrt s1 w st).1).1).1.verts w k
      = (fghTeapot d sqrt s1 w st).1.verts w k := by
  have e1 := fghTeapot_miss d sqrt s1 w st (Or.inl h0)
  obtain ⟨v1, b10, b11, i1, l1⟩ := fghTeapot_regen_first d sqrt s1 w st h0
  rw [← e1] at v1 b10 b11 i1 l1
  generalize (fghTeapot d sqrt s1 w st).1 = st1 at v1 b10 b11 i1 l1 ⊢
  have e2 := fghTeapot_miss d sqrt s2 w st1 (Or.inr (by rw [l1]; exact fun h => hs h.symm))
  obtain ⟨-, b20, b21, i2, l2⟩ := fghTeapot_regen_again d sqrt s2 w st1 i1
  rw [← e2] at b20 b21 i2 l2
  generalize (fghTeapot d sqrt s2 w st1).1 = st2 at b20 b21 i2 l2 ⊢
  have e3 := fghTeapot_miss d sqrt s1 w st2 (Or.inr (by rw [l2]; exact hs))
  obtain ⟨v3, -, -, -, -⟩ := fghTeapot_regen_again d sqrt s1 w st2 i2
  rw [e3, v3, v1, b20, b21, b10, b11]
  rw [nVertsOf_eq] at hk ⊢
  exact ((fghTeapot_patches_agree d sqrt s1 (nSubDivsOf w) _ _ GLUT_TEAPOT_N_PATCHES
    _ _ _ _ (memsetZero_agree (st.verts w) (st2.verts w) _)) k hk).symm

/-- C8 for the wire style on the example data, scales `1`, `2`, `1` from the
initial state, entry `5`. -/
theorem fghTeapot_rebuild_positions_witness :
    ((1 : ℚ) ≠ 2 ∧ (initState : TeapotState ℚ).inited true = false
      ∧ 5 < nVertsOf true * 3) ∧
    (fghTeapot exampleData (fun x => x) 1 true
        (fghTeapot exampleData (fun x => x) 2 true
          (fghTeapot exampleData (fun x => x) 1 true
            (initState : TeapotState ℚ)).1).1).1.verts true 5
      = (fghTeapot exampleData (fun x => x) 1 true
          (initState : TeapotState ℚ)).1.verts true 5 :=
  ⟨⟨by norm_num, rfl, by decide⟩,
    fghTeapot_rebuild_positions exampleData (fun x => x) true 1 2 (by norm_num) initState
      rfl 5 (by decide)⟩

end Rebuild

/-! ## Wire index buffer -/

theorem store_frame (x o : Nat) (b : Nat → Nat) (k : Nat) (hk : k < o ∨ o + 1 ≤ k) :
    Function.update b o x k = b k := by
  simp (disch := omega) only [upd_ne]

theorem store_at (x o : Nat) (b : Nat → Nat) (c : Nat) (hc : c < 1) :
    Function.update b o x (o + c) = x := by
  have h0 : c = 0 := by omega
  subst h0
  simp

/-- The write position of the first wire pass. -/
theorem fghTeapot_idxWire_pass1_eq (N : Nat) (vertIdxs : Nat → Nat) (o0 : Nat) :
    fghTeapot_idxWire_pass1 N (vertIdxs, o0)
      = (forLoop GLUT_TEAPOT_N_PATCHES (fun p s =>
          forLoop N (fun c s =>
            forLoop N (fun r s =>
              Function.update s (o0 + 1 * N * N * p + 1 * N * c + 1 * r)
                (toGLushort (N * N * p + r * N + c))) s) s) vertIdxs,
          o0 + 1 * N * N * GLUT_TEAPOT_N_PATCHES) := by
  unfold fghTeapot_idxWire_pass1
  have hin : ∀ p c (st : (Nat → Nat) × Nat),
      forLoop N (fun r (st : (Nat → Nat) × Nat) =>
          (Function.update st.1 st.2 (toGLushort (N * N * p + r * N + c)), st.2 + 1)) st
        = (forLoop N (fun r s =>
            Function.update s (st.2 + 1 * r) (toGLushort (N * N * p + r * N + c))) st.1,
            st.2 + 1 * N) := by
    intro p c st
    obtain ⟨s, o⟩ := st
    exact forLoop_counter 1
      (fun r o s => Function.update s o (toGLushort (N * N * p + r * N + c))) N o s
  have hmid : ∀ p (st : (Nat → Nat) × Nat),
      forLoop N (fun c (st : (Nat → Nat) × Nat) =>
          forLoop N (fun r (st : (Nat → Nat) × Nat) =>
            (Function.update st.1 st.2 (toGLushort (N * N * p + r * N + c)), st.2 + 1))
            st) st
        = (forLoop N (fun c s => forLoop N (fun r s =>
            Function.update s (st.2 + 1 * N * c + 1 * r)
              (toGLushort (N * N * p + r * N + c))) s) st.1,
            st.2 + 1 * N * N) := by
    intro p st
    obtain ⟨s, o⟩ := st
    exact forLoop_counter_of (1 * N) _
      (fun c o s => forLoop N (fun r s =>
        Function.update s (o + 1 * r) (toGLushort (N * N * p + r * N + c))) s)
      (fun c st => hin p c st) N o s
  exact forLoop_counter_of (1 * N * N)
    (fun p (st : (Nat → Nat) × Nat) =>
      forLoop N (fun c (st : (Nat → Nat) × Nat) =>
        forLoop N (fun r (st : (Nat → Nat) × Nat) =>
          (Function.update st.1 st.2 (toGLushort (N * N * p + r * N + c)), st.2 + 1))
          st) st)
    (fun p o s => forLoop N (fun c s => forLoop N (fun r s =>
      Function.update s (o + 1 * N * c + 1 * r)
        (toGLushort (N * N * p + r * N + c))) s) s)
    (fun p st => hmid p st) GLUT_TEAPOT_N_PATCHES o0 vertIdxs

/-- The write position of the second wire pass. -/
theorem fghTeapot_idxWire_pass2_eq (N : Nat) (vertIdxs : Nat → Nat) (o0 : Nat) :
    fghTeapot_idxWire_pass2 N (vertIdxs, o0)
      = (forLoop GLUT_TEAPOT_N_PATCHES (fun p s =>
          forLoop N (fun r s =>
            forLoop N (fun c s =>
              Function.update s (o0 + 1 * N * N * p + 1 * N * r + 1 * c)
                (toGLushort (N * N * p + r * N + c))) s) s) vertIdxs,
          o0 + 1 * N * N * GLUT_TEAPOT_N_PATCHES) := by
  unfold fghTeapot_idxWire_pass2
  have hin : ∀ p r (st : (Nat → Nat) × Nat),
      forLoop N (fun c (st : (Nat → Nat) × Nat) =>
          (Function.update st.1 st.2 (toGLushort (N * N * p + r * N + c)), st.2 + 1)) st
        = (forLoop N (fun c s =>
            Function.update s (st.2 + 1 * c) (toGLushort (N * N * p + r * N + c))) st.1,
            st.2 + 1 * N) := by
    intro p r st
    obtain ⟨s, o⟩ := st
    exact forLoop_counter 1
      (fun c o s => Function.update s o (toGLushort (N * N * p + r * N + c))) N o s
  have hmid : ∀ p (st : (Nat → Nat) × Nat),
      forLoop N (fun r (st : (Nat → Nat) × Nat) =>
          forLoop N (fun c (st : (Nat → Nat) × Nat) =>
            (Function.update st.1 st.2 (toGLushort (N * N * p + r * N + c)), st.2 + 1))
            st) st
        = (forLoop N (fun r s => forLoop N (fun c s =>
            Function.update s (st.2 + 1 * N * r + 1 * c)
              (toGLushort (N * N * p + r * N + c))) s) st.1,
            st.2 + 1 * N * N) := by
    intro p st
    obtain ⟨s, o⟩ := st
    exact forLoop_counter_of (1 * N) _
      (fun r o s => forLoop N (fun c s =>
        Function.update s (o + 1 * c) (toGLushort (N * N * p + r * N + c))) s)
      (fun r st => hin p r st) N o s
  exact forLoop_counter_of (1 * N * N)
    (fun p (st : (Nat → Nat) × Nat) =>
      forLoop N (fun r (st : (Nat → Nat) × Nat) =>
        forLoop N (fun c (st : (Nat → Nat) × Nat) =>
          (Function.update st.1 st.2 (toGLushort (N * N * p + r * N + c)), st.2 + 1))
          st) st)
    (fun p o s => forLoop N (fun r s => forLoop N (fun c s =>
      Function.update s (o + 1 * N * r + 1 * c)
        (toGLushort (N * N * p + r * N + c))) s) s)
    (fun p st => hmid p st) GLUT_TEAPOT_N_PATCHES o0 vertIdxs

/-- First wire pass for `nSubDivs = 7`: counter, frame and entries. -/
theorem fghTeapot_idxWire_pass1_at (vertIdxs : Nat → Nat) (o0 : Nat) :
    (fghTeapot_idxWire_pass1 7 (vertIdxs, o0)).2 = o0 + 1568 ∧
    (∀ k, (k < o0 ∨ o0 + 1568 ≤ k) →
      (fghTeapot_idxWire_pass1 7 (vertIdxs, o0)).1 k = vertIdxs k) ∧
    (∀ j, j < 1568 →
      (fghTeapot_idxWire_pass1 7 (vertIdxs, o0)).1 (o0 + j)
        = toGLushort (7 * 7 * (j / 49) + (j % 49 % 7) * 7 + (j % 49 / 7))) := by
  rw [fghTeapot_idxWire_pass1_eq]
  have L1 := fun (p c : Nat) => blocks_nest 1 7 (by decide)
    (fun r o s => Function.update s o (toGLushort (7 * 7 * p + r * 7 + c)))
    (fun r _ _ => toGLushort (7 * 7 * p + r * 7 + c))
    (fun r o b k hk => store_frame _ o b k hk)
    (fun r o b j hj => store_at _ o b j hj)
  have L2 := fun (p : Nat) => blocks_nest (1 * 7) 7 (by decide)
    (fun c o s => forLoop 7 (fun r s =>
      Function.update s (o + 1 * r) (toGLushort (7 * 7 * p + r * 7 + c))) s)
    (fun c c' _ => toGLushort (7 * 7 * p + (c' / 1) * 7 + c))
    (fun c o b k hk => (L1 p c o b).1 k hk)
    (fun c o b c' hc' => (L1 p c o b).2 c' hc')
  have L3 := blocks_nest (1 * 7 * 7) GLUT_TEAPOT_N_PATCHES (by decide)
    (fun p o s => forLoop 7 (fun c s => forLoop 7 (fun r s =>
      Function.update s (o + 1 * 7 * c + 1 * r) (toGLushort (7 * 7 * p + r * 7 + c))) s) s)
    (fun p c'' _ => toGLushort (7 * 7 * p + ((c'' % (1 * 7)) / 1) * 7 + c'' / (1 * 7)))
    (fun p o b k hk => (L2 p o b).1 k hk)
    (fun p o b c'' hc'' => (L2 p o b).2 c'' hc'')
    o0 vertIdxs
  have hP : 1 * 7 * 7 * GLUT_TEAPOT_N_PATCHES = 1568 := by decide
  rw [hP] at L3
  dsimp only
  refine ⟨by rw [hP], L3.1, ?_⟩
  intro j hj
  rw [L3.2 j hj]
  have e1 : j / (1 * 7 * 7) = j / 49 := by norm_num
  have e2 : j % (1 * 7 * 7) % (1 * 7) / 1 = j % 49 % 7 := by norm_num
  have e3 : j % (1 * 7 * 7) / (1 * 7) = j % 49 / 7 := by norm_num
  rw [e1, e2, e3]

/-- Second wire pass for `nSubDivs = 7`: counter, frame and entries. -/
theorem fghTeapot_idxWire_pass2_at (vertIdxs : Nat → Nat) (o0 : Nat) :
    (fghTeapot_idxWire_pass2 7 (vertIdxs, o0)).2 = o0 + 1568 ∧
    (∀ k, (k < o0 ∨ o0 + 1568 ≤ k) →
      (fghTeapot_idxWire_pass2 7 (vertIdxs, o0)).1 k = vertIdxs k) ∧
    (∀ j, j < 1568 →
      (fghTeapot_idxWire_pass2 7 (vertIdxs, o0)).1 (o0 + j)
        = toGLushort (7 * 7 * (j / 49) + (j % 49 / 7) * 7 + (j % 49 % 7))) := by
  rw [fghTeapot_idxWire_pass2_eq]
  have L1 := fun (p r : Nat) => blocks_nest 1 7 (by decide)
    (fun c o s => Function.update s o (toGLushort (7 * 7 * p + r * 7 + c)))
    (fun c _ _ => toGLushort (7 * 7 * p + r * 7 + c))
    (fun c o b k hk => store_frame _ o b k hk)
    (fun c o b j hj => store_at _ o b j hj)
  have L2 := fun (p : Nat) => blocks_nest (1 * 7) 7 (by decide)
    (fun r o s => forLoop 7 (fun c s =>
      Function.update s (o + 1 * c) (toGLushort (7 * 7 * p + r * 7 + c))) s)
    (fun r c' _ => toGLushort (7 * 7 * p + r * 7 + c' / 1))
    (fun r o b k hk => (L1 p r o b).1 k hk)
    (fun r o b c' hc' => (L1 p r o b).2 c' hc')
  have L3 := blocks_nest (1 * 7 * 7) GLUT_TEAPOT_N_PATCHES (by decide)
    (fun p o s => forLoop 7 (fun r s => forLoop 7 (fun c s =>
      Function.update s (o + 1 * 7 * r + 1 * c) (toGLushort (7 * 7 * p + r * 7 + c))) s) s)
    (fun p c'' _ => toGLushort (7 * 7 * p + (c'' / (1 * 7)) * 7 + (c'' % (1 * 7)) / 1))
    (fun p o b k hk => (L2 p o b).1 k hk)
    (fun p o b c'' hc'' => (L2 p o b).2 c'' hc'')
    o0 vertIdxs
  have hP : 1 * 7 * 7 * GLUT_TEAPOT_N_PATCHES = 1568 := by decide
  rw [hP] at L3
  dsimp only
  refine ⟨by rw [hP], L3.1, ?_⟩
  intro j hj
  rw [L3.2 j hj]
  have e1 : j / (1 * 7 * 7) = j / 49 := by norm_num
  have e2 : j % (1 * 7 * 7) / (1 * 7) = j % 49 / 7 := by norm_num
  have e3 : j % (1 * 7 * 7) % (1 * 7) / 1 = j % 49 % 7 := by norm_num
  rw [e1, e2, e3]

/-- Wire index buffer for `nSubDivs = 7`: the write position after both passes,
the entries it leaves alone and the entries of each pass. -/
theorem fghTeapot_idxWire_loop_at (vertIdxs : Nat → Nat) :
    (fghTeapot_idxWire_loop 7 vertIdxs).2 = 3136 ∧
    (∀ k, 3136 ≤ k → (fghTeapot_idxWire_loop 7 vertIdxs).1 k = vertIdxs k) ∧
    (∀ j, j < 1568 →
      (fghTeapot_idxWire_loop 7 vertIdxs).1 j
        = toGLushort (7 * 7 * (j / 49) + (j % 49 % 7) * 7 + (j % 49 / 7))) ∧
    (∀ j, j < 1568 →
      (fghTeapot_idxWire_loop 7 vertIdxs).1 (1568 + j)
        = toGLushort (7 * 7 * (j / 49) + (j % 49 / 7) * 7 + (j % 49 % 7))) := by
  unfold fghTeapot_idxWire_loop
  obtain ⟨a1, a2, a3⟩ := fghTeapot_idxWire_pass1_at vertIdxs 0
  generalize fghTeapot_idxWire_pass1 7 (vertIdxs, 0) = st1 at a1 a2 a3 ⊢
  obtain ⟨v1, o1⟩ := st1
  simp only [Nat.zero_add] at a1 a2 a3
  subst a1
  obtain ⟨b1, b2, b3⟩ := fghTeapot_idxWire_pass2_at v1 1568
  refine ⟨b1, ?_, ?_, b3⟩
  · intro k hk
    rw [b2 k (by omega)]
    exact a2 k (by omega)
  · intro j hj
    rw [b2 j (by omega)]
    exact a3 j hj

/-! ## Claim C11 -/

section WireIndices

variable [DecidableEq α]

/-- Index buffer left by the first call of the wire style. -/
theorem fghTeapot_first_wire_vertIdxs (d : TeapotData α) (sqrt : α → α) (s : α)
    (st : TeapotState α) (h0 : st.initedWire = false) :
    (fghTeapot d sqrt s true st).1.vertIdxsWire
      = fghTeapot_idxWire 7 st.vertIdxsWire := by
  unfold fghTeapot
  have h : st.inited true = false ∨ s ≠ st.lastScale true := Or.inl h0
  rw [if_pos h]
  simp [fghTeapot_regen, TeapotState.inited, TeapotState.vertIdxs, h0, nSubDivsOf,
    GLUT_WIRE_TEAPOT_N_SUBDIV]

/-- C11: in the wire index buffer built on first use (`N = 7`, `P = 32` patch
copies), the first `P*N*N` entries are the strips with the column `c` fixed and
the row `r` varying: entry `(p*N + c)*N + r` equals `p*N*N + r*N + c`; the next
`P*N*N` entries are the strips with the row `r` fixed and the column `c` varying:
entry `P*N*N + (p*N + r)*N + c` equals `p*N*N + r*N + c`. -/
theorem fghTeapot_wire_strips (d : TeapotData α) (sqrt : α → α) (s : α)
    (st : TeapotState α) (h0 : st.initedWire = false) (p r c : Nat)
    (hp : p < GLUT_TEAPOT_N_PATCHES) (hr : r < 7) (hc : c < 7) :
    (fghTeapot d sqrt s true st).1.vertIdxsWire ((p * 7 + c) * 7 + r)
      = p * 7 * 7 + r * 7 + c ∧
    (fghTeapot d sqrt s true st).1.vertIdxsWire
        (GLUT_TEAPOT_N_PATCHES * 7 * 7 + (p * 7 + r) * 7 + c)
      = p * 7 * 7 + r * 7 + c := by
  have hp' : p < 32 := hp
  have hP : GLUT_TEAPOT_N_PATCHES * 7 * 7 = 1568 := by decide
  rw [fghTeapot_first_wire_vertIdxs d sqrt s st h0, hP]
  unfold fghTeapot_idxWire
  obtain ⟨-, -, a3, a4⟩ := fghTeapot_idxWire_loop_at st.vertIdxsWire
  have e : 1568 + (p * 7 + r) * 7 + c = 1568 + ((p * 7 + r) * 7 + c) := by omega
  rw [a3 _ (by omega), e, a4 _ (by omega)]
  have d1 : ((p * 7 + c) * 7 + r) / 49 = p := by omega
  have m1 : ((p * 7 + c) * 7 + r) % 49 = c * 7 + r := by omega
  have d2 : ((p * 7 + r) * 7 + c) / 49 = p := by omega
  have m2 : ((p * 7 + r) * 7 + c) % 49 = r * 7 + c := by omega
  have q1 : (c * 7 + r) % 7 = r := by omega
  have q2 : (c * 7 + r) / 7 = c := by omega
  have q3 : (r * 7 + c) % 7 = c := by omega
  have q4 : (r * 7 + c) / 7 = r := by omega
  rw [d1, m1, d2, m2, q1, q2, q3, q4, toGLushort_of_lt _ (by omega)]
  constructor <;> omega

/-- C11 for the first wire call at scale `1` from the initial state, patch copy
`31`, row `2`, column `6`. -/
theorem fghTeapot_wire_strips_witness :
    ((initState : TeapotState ℚ).initedWire = false ∧ 31 < GLUT_TEAPOT_N_PATCHES
      ∧ 2 < 7 ∧ 6 < 7) ∧
    ((fghTeapot exampleData (fun x => x) 1 true (initState : TeapotState ℚ)).1.vertIdxsWire
        ((31 * 7 + 6) * 7 + 2) = 31 * 7 * 7 + 2 * 7 + 6 ∧
    (fghTeapot exampleData (fun x => x) 1 true (initState : TeapotState ℚ)).1.vertIdxsWire
        (GLUT_TEAPOT_N_PATCHES * 7 * 7 + (31 * 7 + 2) * 7 + 6)
      = 31 * 7 * 7 + 2 * 7 + 6) :=
  ⟨⟨rfl, by decide, by decide, by decide⟩,
    fghTeapot_wire_strips exampleData (fun x => x) 1 initState rfl 31 2 6
      (by decide) (by decide) (by decide)⟩

end WireIndices

/-! ## Counts -/

theorem fghTeapot_patch_snd (d : TeapotData α) (sqrt : α → α) (scale : α) (N : Nat)
    (b0 b1 : Nat → Nat → α) (f : Bool) (p : Nat) (st : ((Nat → α) × (Nat → α)) × Nat) :
    (fghTeapot_patch d sqrt scale N b0 b1 f p st).2
      = st.2 + N * N * 3 * (if p < 6 then 4 else 2) := by
  unfold fghTeapot_patch
  cases f <;> simp [evalBezierWithNorm, evalBezier]

/-- The counter `o` of the patch loop after `n` patches. -/
theorem fghTeapot_patch_loop_snd (d : TeapotData α) (sqrt : α → α) (scale : α) (N : Nat)
    (b0 b1 : Nat → Nat → α) (f : Bool) (n : Nat) (st : ((Nat → α) × (Nat → α)) × Nat)
    (h : st.2 = 0) :
    (forLoop n (fghTeapot_patch d sqrt scale N b0 b1 f) st).2 = fghTeapot_offset N n := by
  unfold fghTeapot_offset
  exact forLoop_rel (fun (s : ((Nat → α) × (Nat → α)) × Nat) (o : Nat) => s.2 = o) n _ _
    (fun p _ s o hso => by
      show (fghTeapot_patch d sqrt scale N b0 b1 f p s).2
        = o + N * N * 3 * (if p < 6 then 4 else 2)
      have hso' : s.2 = o := hso
      rw [fghTeapot_patch_snd, hso']) st 0 h

theorem fghTeapot_patches_snd (d : TeapotData α) (sqrt : α → α) (scale : α) (N : Nat)
    (b0 b1 : Nat → Nat → α) (f : Bool) (verts norms : Nat → α) :
    (fghTeapot_patches d sqrt scale N b0 b1 f verts norms).2
      = fghTeapot_offset N d.nInputPatches := by
  unfold fghTeapot_patches
  exact fghTeapot_patch_loop_snd d sqrt scale N b0 b1 f _ _ rfl

theorem fghTeapot_offset_succ (N p : Nat) :
    fghTeapot_offset N (p + 1)
      = fghTeapot_offset N p + N * N * 3 * (if p < 6 then 4 else 2) := rfl

/-- Closed form of the running offset for the ten patches. -/
theorem fghTeapot_offset_eq (N p : Nat) (hp : p ≤ 10) :
    fghTeapot_offset N p = N * N * 3 * (if p ≤ 6 then 4 * p else 12 + 2 * p) := by
  interval_cases p <;> simp [fghTeapot_offset, forLoop] <;> ring

theorem fghTeapot_offset_ten (N : Nat) :
    fghTeapot_offset N 10 = N * N * 3 * GLUT_TEAPOT_N_PATCHES := by
  rw [fghTeapot_offset_eq N 10 (Nat.le_refl _)]
  rfl

/-- The write position after the solid index loops for `nSubDivs = 10`. -/
theorem fghTeapot_idxSolid_loop_snd (vertIdxs : Nat → Nat) :
    (fghTeapot_idxSolid_loop 10 vertIdxs).2 = 15552 := by
  rw [fghTeapot_idxSolid_loop_eq]
  rfl

/-! ## Claim C12 -/

section Counts

variable [DecidableEq α]

/-- The drawing call is the last action of every call. -/
theorem fghTeapot_last_event (d : TeapotData α) (sqrt : α → α) (s : α) (w : Bool)
    (st : TeapotState α) :
    (fghTeapot d sqrt s w st).2.getLast? = some (fghTeapot_draw w) := by
  unfold fghTeapot
  split_ifs <;> rfl

/-- C12 (as amended): for the solid style (`N = 10`) at any scale, with the ten
input patches the code speaks of, the number of vertices generated (the final
offset of the patch loop is three values per vertex) and handed to the drawer is
`10*10*32 = 3200`, and the number of triangles in the index buffer (three
indices per triangle, written and announced to the drawer) is
`9*9*32*2 = 5184`: the ten input patches expand to `6*4 + 4*2 = 32` copies. -/
theorem fghTeapot_solid_counts (d : TeapotData α) (hd : d.nInputPatches = 10)
    (sqrt : α → α) (s : α) (st : TeapotState α) (b0 b1 : Nat → Nat → α) (f : Bool)
    (verts norms : Nat → α) (vertIdxs : Nat → Nat) :
    (fghTeapot_patches d sqrt s 10 b0 b1 f verts norms).2 = 3 * (10 * 10 * 32) ∧
    (fghTeapot d sqrt s false st).2.getLast?
      = some (Event.drawSolid (10 * 10 * 32) 1 (9 * 9 * 32 * 2 * 3)) ∧
    (fghTeapot_idxSolid_loop 10 vertIdxs).2 = 9 * 9 * 32 * 2 * 3 ∧
    GLUT_SOLID_TEAPOT_N_VERT = 3200 ∧ GLUT_SOLID_TEAPOT_N_TRI = 5184 ∧
    GLUT_TEAPOT_N_PATCHES = 32 := by
  refine ⟨?_, ?_, fghTeapot_idxSolid_loop_snd vertIdxs, rfl, rfl, rfl⟩
  · rw [fghTeapot_patches_snd, hd, fghTeapot_offset_ten]
    rfl
  · rw [fghTeapot_last_event]
    rfl

/-- C12 (as amended) on the example data at scale `1` from the initial state. -/
theorem fghTeapot_solid_counts_witness :
    (exampleData : TeapotData ℚ).nInputPatches = 10 ∧
    ((fghTeapot_patches (exampleData : TeapotData ℚ) (fun x => x) 1 10 zeroTab zeroTab
        false zeroBuf zeroBuf).2 = 3 * (10 * 10 * 32) ∧
    (fghTeapot (exampleData : TeapotData ℚ) (fun x => x) 1 false initState).2.getLast?
      = some (Event.drawSolid (10 * 10 * 32) 1 (9 * 9 * 32 * 2 * 3)) ∧
    (fghTeapot_idxSolid_loop 10 (fun _ => 0)).2 = 9 * 9 * 32 * 2 * 3 ∧
    GLUT_SOLID_TEAPOT_N_VERT = 3200 ∧ GLUT_SOLID_TEAPOT_N_TRI = 5184 ∧
    GLUT_TEAPOT_N_PATCHES = 32) :=
  ⟨rfl, fghTeapot_solid_counts exampleData rfl (fun x => x) 1 initState zeroTab zeroTab
    false zeroBuf zeroBuf (fun _ => 0)⟩

/-- C12 fails as stated: the first solid call at scale `1` on the example data
(ten input patches) announces `3200` vertices and `15552 = 3 * 5184` indices to
the drawer, not `10*10*56 = 5600` vertices and `3 * 9072` indices. -/
theorem fghTeapot_counts_56_counterexample :
    (fghTeapot (exampleData : TeapotData ℚ) (fun x => x) 1 false initState).2
      = [Event.printRegen, Event.drawSolid 3200 1 15552] ∧
    (3200 : Nat) ≠ 10 * 10 * 56 ∧ (15552 : Nat) ≠ 9 * 9 * 56 * 2 * 3 := by
  refine ⟨?_, by decide, by decide⟩
  unfold fghTeapot
  have h : (initState : TeapotState ℚ).inited false = false
      ∨ (1 : ℚ) ≠ (initState : TeapotState ℚ).lastScale false := Or.inl rfl
  rw [if_pos h]
  rfl

end Counts

/-! ## Claim C18 -/

theorem bernstein3_values (x : α) :
    bernstein3 0 x = ((1 - x) * ((1 - x) * (1 - x)), -3 * ((1 - x) * (1 - x))) ∧
    bernstein3 1 x
      = (3 * x * ((1 - x) * (1 - x)), 3 * ((1 - x) * (1 - x)) - 6 * x * (1 - x)) ∧
    bernstein3 2 x = (3 * (x * x) * (1 - x), 6 * x * (1 - x) - 3 * (x * x)) ∧
    bernstein3 3 x = (x * (x * x), 3 * (x * x)) := by
  refine ⟨?_, ?_, ?_, ?_⟩ <;> simp [bernstein3]

theorem bernstein3_other (j : Int) (hj : j < 0 ∨ 3 < j) (x : α) :
    bernstein3 j x = (0, 0) := by
  have h0 : j ≠ 0 := by omega
  have h1 : j ≠ 1 := by omega
  have h2 : j ≠ 2 := by omega
  have h3 : j ≠ 3 := by omega
  simp [bernstein3, h0, h1, h2, h3]

/-- C18: for each `i` in `0..3` the second output `r1` of `bernstein3(i, x)` is,
as a function of the real `x`, the derivative with respect to `x` of the first
output `r0`, which is `(1-x)^3`, `3x(1-x)^2`, `3x^2(1-x)`, `x^3` for
`i = 0, 1, 2, 3`; for any other `j` both outputs are `0`. -/
theorem bernstein3_derivative (i : Int) (hi : 0 ≤ i ∧ i ≤ 3) (j : Int)
    (hj : j < 0 ∨ 3 < j) (x : ℝ) :
    HasDerivAt (fun y : ℝ => (bernstein3 i y).1) (bernstein3 i x).2 x ∧
    ((bernstein3 0 x).1 = (1 - x) ^ 3 ∧ (bernstein3 1 x).1 = 3 * x * (1 - x) ^ 2 ∧
      (bernstein3 2 x).1 = 3 * x ^ 2 * (1 - x) ∧ (bernstein3 3 x).1 = x ^ 3) ∧
    bernstein3 j x = (0, 0) := by
  have h1 : HasDerivAt (fun y : ℝ => 1 - y) (-1) x := by
    simpa using (hasDerivAt_id x).const_sub 1
  have hx : HasDerivAt (fun y : ℝ => y) 1 x := hasDerivAt_id x
  have h3 : HasDerivAt (fun _ : ℝ => (3 : ℝ)) 0 x := hasDerivAt_const x 3
  refine ⟨?_, ?_, bernstein3_other j hj x⟩
  · obtain ⟨hlo, hhi⟩ := hi
    interval_cases i
    · have hf : (fun y : ℝ => (bernstein3 0 y).1)
          = fun y => (1 - y) * ((1 - y) * (1 - y)) := by
        funext y
        rw [(bernstein3_values y).1]
      rw [hf, (bernstein3_values x).1]
      exact (h1.mul (h1.mul h1)).congr_deriv (by ring)
    · have hf : (fun y : ℝ => (bernstein3 1 y).1)
          = fun y => 3 * y * ((1 - y) * (1 - y)) := by
        funext y
        rw [(bernstein3_values y).2.1]
      rw [hf, (bernstein3_values x).2.1]
      exact ((h3.mul hx).mul (h1.mul h1)).congr_deriv (by ring)
    · have hf : (fun y : ℝ => (bernstein3 2 y).1)
          = fun y => 3 * (y * y) * (1 - y) := by
        funext y
        rw [(bernstein3_values y).2.2.1]
      rw [hf, (bernstein3_values x).2.2.1]
      exact ((h3.mul (hx.mul hx)).mul h1).congr_deriv (by ring)
    · have hf : (fun y : ℝ => (bernstein3 3 y).1) = fun y => y * (y * y) := by
        funext y
        rw [(bernstein3_values y).2.2.2]
      rw [hf, (bernstein3_values x).2.2.2]
      exact (hx.mul (hx.mul hx)).congr_deriv (by ring)
  · rw [(bernstein3_values x).1, (bernstein3_values x).2.1, (bernstein3_values x).2.2.1,
      (bernstein3_values x).2.2.2]
    refine ⟨?_, ?_, ?_, ?_⟩ <;> simp only <;> ring

/-- C18 at `i = 2`, `j = -1`, `x = 1/2`. -/
theorem bernstein3_derivative_witness :
    (((0 : Int) ≤ 2 ∧ (2 : Int) ≤ 3) ∧ ((-1 : Int) < 0 ∨ (3 : Int) < -1)) ∧
    (HasDerivAt (fun y : ℝ => (bernstein3 2 y).1) (bernstein3 2 (1 / 2 : ℝ)).2 (1 / 2) ∧
    ((bernstein3 0 (1 / 2 : ℝ)).1 = (1 - 1 / 2) ^ 3
      ∧ (bernstein3 1 (1 / 2 : ℝ)).1 = 3 * (1 / 2) * (1 - 1 / 2) ^ 2
      ∧ (bernstein3 2 (1 / 2 : ℝ)).1 = 3 * (1 / 2) ^ 2 * (1 - 1 / 2)
      ∧ (bernstein3 3 (1 / 2 : ℝ)).1 = (1 / 2) ^ 3) ∧
    bernstein3 (-1) (1 / 2 : ℝ) = (0, 0)) :=
  ⟨⟨⟨by decide, by decide⟩, Or.inl (by decide)⟩,
    bernstein3_derivative 2 ⟨by decide, by decide⟩ (-1) (Or.inl (by decide)) (1 / 2)⟩

/-! ## Texture coordinates -/

theorem texPair_frame {β : Type} (x y : β) (o : Nat) (b : Nat → β) (k : Nat)
    (hk : k < o ∨ o + 2 ≤ k) :
    Function.update (Function.update b (o + 0) x) (o + 1) y k = b k := by
  rw [Function.update_noteq (by omega), Function.update_noteq (by omega)]

theorem texPair_at {β : Type} (x y : β) (o : Nat) (b : Nat → β) (e : Nat) (he : e < 2) :
    Function.update (Function.update b (o + 0) x) (o + 1) y (o + e)
      = if e = 0 then x else y := by
  interval_cases e
  · rw [Function.update_noteq (by omega)]
    simp
  · simp

/-- The two phases of `fghTeapot_texcs`, with the write position made explicit. -/
theorem fghTeapot_texcs_eq (N : Nat) (texcs : Nat → α) :
    fghTeapot_texcs N texcs
      = forLoop (GLUT_TEAPOT_N_PATCHES - 1)
          (fun q t => memcpy t ((q + 1) * N * N * 2) 0 (N * N * 2))
          (forLoop N (fun r s => forLoop N (fun c s =>
            Function.update (Function.update s (0 + 2 * N * r + 2 * c + 0)
              ((r : α) / ((N : α) - 1))) (0 + 2 * N * r + 2 * c + 1)
              ((c : α) / ((N : α) - 1))) s) texcs) := by
  unfold fghTeapot_texcs
  have hin : ∀ r (st : (Nat → α) × Nat),
      forLoop N (fun c (st : (Nat → α) × Nat) =>
          (Function.update (Function.update st.1 (st.2 + 0) ((r : α) / ((N : α) - 1)))
            (st.2 + 1) ((c : α) / ((N : α) - 1)), st.2 + 2)) st
        = (forLoop N (fun c s =>
            Function.update (Function.update s (st.2 + 2 * c + 0)
              ((r : α) / ((N : α) - 1))) (st.2 + 2 * c + 1)
              ((c : α) / ((N : α) - 1))) st.1, st.2 + 2 * N) := by
    intro r st
    obtain ⟨s, o⟩ := st
    exact forLoop_counter 2
      (fun c o s => Function.update (Function.update s (o + 0) ((r : α) / ((N : α) - 1)))
        (o + 1) ((c : α) / ((N : α) - 1))) N o s
  have hout := forLoop_counter_of (2 * N)
    (fun r (st : (Nat → α) × Nat) =>
      forLoop N (fun c (st : (Nat → α) × Nat) =>
        (Function.update (Function.update st.1 (st.2 + 0) ((r : α) / ((N : α) - 1)))
          (st.2 + 1) ((c : α) / ((N : α) - 1)), st.2 + 2)) st)
    (fun r o s => forLoop N (fun c s =>
      Function.update (Function.update s (o + 2 * c + 0)
        ((r : α) / ((N : α) - 1))) (o + 2 * c + 1)
        ((c : α) / ((N : α) - 1))) s)
    (fun r st => hin r st) N 0 texcs
  simp only
  rw [hout]

/-- Grid written by the first phase for `nSubDivs = 10`. -/
theorem fghTeapot_texcs_base (texcs : Nat → α) :
    (∀ k, 200 ≤ k →
      forLoop 10 (fun r s => forLoop 10 (fun c s =>
        Function.update (Function.update s (0 + 2 * 10 * r + 2 * c + 0)
          ((r : α) / (((10 : Nat) : α) - 1))) (0 + 2 * 10 * r + 2 * c + 1)
          ((c : α) / (((10 : Nat) : α) - 1))) s) texcs k = texcs k) ∧
    (∀ j, j < 200 →
      forLoop 10 (fun r s => forLoop 10 (fun c s =>
        Function.update (Function.update s (0 + 2 * 10 * r + 2 * c + 0)
          ((r : α) / (((10 : Nat) : α) - 1))) (0 + 2 * 10 * r + 2 * c + 1)
          ((c : α) / (((10 : Nat) : α) - 1))) s) texcs j
        = if j % 2 = 0 then ((j / 20 : Nat) : α) / (((10 : Nat) : α) - 1)
          else ((j % 20 / 2 : Nat) : α) / (((10 : Nat) : α) - 1)) := by
  have L1 := fun (r : Nat) => blocks_nest 2 10 (by decide)
    (fun c o s => Function.update (Function.update s (o + 0)
      ((r : α) / (((10 : Nat) : α) - 1))) (o + 1) ((c : α) / (((10 : Nat) : α) - 1)))
    (fun c e _ => if e = 0 then (r : α) / (((10 : Nat) : α) - 1)
      else (c : α) / (((10 : Nat) : α) - 1))
    (fun c o b k hk => texPair_frame _ _ o b k hk)
    (fun c o b e he => texPair_at _ _ o b e he)
  have L2 := blocks_nest (2 * 10) 10 (by decide)
    (fun r o s => forLoop 10 (fun c s =>
      Function.update (Function.update s (o + 2 * c + 0)
        ((r : α) / (((10 : Nat) : α) - 1))) (o + 2 * c + 1)
        ((c : α) / (((10 : Nat) : α) - 1))) s)
    (fun r c' _ => if c' % 2 = 0 then (r : α) / (((10 : Nat) : α) - 1)
      else ((c' / 2 : Nat) : α) / (((10 : Nat) : α) - 1))
    (fun r o b k hk => (L1 r o b).1 k hk)
    (fun r o b c' hc' => (L1 r o b).2 c' hc')
    0 texcs
  constructor
  · intro k hk
    exact L2.1 k (Or.inr (by omega))
  · intro j hj
    have h := L2.2 j (by omega)
    rw [Nat.zero_add] at h
    rw [h]
    have e1 : j % (2 * 10) % 2 = j % 2 := by omega
    have e2 : j / (2 * 10) = j / 20 := by omega
    have e3 : j % (2 * 10) / 2 = j % 20 / 2 := by omega
    rw [e1, e2, e3]

/-- Copies made by the second phase for `nSubDivs = 10`. -/
theorem fghTeapot_texcs_copies {β : Type} (t : Nat → β) (n p j : Nat) (hp : p ≤ n)
    (hj : j < 200) :
    forLoop n (fun q t => memcpy t ((q + 1) * 10 * 10 * 2) 0 (10 * 10 * 2)) t (p * 200 + j)
      = t j := by
  induction n generalizing p with
  | zero =>
    have h0 : p = 0 := by omega
    subst h0
    simp [forLoop]
  | succ n ih =>
    rw [forLoop_succ]
    unfold memcpy
    by_cases hpn : p = n + 1
    · subst hpn
      rw [if_pos (by omega)]
      have e : 0 + ((n + 1) * 200 + j - (n + 1) * 10 * 10 * 2) = 0 * 200 + j := by omega
      rw [e]
      exact ih 0 (by omega)
    · rw [if_neg (by omega)]
      exact ih p (by omega)

/-- Entries of the texture-coordinate buffer for `nSubDivs = 10`. -/
theorem fghTeapot_texcs_at (texcs : Nat → α) (p j : Nat)
    (hp : p < GLUT_TEAPOT_N_PATCHES) (hj : j < 200) :
    fghTeapot_texcs 10 texcs (p * 200 + j)
      = if j % 2 = 0 then ((j / 20 : Nat) : α) / (((10 : Nat) : α) - 1)
        else ((j % 20 / 2 : Nat) : α) / (((10 : Nat) : α) - 1) := by
  have hp' : p < 32 := hp
  rw [fghTeapot_texcs_eq, fghTeapot_texcs_copies _ _ p j (by
    show p ≤ 6 * 4 + 4 * 2 - 1
    omega) hj]
  exact (fghTeapot_texcs_base texcs).2 j hj

/-! ## Claim C17 -/

/-- Texture coordinates left by the first call of the solid style. -/
theorem fghTeapot_first_solid_texcs [DecidableEq α] (d : TeapotData α) (sqrt : α → α)
    (s : α) (st : TeapotState α) (h0 : st.initedSolid = false) :
    (fghTeapot d sqrt s false st).1.texcsSolid = fghTeapot_texcs 10 st.texcsSolid := by
  unfold fghTeapot
  have h : st.inited false = false ∨ s ≠ st.lastScale false := Or.inl h0
  rw [if_pos h]
  simp [fghTeapot_regen, TeapotState.inited, h0, nSubDivsOf, GLUT_SOLID_TEAPOT_N_SUBDIV]

/-- C17: in the solid texture-coordinate buffer built on first use (`N = 10`),
for every patch copy `p`, row `r < N` and column `c < N`, the pair stored at
offset `2*(p*N*N + r*N + c)` is `(r/(N-1), c/(N-1))`; both coordinates lie in
`[0, 1]`, the grid contains `0` (row and column `0`) and `1` (row and column
`N-1`), and every patch copy carries the same pair as copy `0`. -/
theorem fghTeapot_texcs_grid {β : Type} [LinearOrderedField β] (d : TeapotData β)
    (sqrt : β → β) (s : β) (st : TeapotState β) (h0 : st.initedSolid = false)
    (p r c : Nat) (hp : p < GLUT_TEAPOT_N_PATCHES) (hr : r < 10) (hc : c < 10) :
    ((fghTeapot d sqrt s false st).1.texcsSolid (2 * (p * 10 * 10 + r * 10 + c) + 0)
        = (r : β) / (((10 : Nat) : β) - 1) ∧
      (fghTeapot d sqrt s false st).1.texcsSolid (2 * (p * 10 * 10 + r * 10 + c) + 1)
        = (c : β) / (((10 : Nat) : β) - 1)) ∧
    ((0 ≤ (fghTeapot d sqrt s false st).1.texcsSolid (2 * (p * 10 * 10 + r * 10 + c) + 0) ∧
      (fghTeapot d sqrt s false st).1.texcsSolid (2 * (p * 10 * 10 + r * 10 + c) + 0) ≤ 1) ∧
     (0 ≤ (fghTeapot d sqrt s false st).1.texcsSolid (2 * (p * 10 * 10 + r * 10 + c) + 1) ∧
      (fghTeapot d sqrt s false st).1.texcsSolid (2 * (p * 10 * 10 + r * 10 + c) + 1) ≤ 1)) ∧
    ((fghTeapot d sqrt s false st).1.texcsSolid (2 * (p * 10 * 10 + 0 * 10 + 0) + 0) = 0 ∧
      (fghTeapot d sqrt s false st).1.texcsSolid (2 * (p * 10 * 10 + 0 * 10 + 0) + 1) = 0 ∧
      (fghTeapot d sqrt s false st).1.texcsSolid (2 * (p * 10 * 10 + 9 * 10 + 9) + 0) = 1 ∧
      (fghTeapot d sqrt s false st).1.texcsSolid (2 * (p * 10 * 10 + 9 * 10 + 9) + 1) = 1) ∧
    ((fghTeapot d sqrt s false st).1.texcsSolid (2 * (p * 10 * 10 + r * 10 + c) + 0)
        = (fghTeapot d sqrt s false st).1.texcsSolid (2 * (0 * 10 * 10 + r * 10 + c) + 0) ∧
      (fghTeapot d sqrt s false st).1.texcsSolid (2 * (p * 10 * 10 + r * 10 + c) + 1)
        = (fghTeapot d sqrt s false st).1.texcsSolid (2 * (0 * 10 * 10 + r * 10 + c) + 1)) := by
  have key : ∀ q r' c', q < GLUT_TEAPOT_N_PATCHES → r' < 10 → c' < 10 →
      (fghTeapot d sqrt s false st).1.texcsSolid (2 * (q * 10 * 10 + r' * 10 + c') + 0)
        = (r' : β) / (((10 : Nat) : β) - 1) ∧
      (fghTeapot d sqrt s false st).1.texcsSolid (2 * (q * 10 * 10 + r' * 10 + c') + 1)
        = (c' : β) / (((10 : Nat) : β) - 1) := by
    intro q r' c' hq hr' hc'
    rw [fghTeapot_first_solid_texcs d sqrt s st h0]
    have i0 : 2 * (q * 10 * 10 + r' * 10 + c') + 0 = q * 200 + (20 * r' + 2 * c') := by omega
    have i1 : 2 * (q * 10 * 10 + r' * 10 + c') + 1 = q * 200 + (20 * r' + 2 * c' + 1) := by
      omega
    rw [i0, i1, fghTeapot_texcs_at _ q _ hq (by omega),
      fghTeapot_texcs_at _ q _ hq (by omega)]
    have m0 : (20 * r' + 2 * c') % 2 = 0 := by omega
    have m1 : ¬ ((20 * r' + 2 * c' + 1) % 2 = 0) := by omega
    have d0 : (20 * r' + 2 * c') / 20 = r' := by omega
    have d1 : (20 * r' + 2 * c' + 1) % 20 / 2 = c' := by omega
    rw [if_pos m0, if_neg m1, d0, d1]
    exact ⟨rfl, rfl⟩
  have h9 : (((10 : Nat) : β) - 1) = 9 := by norm_num
  have bound : ∀ n : Nat, n < 10 →
      0 ≤ (n : β) / (((10 : Nat) : β) - 1) ∧ (n : β) / (((10 : Nat) : β) - 1) ≤ 1 := by
    intro n hn
    rw [h9]
    have hn' : (n : β) ≤ 9 := by
      have : n ≤ 9 := by omega
      exact_mod_cast this
    have hn0 : (0 : β) ≤ (n : β) := Nat.cast_nonneg n
    constructor
    · positivity
    · rw [div_le_one (by norm_num)]
      exact hn'
  obtain ⟨k0, k1⟩ := key p r c hp hr hc
  obtain ⟨z0, z1⟩ := key p 0 0 hp (by decide) (by decide)
  obtain ⟨n0, n1⟩ := key p 9 9 hp (by decide) (by decide)
  obtain ⟨c0, c1⟩ := key 0 r c (by decide) hr hc
  refine ⟨⟨k0, k1⟩, ⟨?_, ?_⟩, ⟨?_, ?_, ?_, ?_⟩, ?_, ?_⟩
  · rw [k0]; exact bound r hr
  · rw [k1]; exact bound c hc
  · rw [z0]; simp
  · rw [z1]; simp
  · rw [n0, h9]; norm_num
  · rw [n1, h9]; norm_num
  · rw [k0, c0]
  · rw [k1, c1]

/-- C17 for the first solid call at scale `1` from the initial state, patch copy
`31`, row `3`, column `9`: the pair stored is `(3/9, 9/9)`. -/
theorem fghTeapot_texcs_grid_witness :
    ((initState : TeapotState ℚ).initedSolid = false ∧ 31 < GLUT_TEAPOT_N_PATCHES
      ∧ 3 < 10 ∧ 9 < 10) ∧
    ((fghTeapot (exampleData : TeapotData ℚ) (fun x => x) 1 false initState).1.texcsSolid
        (2 * (31 * 10 * 10 + 3 * 10 + 9) + 0) = ((3 : Nat) : ℚ) / (((10 : Nat) : ℚ) - 1) ∧
      (fghTeapot (exampleData : TeapotData ℚ) (fun x => x) 1 false initState).1.texcsSolid
        (2 * (31 * 10 * 10 + 3 * 10 + 9) + 1) = ((9 : Nat) : ℚ) / (((10 : Nat) : ℚ) - 1)) :=
  ⟨⟨rfl, by decide, by decide, by decide⟩,
    (fghTeapot_texcs_grid (exampleData : TeapotData ℚ) (fun x => x) 1 initState rfl 31 3 9
      (by decide) (by decide) (by decide)).1⟩

/-! ## Claim C20 -/

/-- Solid index buffer for `nSubDivs = 10`: entries left alone. -/
theorem fghTeapot_idxSolid_frame (vertIdxs : Nat → Nat) (k : Nat) (hk : 15552 ≤ k) :
    fghTeapot_idxSolid 10 vertIdxs k = vertIdxs k := by
  rw [fghTeapot_idxSolid_eq]
  have L1 := fun (p r : Nat) => blocks_nest 6 (10 - 1) (by decide)
    (fun c o s => fghTeapot_quad 10 (10 * 10 * p) (r * 10) c o s)
    (fun c j _ => quadValue 10 (10 * 10 * p) (r * 10) c j)
    (fun c o b k hk => fghTeapot_quad_frame 10 _ _ c o b k hk)
    (fun c o b j hj => fghTeapot_quad_at 10 _ _ c o b j hj)
  have L2 := fun (p : Nat) => blocks_nest (6 * (10 - 1)) (10 - 1) (by decide)
    (fun r o s => forLoop (10 - 1) (fun c s =>
      fghTeapot_quad 10 (10 * 10 * p) (r * 10) c (o + 6 * c) s) s)
    (fun r c' _ => quadValue 10 (10 * 10 * p) (r * 10) (c' / 6) (c' % 6))
    (fun r o b k hk => (L1 p r o b).1 k hk)
    (fun r o b c' hc' => (L1 p r o b).2 c' hc')
  have L3 := (blocks_loop (6 * (10 - 1) * (10 - 1))
    (fun p o s => forLoop (10 - 1) (fun r s => forLoop (10 - 1) (fun c s =>
      fghTeapot_quad 10 (10 * 10 * p) (r * 10) c (o + 6 * (10 - 1) * r + 6 * c) s) s) s)
    (fun p c'' _ => quadValue 10 (10 * 10 * p) ((c'' / (6 * (10 - 1))) * 10)
      ((c'' % (6 * (10 - 1))) / 6) ((c'' % (6 * (10 - 1))) % 6))
    (fun p o b k hk => (L2 p o b).1 k hk)
    (fun p o b c'' hc'' => (L2 p o b).2 c'' hc'')
    0 GLUT_TEAPOT_N_PATCHES vertIdxs).1 k
  have hP : 0 + 6 * (10 - 1) * (10 - 1) * GLUT_TEAPOT_N_PATCHES = 15552 := by decide
  rw [hP] at L3
  exact L3 (Or.inr hk)

/-- Solid index buffer for `nSubDivs = 10`: every entry is the `int` assigned. -/
theorem fghTeapot_idxSolid_int (vertIdxs : Nat → Nat) (j : Nat) (hj : j < 15552) :
    fghTeapot_idxSolid 10 vertIdxs j = solidIndexInt j ∧ solidIndexInt j < 3200 := by
  have hidx : j = 6 * ((j / 486 * 9 + j % 486 / 54) * 9 + j % 54 / 6) + j % 6 := by omega
  have h := fghTeapot_idxSolid_at vertIdxs (j / 486) (j % 486 / 54) (j % 54 / 6) (j % 6)
    (show j / 486 < 6 * 4 + 4 * 2 by omega) (by omega) (by omega) (by omega)
  rw [← hidx] at h
  rw [h]
  unfold quadValue solidIndexInt
  simp only
  have hb : 10 * 10 * (j / 486) + j % 486 / 54 * 10 + j % 54 / 6 + 10 + 1 < 3200 := by omega
  split_ifs <;> refine ⟨toGLushort_of_lt _ (by omega), by omega⟩

/-- Wire index buffer for `nSubDivs = 7`: every entry is the `int` assigned. -/
theorem fghTeapot_idxWire_int (vertIdxs : Nat → Nat) (j : Nat) (hj : j < 3136) :
    fghTeapot_idxWire 7 vertIdxs j = wireIndexInt j ∧ wireIndexInt j < 1568 := by
  unfold fghTeapot_idxWire wireIndexInt
  obtain ⟨-, -, a3, a4⟩ := fghTeapot_idxWire_loop_at vertIdxs
  by_cases h : j < 1568
  · rw [if_pos h, a3 j h]
    have hb : 7 * 7 * (j / 49) + j % 49 % 7 * 7 + j % 49 / 7 < 1568 := by omega
    exact ⟨toGLushort_of_lt _ (by omega), hb⟩
  · rw [if_neg h]
    have e : j = 1568 + (j - 1568) := by omega
    have h' : j - 1568 < 1568 := by omega
    generalize j - 1568 = i at e h'
    subst e
    rw [a4 i h']
    have hb : 7 * 7 * (i / 49) + i % 49 / 7 * 7 + i % 49 % 7 < 1568 := by omega
    exact ⟨toGLushort_of_lt _ (by omega), hb⟩

section IndexSafety

variable [DecidableEq α]

/-- C20: for both styles, every entry of the index buffer built on first use
holds the `int` value the code assigned to it, and that value is a valid vertex
number: below the style's vertex count `N*N*P` and below `2^16`, so its
conversion to `GLushort` loses nothing.  The number of entries written (the final
write position, nothing at or beyond it being touched) is the declared length of
the buffer and the count announced to the drawer: `(N-1)*(N-1)*P*2*3` in one
part for solid, `P*N*2` strips of `N` indices, `2*N*N*P` in all, for wire. -/
theorem fghTeapot_indices_valid (d : TeapotData α) (sqrt : α → α) (s : α)
    (st : TeapotState α) (hS : st.initedSolid = false) (hW : st.initedWire = false)
    (j : Nat) (hj : j < GLUT_SOLID_TEAPOT_N_TRI * 3)
    (i : Nat) (hi : i < GLUT_WIRE_TEAPOT_N_VERT * 2) :
    ((fghTeapot d sqrt s false st).1.vertIdxsSolid j = solidIndexInt j ∧
      solidIndexInt j < GLUT_SOLID_TEAPOT_N_VERT ∧ solidIndexInt j < 2 ^ 16 ∧
      toGLushort (solidIndexInt j) = solidIndexInt j) ∧
    ((fghTeapot_idxSolid_loop 10 st.vertIdxsSolid).2 = GLUT_SOLID_TEAPOT_N_TRI * 3 ∧
      (∀ k, GLUT_SOLID_TEAPOT_N_TRI * 3 ≤ k →
        (fghTeapot d sqrt s false st).1.vertIdxsSolid k = st.vertIdxsSolid k) ∧
      (fghTeapot d sqrt s false st).2.getLast?
        = some (Event.drawSolid GLUT_SOLID_TEAPOT_N_VERT 1 (GLUT_SOLID_TEAPOT_N_TRI * 3)) ∧
      1 * (GLUT_SOLID_TEAPOT_N_TRI * 3)
        = (10 - 1) * (10 - 1) * GLUT_TEAPOT_N_PATCHES * 2 * 3) ∧
    ((fghTeapot d sqrt s true st).1.vertIdxsWire i = wireIndexInt i ∧
      wireIndexInt i < GLUT_WIRE_TEAPOT_N_VERT ∧ wireIndexInt i < 2 ^ 16 ∧
      toGLushort (wireIndexInt i) = wireIndexInt i) ∧
    ((fghTeapot_idxWire_loop 7 st.vertIdxsWire).2 = GLUT_WIRE_TEAPOT_N_VERT * 2 ∧
      (∀ k, GLUT_WIRE_TEAPOT_N_VERT * 2 ≤ k →
        (fghTeapot d sqrt s true st).1.vertIdxsWire k = st.vertIdxsWire k) ∧
      (fghTeapot d sqrt s true st).2.getLast?
        = some (Event.drawWire GLUT_WIRE_TEAPOT_N_VERT (GLUT_TEAPOT_N_PATCHES * 7 * 2) 7) ∧
      GLUT_TEAPOT_N_PATCHES * 7 * 2 * 7 = GLUT_WIRE_TEAPOT_N_VERT * 2 ∧
      GLUT_WIRE_TEAPOT_N_VERT * 2 = 2 * 7 * 7 * GLUT_TEAPOT_N_PATCHES) := by
  have eS : GLUT_SOLID_TEAPOT_N_TRI * 3 = 15552 := by decide
  have eW : GLUT_WIRE_TEAPOT_N_VERT * 2 = 3136 := by decide
  have vS : GLUT_SOLID_TEAPOT_N_VERT = 3200 := by decide
  have vW : GLUT_WIRE_TEAPOT_N_VERT = 1568 := by decide
  rw [eS] at hj
  rw [eW] at hi
  obtain ⟨s1, s2⟩ := fghTeapot_idxSolid_int st.vertIdxsSolid j hj
  obtain ⟨w1, w2⟩ := fghTeapot_idxWire_int st.vertIdxsWire i hi
  obtain ⟨c1, c2, -, -⟩ := fghTeapot_idxWire_loop_at st.vertIdxsWire
  rw [fghTeapot_first_solid_vertIdxs d sqrt s st hS,
    fghTeapot_first_wire_vertIdxs d sqrt s st hW, fghTeapot_last_event,
    fghTeapot_last_event, eS, eW, vS, vW]
  refine ⟨⟨s1, s2, by omega, toGLushort_of_lt _ (by omega)⟩,
    ⟨fghTeapot_idxSolid_loop_snd _, fun k hk => fghTeapot_idxSolid_frame _ k hk, rfl,
      by decide⟩,
    ⟨w1, w2, by omega, toGLushort_of_lt _ (by omega)⟩,
    ⟨c1, fun k hk => c2 k hk, rfl, by decide, by decide⟩⟩

/-- C20 for the first calls at scale `1` from the initial state: the last entry
of each index buffer. -/
theorem fghTeapot_indices_valid_witness :
    ((initState : TeapotState ℚ).initedSolid = false
      ∧ (initState : TeapotState ℚ).initedWire = false
      ∧ 15551 < GLUT_SOLID_TEAPOT_N_TRI * 3 ∧ 3135 < GLUT_WIRE_TEAPOT_N_VERT * 2) ∧
    ((fghTeapot (exampleData : TeapotData ℚ) (fun x => x) 1 false initState).1.vertIdxsSolid
        15551 = solidIndexInt 15551 ∧
      solidIndexInt 15551 < GLUT_SOLID_TEAPOT_N_VERT ∧ solidIndexInt 15551 < 2 ^ 16 ∧
      toGLushort (solidIndexInt 15551) = solidIndexInt 15551) ∧
    ((fghTeapot (exampleData : TeapotData ℚ) (fun x => x) 1 true initState).1.vertIdxsWire
        3135 = wireIndexInt 3135 ∧
      wireIndexInt 3135 < GLUT_WIRE_TEAPOT_N_VERT ∧ wireIndexInt 3135 < 2 ^ 16 ∧
      toGLushort (wireIndexInt 3135) = wireIndexInt 3135) :=
  ⟨⟨rfl, rfl, by decide, by decide⟩,
    (fghTeapot_indices_valid (exampleData : TeapotData ℚ) (fun x => x) 1 initState rfl rfl
      15551 (by decide) 3135 (by decide)).1,
    (fghTeapot_indices_valid (exampleData : TeapotData ℚ) (fun x => x) 1 initState rfl rfl
      15551 (by decide) 3135 (by decide)).2.2.1⟩

end IndexSafety

/-! ## Bounds of the writes -/

theorem rotOrReflect_rot_loop_high (nVals : Nat) (vals : Nat → α) (n : Nat)
    (hn : 3 * n ≤ nVals) (k : Nat) (hk : nVals * 4 ≤ k) :
    forLoop n (fun t => rotOrReflect_rot nVals (nVals * 2) (nVals * 3) (3 * t)) vals k
      = vals k := by
  exact forLoop_inv (fun (r : Nat → α) => r k = vals k) n _
    (fun t ht r hr => by
      show rotOrReflect_rot nVals (nVals * 2) (nVals * 3) (3 * t) r k = vals k
      unfold rotOrReflect_rot
      simp (disch := omega) only [upd_ne]
      exact hr) vals rfl

/-- Nothing at or beyond `N*N*3*flag` is written by `rotOrReflect`. -/
theorem rotOrReflect_frame (flag N : Nat) (vals : Nat → α) (k : Nat)
    (hk : N * N * 3 * flag ≤ k) (hf : 0 < flag) :
    rotOrReflect flag (N * N * 3) N vals k = vals k := by
  unfold rotOrReflect
  split_ifs with h4 h2
  · subst h4
    simp only [forStride_three]
    exact rotOrReflect_rot_loop_high (N * N * 3) vals (N * N) (by omega) k hk
  · subst h2
    exact (rotOrReflect_flipRow_loop (N * N * 3) N vals N (Nat.le_refl _)
      (Nat.le_refl _)).2.1 k (by omega)
  · rfl

theorem block_le_of_flag (N flag k : Nat) (hf : 0 < flag) (hk : N * N * 3 * flag ≤ k) :
    N * N * 3 ≤ k ∧ N * 3 ≤ k := by
  have h1 : N * N * 3 * 1 ≤ N * N * 3 * flag := Nat.mul_le_mul_left _ hf
  have h2 : N * 3 ≤ N * N * 3 := by
    rcases Nat.eq_zero_or_pos N with h0 | hpos
    · subst h0; simp
    · have : N * 1 ≤ N * N := Nat.mul_le_mul_left _ hpos
      omega
  omega

/-- Nothing at or beyond `N*N*3*flag` is written by `evalBezier`. -/
theorem evalBezier_frame (cp : Nat → Nat → Nat → α) (N : Nat) (b : Nat → Nat → α)
    (flag : Nat) (verts : Nat → α) (k : Nat) (hf : 0 < flag)
    (hk : N * N * 3 * flag ≤ k) :
    (evalBezier cp N b flag verts).1 k = verts k := by
  unfold evalBezier
  simp only
  rw [rotOrReflect_frame flag N _ k hk hf]
  exact evalBezier_grid_frame cp N b verts k (block_le_of_flag N flag k hf hk).1

theorem evalBezierWithNorm_fix_frame (N nf : Nat) (norms : Nat → α) (k : Nat)
    (hk : N * 3 ≤ k) : evalBezierWithNorm_fix N nf norms k = norms k := by
  unfold evalBezierWithNorm_fix
  split_ifs with h
  · simp only [forStride_three]
    exact forLoop_inv (fun (r : Nat → α) => r k = norms k) N _
      (fun t ht r hr => by
        show evalBezierWithNorm_fixRow nf (3 * t) r k = norms k
        unfold evalBezierWithNorm_fixRow
        simp (disch := omega) only [upd_ne]
        exact hr) norms rfl
  · rfl

/-- Nothing at or beyond `N*N*3*flag` is written by `evalBezierWithNorm`. -/
theorem evalBezierWithNorm_frame (sqrt : α → α) (cp : Nat → Nat → Nat → α) (N : Nat)
    (b0 b1 : Nat → Nat → α) (flag nf : Nat) (verts norms : Nat → α) (k : Nat)
    (hf : 0 < flag) (hk : N * N * 3 * flag ≤ k) :
    (evalBezierWithNorm sqrt cp N b0 b1 flag nf verts norms).verts k = verts k ∧
    (evalBezierWithNorm sqrt cp N b0 b1 flag nf verts norms).norms k = norms k := by
  refine ⟨?_, ?_⟩
  · rw [evalBezierWithNorm_verts]
    exact evalBezier_frame cp N b0 flag verts k hf hk
  · unfold evalBezierWithNorm
    simp only
    rw [rotOrReflect_frame flag N _ k hk hf,
      evalBezierWithNorm_fix_frame N nf _ k (block_le_of_flag N flag k hf hk).2]
    exact evalBezierWithNorm_grid_norms_frame sqrt cp N b0 b1 verts norms k
      (block_le_of_flag N flag k hf hk).1

/-- Buffers written by one patch of the patch loop. -/
theorem fghTeapot_patch_fst (d : TeapotData α) (sqrt : α → α) (scale : α) (N : Nat)
    (b0 b1 : Nat → Nat → α) (f : Bool) (p : Nat) (st : ((Nat → α) × (Nat → α)) × Nat) :
    (fghTeapot_patch d sqrt scale N b0 b1 f p st).1.1
      = ptrStore st.1.1 st.2 (evalBezier (fghTeapot_cp d scale p (fun _ _ _ => 0)) N b0
          (if p < 6 then 4 else 2) (ptrAdd st.1.1 st.2)).1 ∧
    (fghTeapot_patch d sqrt scale N b0 b1 f p st).1.2
      = if f = false then
          ptrStore st.1.2 st.2 (evalBezierWithNorm sqrt
            (fghTeapot_cp d scale p (fun _ _ _ => 0)) N b0 b1 (if p < 6 then 4 else 2)
            (if p = 3 then 1 else if p = 5 then 2 else 0)
            (ptrAdd st.1.1 st.2) (ptrAdd st.1.2 st.2)).norms
        else st.1.2 := by
  unfold fghTeapot_patch
  cases f <;> simp [evalBezierWithNorm_verts]

theorem flag_pos (p : Nat) : 0 < (if p < 6 then 4 else 2 : Nat) := by
  split_ifs <;> decide

/-- Nothing at or beyond the running offset is written by the patch loop. -/
theorem fghTeapot_patch_loop_frame (d : TeapotData α) (sqrt : α → α) (scale : α) (N : Nat)
    (b0 b1 : Nat → Nat → α) (f : Bool) (verts norms : Nat → α) (n k : Nat)
    (hk : fghTeapot_offset N n ≤ k) :
    (forLoop n (fghTeapot_patch d sqrt scale N b0 b1 f) ((verts, norms), 0)).1.1 k
      = verts k ∧
    (forLoop n (fghTeapot_patch d sqrt scale N b0 b1 f) ((verts, norms), 0)).1.2 k
      = norms k := by
  induction n with
  | zero => exact ⟨rfl, rfl⟩
  | succ n ih =>
    rw [fghTeapot_offset_succ] at hk
    obtain ⟨ih1, ih2⟩ := ih (by omega)
    have ho := fghTeapot_patch_loop_snd d sqrt scale N b0 b1 f n ((verts, norms), 0) rfl
    rw [forLoop_succ]
    generalize forLoop n (fghTeapot_patch d sqrt scale N b0 b1 f) ((verts, norms), 0) = st
      at ih1 ih2 ho ⊢
    obtain ⟨h1, h2⟩ := fghTeapot_patch_fst d sqrt scale N b0 b1 f n st
    rw [h1, h2, ho]
    have hge : ¬ k < fghTeapot_offset N n := by omega
    have hsub : N * N * 3 * (if n < 6 then 4 else 2) ≤ k - fghTeapot_offset N n := by omega
    constructor
    · unfold ptrStore
      rw [if_neg hge, evalBezier_frame _ N b0 _ _ _ (flag_pos n) hsub]
      unfold ptrAdd
      rw [show fghTeapot_offset N n + (k - fghTeapot_offset N n) = k by omega]
      exact ih1
    · cases f
      · simp only [if_true]
        unfold ptrStore
        rw [if_neg hge, (evalBezierWithNorm_frame sqrt _ N b0 b1 _ _ _ _ _ (flag_pos n)
          hsub).2]
        unfold ptrAdd
        rw [show fghTeapot_offset N n + (k - fghTeapot_offset N n) = k by omega]
        exact ih2
      · simp only [Bool.true_eq_false, if_false]
        exact ih2

/-- Every index below the length of 32 patch copies lies in the block of exactly
one of the ten patches. -/
theorem fghTeapot_offset_unique (N k : Nat) (hk : k < N * N * 3 * GLUT_TEAPOT_N_PATCHES) :
    ∃! p, p < 10 ∧ fghTeapot_offset N p ≤ k ∧ k < fghTeapot_offset N (p + 1) := by
  have hpos : 0 < N * N * 3 := by
    rcases Nat.eq_zero_or_pos (N * N * 3) with h0 | h
    · rw [h0] at hk; simp at hk
    · exact h
  have hq : k / (N * N * 3) < 32 := by
    rw [Nat.div_lt_iff_lt_mul hpos, Nat.mul_comm]
    exact hk
  have key : ∀ p, p < 10 →
      ((fghTeapot_offset N p ≤ k ∧ k < fghTeapot_offset N (p + 1))
        ↔ ((if p ≤ 6 then 4 * p else 12 + 2 * p) ≤ k / (N * N * 3)
          ∧ k / (N * N * 3) < (if p + 1 ≤ 6 then 4 * (p + 1) else 12 + 2 * (p + 1)))) := by
    intro p hp
    rw [fghTeapot_offset_eq N p (by omega), fghTeapot_offset_eq N (p + 1) (by omega),
      Nat.le_div_iff_mul_le hpos, Nat.div_lt_iff_lt_mul hpos,
      Nat.mul_comm (N * N * 3), Nat.mul_comm (N * N * 3)]
  generalize k / (N * N * 3) = q at hq key
  refine ⟨if q < 24 then q / 4 else 6 + (q - 24) / 2, ?_, ?_⟩
  · have hp : (if q < 24 then q / 4 else 6 + (q - 24) / 2) < 10 := by
      split_ifs <;> omega
    refine ⟨hp, (key _ hp).mpr ?_⟩
    split_ifs <;> omega
  · intro p' hp'
    obtain ⟨hp10, hlo, hhi⟩ := hp'
    have h := (key p' hp10).mp ⟨hlo, hhi⟩
    split_ifs at h ⊢ <;> omega

/-! ## Claim C19 -/

/-- C19: `evalBezier` and `evalBezierWithNorm` return `N*N*3*flag` and, for
`flag > 0`, write nothing at or beyond index `N*N*3*flag` of the buffers they
are given.  With the ten input patches of the code (six with `flag = 4`, four
with `flag = 2`), the running offset of `fghTeapot` after the last patch is
`3*N*N*32`, the declared length `nVerts*3` of the position and normal buffers;
the patch loop writes nothing at or beyond that length, and every index below
it lies in the block `[offset p, offset (p+1))` of exactly one patch `p`. -/
theorem fghTeapot_writes_in_bounds (sqrt : α → α) (cp : Nat → Nat → Nat → α) (N : Nat)
    (b0 b1 : Nat → Nat → α) (flag nf : Nat) (verts norms : Nat → α) (hflag : 0 < flag)
    (d : TeapotData α) (hd : d.nInputPatches = 10) (s : α) (w f : Bool)
    (t0 t1 : Nat → Nat → α) (v n : Nat → α) (k : Nat) (hk : k < nVertsOf w * 3) :
    ((evalBezier cp N b0 flag verts).2 = N * N * 3 * flag ∧
      (evalBezierWithNorm sqrt cp N b0 b1 flag nf verts norms).ret = N * N * 3 * flag) ∧
    (∀ i, N * N * 3 * flag ≤ i →
      (evalBezier cp N b0 flag verts).1 i = verts i ∧
      (evalBezierWithNorm sqrt cp N b0 b1 flag nf verts norms).verts i = verts i ∧
      (evalBezierWithNorm sqrt cp N b0 b1 flag nf verts norms).norms i = norms i) ∧
    ((fghTeapot_patches d sqrt s (nSubDivsOf w) t0 t1 f v n).2
        = 3 * nSubDivsOf w * nSubDivsOf w * 32 ∧
      3 * nSubDivsOf w * nSubDivsOf w * 32 = nVertsOf w * 3) ∧
    (∀ i, nVertsOf w * 3 ≤ i →
      (fghTeapot_patches d sqrt s (nSubDivsOf w) t0 t1 f v n).1.1 i = v i ∧
      (fghTeapot_patches d sqrt s (nSubDivsOf w) t0 t1 f v n).1.2 i = n i) ∧
    (∃! p, p < 10 ∧ fghTeapot_offset (nSubDivsOf w) p ≤ k
      ∧ k < fghTeapot_offset (nSubDivsOf w) (p + 1)) := by
  have hL : nVertsOf w * 3 = nSubDivsOf w * nSubDivsOf w * 3 * GLUT_TEAPOT_N_PATCHES :=
    nVertsOf_eq w
  have hoff : fghTeapot_offset (nSubDivsOf w) d.nInputPatches = nVertsOf w * 3 := by
    rw [hd, fghTeapot_offset_ten, hL]
  refine ⟨⟨rfl, rfl⟩, ?_, ⟨?_, ?_⟩, ?_, ?_⟩
  · intro i hi
    exact ⟨evalBezier_frame cp N b0 flag verts i hflag hi,
      evalBezierWithNorm_frame sqrt cp N b0 b1 flag nf verts norms i hflag hi⟩
  · rw [fghTeapot_patches_snd, hoff]
    cases w <;> rfl
  · cases w <;> rfl
  · intro i hi
    unfold fghTeapot_patches
    exact fghTeapot_patch_loop_frame d sqrt s (nSubDivsOf w) t0 t1 f v n d.nInputPatches i
      (by rw [hoff]; exact hi)
  · rw [hL] at hk
    exact fghTeapot_offset_unique (nSubDivsOf w) k hk

/-- C19 on the example data for the wire style at scale `1`, with the flat patch
and `flag = 4` for the evaluators: the values returned and the final offset. -/
theorem fghTeapot_writes_in_bounds_witness :
    (0 < 4 ∧ (exampleData : TeapotData ℚ).nInputPatches = 10 ∧ 5 < nVertsOf true * 3) ∧
    ((evalBezier (flatPatch : Nat → Nat → Nat → ℚ) 2 zeroTab 4 zeroBuf).2 = 2 * 2 * 3 * 4 ∧
      (evalBezierWithNorm (fun x => x) (flatPatch : Nat → Nat → Nat → ℚ) 2 zeroTab zeroTab
        4 0 zeroBuf zeroBuf).ret = 2 * 2 * 3 * 4) ∧
    ((fghTeapot_patches (exampleData : TeapotData ℚ) (fun x => x) 1 (nSubDivsOf true)
        zeroTab zeroTab false zeroBuf zeroBuf).2
        = 3 * nSubDivsOf true * nSubDivsOf true * 32 ∧
      3 * nSubDivsOf true * nSubDivsOf true * 32 = nVertsOf true * 3) :=
  ⟨⟨by decide, rfl, by decide⟩,
    (fghTeapot_writes_in_bounds (fun x => x) (flatPatch : Nat → Nat → Nat → ℚ) 2 zeroTab
      zeroTab 4 0 zeroBuf zeroBuf (by decide) exampleData rfl 1 true false zeroTab zeroTab
      zeroBuf zeroBuf 5 (by decide)).1,
    (fghTeapot_writes_in_bounds (fun x => x) (flatPatch : Nat → Nat → Nat → ℚ) 2 zeroTab
      zeroTab 4 0 zeroBuf zeroBuf (by decide) exampleData rfl 1 true false zeroTab zeroTab
      zeroBuf zeroBuf 5 (by decide)).2.2.1⟩

/-! ## Polar rows -/

theorem evalBezierWithNorm_fixRow_frame (nf o : Nat) (b : Nat → α) (k : Nat)
    (hk : k < o ∨ o + 3 ≤ k) : evalBezierWithNorm_fixRow nf o b k = b k := by
  unfold evalBezierWithNorm_fixRow
  simp (disch := omega) only [upd_ne]

theorem evalBezierWithNorm_fixRow_at (nf o : Nat) (b : Nat → α) (e : Nat) (he : e < 3) :
    evalBezierWithNorm_fixRow nf o b (o + e)
      = if e = 1 then (if nf = 1 then 1 else -1) else 0 := by
  unfold evalBezierWithNorm_fixRow
  interval_cases e <;> simp (disch := omega) only [upd_ne, upd_eq] <;> simp

/-- First row of normals after the normal fix. -/
theorem evalBezierWithNorm_fix_at (N nf : Nat) (hnf : nf ≠ 0) (norms : Nat → α)
    (c : Nat) (hc : c < N) :
    VecAt (evalBezierWithNorm_fix N nf norms) (3 * c) 0 (if nf = 1 then 1 else -1) 0 := by
  unfold evalBezierWithNorm_fix VecAt
  rw [if_pos hnf]
  simp only [forStride_three]
  have h := (cells_row (fun _ o b => evalBezierWithNorm_fixRow nf o b)
    (fun _ e _ => if e = 1 then (if nf = 1 then (1 : α) else -1) else 0)
    (fun _ o b k hk => evalBezierWithNorm_fixRow_frame nf o b k hk)
    (fun _ o b e he => evalBezierWithNorm_fixRow_at nf o b e he) 0 N norms).2 c
  simp only [Nat.zero_add] at h
  have h0 := h 0 hc (by decide)
  have h1 := h 1 hc (by decide)
  have h2 := h 2 hc (by decide)
  rw [if_neg (by decide)] at h0
  rw [if_pos rfl] at h1
  rw [if_neg (by decide)] at h2
  exact ⟨h0, h1, h2⟩

theorem row_lt_block (N c : Nat) (hc : c < N) : 3 * c + 2 < N * N * 3 := by
  have h1 : N * 1 ≤ N * N := Nat.mul_le_mul_left _ (by omega)
  omega

/-- The polar row and its three rotated copies in the buffer returned by
`evalBezierWithNorm` with `flag = 4` and a normal fix. -/
theorem evalBezierWithNorm_polar_four (sqrt : α → α) (cp : Nat → Nat → Nat → α) (N : Nat)
    (b0 b1 : Nat → Nat → α) (nf : Nat) (hnf : nf ≠ 0) (verts norms : Nat → α)
    (c : Nat) (hc : c < N) (b : Nat) (hb : b < 4) :
    VecAt (evalBezierWithNorm sqrt cp N b0 b1 4 nf verts norms).norms
      (N * N * 3 * b + 3 * c) 0 (if nf = 1 then 1 else -1) 0 := by
  have hlt := row_lt_block N c hc
  have h3 : N * N * 3 = 3 * (N * N) := Nat.mul_comm _ _
  have hcN : c < N * N := by
    have h1 : N * 1 ≤ N * N := Nat.mul_le_mul_left _ (by omega)
    omega
  obtain ⟨f0, f1, f2⟩ := evalBezierWithNorm_fix_at N nf hnf
    (evalBezierWithNorm_grid sqrt cp N b0 b1 verts norms).1.2 c hc
  unfold evalBezierWithNorm
  simp only
  generalize evalBezierWithNorm_fix N nf
    (evalBezierWithNorm_grid sqrt cp N b0 b1 verts norms).1.2 = fixed at f0 f1 f2 ⊢
  have hrot := rotOrReflect_four fixed (N * N) N c hcN
  have hb0 := rotOrReflect_four_base fixed (N * N) N (3 * c + 0) (by omega)
  have hb1 := rotOrReflect_four_base fixed (N * N) N (3 * c + 1) (by omega)
  have hb2 := rotOrReflect_four_base fixed (N * N) N (3 * c + 2) (by omega)
  rw [← h3] at hrot hb0 hb1 hb2
  unfold RotatedCopies at hrot
  obtain ⟨⟨r10, r11, r12⟩, ⟨r20, r21, r22⟩, ⟨r30, r31, r32⟩⟩ := hrot
  rw [f2] at r10 r22 r30 hb2
  rw [f1] at r11 r21 r31 hb1
  rw [f0] at r12 r20 r32 hb0
  rw [neg_zero] at r12 r20 r22 r30
  unfold VecAt
  interval_cases b
  · simp only [Nat.mul_zero, Nat.zero_add]
    exact ⟨hb0, hb1, hb2⟩
  · simp only [Nat.mul_one]
    exact ⟨r10, r11, r12⟩
  · exact ⟨r20, r21, r22⟩
  · exact ⟨r30, r31, r32⟩

/-- Computed normal of cell `(u, v)` in the base block of the buffer returned by
`evalBezierWithNorm`, for a row the normal fix does not overwrite. -/
theorem evalBezierWithNorm_norms_base (sqrt : α → α) (cp : Nat → Nat → Nat → α) (N : Nat)
    (b0 b1 : Nat → Nat → α) (flag nf : Nat) (verts norms : Nat → α) (u v k : Nat)
    (hu : u < N) (hv : v < N) (hk : k < 3) (hfix : nf = 0 ∨ 0 < u) :
    (evalBezierWithNorm sqrt cp N b0 b1 flag nf verts norms).norms (3 * (u * N + v) + k)
      = normalize sqrt (cross (tangentV cp b0 b1 u v) (tangentU cp b0 b1 u v)) k := by
  have hlt : 3 * (u * N + v) + k < N * N * 3 := by
    have h1 : (u + 1) * N ≤ N * N := Nat.mul_le_mul_right N (by omega)
    rw [Nat.add_mul, Nat.one_mul] at h1
    omega
  have h := evalBezierWithNorm_grid_norms_at sqrt cp N b0 b1 verts norms u v k hu hv hk
  unfold evalBezierWithNorm
  simp only
  rw [rotOrReflect_base flag N _ _ hlt]
  rcases hfix with h0 | hpos
  · subst h0
    unfold evalBezierWithNorm_fix
    simp only [ne_eq, not_true_eq_false, if_false]
    exact h
  · have hge : N * 3 ≤ 3 * (u * N + v) + k := by
      have h1 : 1 * N ≤ u * N := Nat.mul_le_mul_right N hpos
      omega
    rw [evalBezierWithNorm_fix_frame N nf _ _ hge]
    exact h

theorem fghTeapot_offset_mono (N p n : Nat) (h : p ≤ n) :
    fghTeapot_offset N p ≤ fghTeapot_offset N n := by
  induction n with
  | zero =>
    have h0 : p = 0 := by omega
    subst h0
    exact Nat.le_refl _
  | succ n ih =>
    rw [fghTeapot_offset_succ]
    by_cases hpn : p = n + 1
    · subst hpn
      rw [fghTeapot_offset_succ]
    · have := ih (by omega)
      omega

/-- Normals of the block of patch `p` after a first build: they are the normals
returned by `evalBezierWithNorm` for that patch (on the buffers as that patch
found them). -/
theorem fghTeapot_patch_loop_norms_at (d : TeapotData α) (sqrt : α → α) (scale : α)
    (N : Nat) (b0 b1 : Nat → Nat → α) (verts norms : Nat → α) (n p j : Nat) (hp : p < n)
    (hj : j < N * N * 3 * (if p < 6 then 4 else 2)) :
    ∃ vin nin : Nat → α,
      (forLoop n (fghTeapot_patch d sqrt scale N b0 b1 false) ((verts, norms), 0)).1.2
          (fghTeapot_offset N p + j)
        = (evalBezierWithNorm sqrt (fghTeapot_cp d scale p (fun _ _ _ => 0)) N b0 b1
            (if p < 6 then 4 else 2) (if p = 3 then 1 else if p = 5 then 2 else 0)
            vin nin).norms j := by
  induction n with
  | zero => omega
  | succ n ih =>
    have ho := fghTeapot_patch_loop_snd d sqrt scale N b0 b1 false n ((verts, norms), 0) rfl
    rw [forLoop_succ]
    generalize forLoop n (fghTeapot_patch d sqrt scale N b0 b1 false) ((verts, norms), 0)
      = st at ih ho ⊢
    rw [(fghTeapot_patch_fst d sqrt scale N b0 b1 false n st).2, ho]
    simp only [if_true]
    unfold ptrStore
    by_cases hpn : p = n
    · subst hpn
      rw [if_neg (by omega)]
      refine ⟨ptrAdd st.1.1 (fghTeapot_offset N p), ptrAdd st.1.2 (fghTeapot_offset N p), ?_⟩
      rw [show fghTeapot_offset N p + j - fghTeapot_offset N p = j by omega]
    · have hlt : p < n := by omega
      have hmono := fghTeapot_offset_mono N (p + 1) n (by omega)
      rw [fghTeapot_offset_succ] at hmono
      rw [if_pos (by omega)]
      exact ih hlt

/-- Normal buffer after the regeneration of a style that is not initialised. -/
theorem fghTeapot_regen_first_norms (d : TeapotData α) (sqrt : α → α) (s : α) (w : Bool)
    (st : TeapotState α) (h0 : st.inited w = false) :
    (fghTeapot_regen d sqrt s w st).norms w
      = (fghTeapot_patches d sqrt s (nSubDivsOf w)
          (pregenBernstein (nSubDivsOf w) (st.bern_0 w) (st.bern_1 w)).1
          (pregenBernstein (nSubDivsOf w) (st.bern_0 w) (st.bern_1 w)).2 false
          (memsetZero (st.verts w) (nVertsOf w * 3)) (st.norms w)).1.2 := by
  cases w <;>
    simp [fghTeapot_regen, TeapotState.verts, TeapotState.bern_0, TeapotState.bern_1,
      TeapotState.inited, TeapotState.norms, h0] <;>
    simp_all [TeapotState.inited]

/-! ## Claim C13 -/

section Polar

variable [DecidableEq α]

/-- Normal buffer left by the first call of a style. -/
theorem fghTeapot_first_norms (d : TeapotData α) (sqrt : α → α) (s : α) (w : Bool)
    (st : TeapotState α) (h0 : st.inited w = false) :
    (fghTeapot d sqrt s w st).1.norms w
      = (forLoop d.nInputPatches (fghTeapot_patch d sqrt s (nSubDivsOf w)
          (pregenBernstein (nSubDivsOf w) (st.bern_0 w) (st.bern_1 w)).1
          (pregenBernstein (nSubDivsOf w) (st.bern_0 w) (st.bern_1 w)).2 false)
          ((memsetZero (st.verts w) (nVertsOf w * 3), st.norms w), 0)).1.2 := by
  rw [fghTeapot_miss d sqrt s w st (Or.inl h0), fghTeapot_regen_first_norms d sqrt s w st h0]
  rfl

/-- C13: after the first build of either style, for the top-lid patch (input
patch `3`) every normal of the first grid row (`u = 0`, all `N` columns `c`) of
each of its four copies `b` is `(0, 1, 0)`, and for the bottom-centre patch
(input patch `5`) it is `(0, -1, 0)`, whatever the control points, the scale and
`sqrt`; for every other patch `p` the normals of the base block are the
computed ones, `normalize (tangent_v x tangent_u)`: they are not overwritten. -/
theorem fghTeapot_polar_normals (d : TeapotData α) (hd : 5 < d.nInputPatches)
    (sqrt : α → α) (s : α) (w : Bool) (st : TeapotState α) (h0 : st.inited w = false)
    (b c : Nat) (hb : b < 4) (hc : c < nSubDivsOf w)
    (p u v e : Nat) (hp : p < d.nInputPatches) (hp3 : p ≠ 3) (hp5 : p ≠ 5)
    (hu : u < nSubDivsOf w) (hv : v < nSubDivsOf w) (he : e < 3) :
    VecAt ((fghTeapot d sqrt s w st).1.norms w)
      (fghTeapot_offset (nSubDivsOf w) 3
        + (nSubDivsOf w * nSubDivsOf w * 3 * b + 3 * c)) 0 1 0 ∧
    VecAt ((fghTeapot d sqrt s w st).1.norms w)
      (fghTeapot_offset (nSubDivsOf w) 5
        + (nSubDivsOf w * nSubDivsOf w * 3 * b + 3 * c)) 0 (-1) 0 ∧
    (fghTeapot d sqrt s w st).1.norms w
        (fghTeapot_offset (nSubDivsOf w) p + (3 * (u * nSubDivsOf w + v) + e))
      = normalize sqrt
          (cross
            (tangentV (fghTeapot_cp d s p (fun _ _ _ => 0))
              (pregenBernstein (nSubDivsOf w) (st.bern_0 w) (st.bern_1 w)).1
              (pregenBernstein (nSubDivsOf w) (st.bern_0 w) (st.bern_1 w)).2 u v)
            (tangentU (fghTeapot_cp d s p (fun _ _ _ => 0))
              (pregenBernstein (nSubDivsOf w) (st.bern_0 w) (st.bern_1 w)).1
              (pregenBernstein (nSubDivsOf w) (st.bern_0 w) (st.bern_1 w)).2 u v)) e := by
  rw [fghTeapot_first_norms d sqrt s w st h0]
  generalize nSubDivsOf w = N at hc hu hv ⊢
  generalize (pregenBernstein N (st.bern_0 w) (st.bern_1 w)).1 = B0
  generalize (pregenBernstein N (st.bern_0 w) (st.bern_1 w)).2 = B1
  generalize memsetZero (st.verts w) (nVertsOf w * 3) = V
  generalize st.norms w = Nn
  have hrow := row_lt_block N c hc
  have hblk : N * N * 3 * b + N * N * 3 ≤ N * N * 3 * 4 := by
    have h1 : N * N * 3 * (b + 1) ≤ N * N * 3 * 4 := Nat.mul_le_mul_left _ (by omega)
    rw [Nat.mul_succ] at h1
    exact h1
  have polar : ∀ q nf : Nat, q < d.nInputPatches → q < 6 →
      (if q = 3 then 1 else if q = 5 then 2 else 0) = nf → nf ≠ 0 →
      VecAt (forLoop d.nInputPatches (fghTeapot_patch d sqrt s N B0 B1 false)
        ((V, Nn), 0)).1.2 (fghTeapot_offset N q + (N * N * 3 * b + 3 * c)) 0
        (if nf = 1 then 1 else -1) 0 := by
    intro q nf hq hq6 hnfq hnf
    have fl : (if q < 6 then 4 else 2) = 4 := if_pos hq6
    have key : ∀ i, i < 3 → ∃ vin nin : Nat → α,
        (forLoop d.nInputPatches (fghTeapot_patch d sqrt s N B0 B1 false)
            ((V, Nn), 0)).1.2 (fghTeapot_offset N q + (N * N * 3 * b + 3 * c) + i)
          = (evalBezierWithNorm sqrt (fghTeapot_cp d s q (fun _ _ _ => 0)) N B0 B1 4 nf
              vin nin).norms (N * N * 3 * b + 3 * c + i) := by
      intro i hi
      have h := fghTeapot_patch_loop_norms_at d sqrt s N B0 B1 V Nn d.nInputPatches q
        (N * N * 3 * b + 3 * c + i) hq (by rw [fl]; omega)
      rw [fl, hnfq] at h
      rw [Nat.add_assoc]
      exact h
    obtain ⟨v0, n0, k0⟩ := key 0 (by decide)
    obtain ⟨v1, n1, k1⟩ := key 1 (by decide)
    obtain ⟨v2, n2, k2⟩ := key 2 (by decide)
    unfold VecAt
    rw [k0, k1, k2]
    exact ⟨(evalBezierWithNorm_polar_four sqrt _ N B0 B1 nf hnf v0 n0 c hc b hb).1,
      (evalBezierWithNorm_polar_four sqrt _ N B0 B1 nf hnf v1 n1 c hc b hb).2.1,
      (evalBezierWithNorm_polar_four sqrt _ N B0 B1 nf hnf v2 n2 c hc b hb).2.2⟩
  refine ⟨?_, ?_, ?_⟩
  · have h := polar 3 1 (by omega) (by decide) rfl (by decide)
    rw [if_pos rfl] at h
    exact h
  · have h := polar 5 2 (by omega) (by decide) rfl (by decide)
    rw [if_neg (by decide)] at h
    exact h
  · have hlt : 3 * (u * N + v) + e < N * N * 3 := by
      have h1 : (u + 1) * N ≤ N * N := Nat.mul_le_mul_right N (by omega)
      rw [Nat.add_mul, Nat.one_mul] at h1
      omega
    have hfl : N * N * 3 * 1 ≤ N * N * 3 * (if p < 6 then 4 else 2) :=
      Nat.mul_le_mul_left _ (flag_pos p)
    obtain ⟨vin, nin, h⟩ := fghTeapot_patch_loop_norms_at d sqrt s N B0 B1 V Nn
      d.nInputPatches p (3 * (u * N + v) + e) hp (by omega)
    rw [h, if_neg hp3, if_neg hp5]
    exact evalBezierWithNorm_norms_base sqrt _ N B0 B1 _ 0 vin nin u v e hu hv he (Or.inl rfl)

/-- C13 for the first wire call on the example data at scale `1` from the initial
state: copy `2`, column `6` of the patches `3` and `5`. -/
theorem fghTeapot_polar_normals_witness :
    (5 < (exampleData : TeapotData ℚ).nInputPatches
      ∧ (initState : TeapotState ℚ).inited true = false ∧ 2 < 4 ∧ 6 < nSubDivsOf true) ∧
    VecAt ((fghTeapot (exampleData : TeapotData ℚ) (fun x => x) 1 true initState).1.norms
        true)
      (fghTeapot_offset (nSubDivsOf true) 3
        + (nSubDivsOf true * nSubDivsOf true * 3 * 2 + 3 * 6)) 0 1 0 ∧
    VecAt ((fghTeapot (exampleData : TeapotData ℚ) (fun x => x) 1 true initState).1.norms
        true)
      (fghTeapot_offset (nSubDivsOf true) 5
        + (nSubDivsOf true * nSubDivsOf true * 3 * 2 + 3 * 6)) 0 (-1) 0 :=
  ⟨⟨by decide, rfl, by decide, by decide⟩,
    (fghTeapot_polar_normals (exampleData : TeapotData ℚ) (by decide) (fun x => x) 1 true
      initState rfl 2 6 (by decide) (by decide) 0 1 1 0 (by decide) (by decide)
      (by decide) (by decide) (by decide) (by decide)).1,
    (fghTeapot_polar_normals (exampleData : TeapotData ℚ) (by decide) (fun x => x) 1 true
      initState rfl 2 6 (by decide) (by decide) 0 1 1 0 (by decide) (by decide)
      (by decide) (by decide) (by decide) (by decide)).2.1⟩

end Polar

/-! ## Unit normals -/

/-- Mirror copy made by `rotOrReflect 2`, relative to the base block it leaves. -/
theorem rotOrReflect_two_self (vals : Nat → α) (N r c : Nat) (hr : r < N) (hc : c < N) :
    rotOrReflect 2 (N * N * 3) N vals (N * N * 3 + 3 * ((N - 1 - r) * N + c) + 0)
      = rotOrReflect 2 (N * N * 3) N vals (3 * (r * N + c) + 0) ∧
    rotOrReflect 2 (N * N * 3) N vals (N * N * 3 + 3 * ((N - 1 - r) * N + c) + 1)
      = rotOrReflect 2 (N * N * 3) N vals (3 * (r * N + c) + 1) ∧
    rotOrReflect 2 (N * N * 3) N vals (N * N * 3 + 3 * ((N - 1 - r) * N + c) + 2)
      = -rotOrReflect 2 (N * N * 3) N vals (3 * (r * N + c) + 2) := by
  have hlt : r * N + N ≤ N * N := by
    have h1 : (r + 1) * N ≤ N * N := Nat.mul_le_mul_right N (by omega)
    rw [Nat.add_mul, Nat.one_mul] at h1
    exact h1
  rw [rotOrReflect_base 2 N vals (3 * (r * N + c) + 0) (by omega),
    rotOrReflect_base 2 N vals (3 * (r * N + c) + 1) (by omega),
    rotOrReflect_base 2 N vals (3 * (r * N + c) + 2) (by omega)]
  obtain ⟨g0, g1, g2⟩ := (rotOrReflect_flipRow_loop (N * N * 3) N vals N (Nat.le_refl _)
    (Nat.le_refl _)).2.2 (N - 1 - r) c (by omega) hc
  have hrow : N - (N - 1 - r) - 1 = r := by omega
  rw [hrow] at g0 g1 g2
  have e0 : N * N * 3 + 3 * ((N - 1 - r) * N + c) + 0
      = N * N * 3 + (N - 1 - r) * N * 3 + 3 * c + 0 := by ring
  have e1 : N * N * 3 + 3 * ((N - 1 - r) * N + c) + 1
      = N * N * 3 + (N - 1 - r) * N * 3 + 3 * c + 1 := by ring
  have e2 : N * N * 3 + 3 * ((N - 1 - r) * N + c) + 2
      = N * N * 3 + (N - 1 - r) * N * 3 + 3 * c + 2 := by ring
  have s0 : 3 * (r * N + c) + 0 = r * N * 3 + 3 * c + 0 := by ring
  have s1 : 3 * (r * N + c) + 1 = r * N * 3 + 3 * c + 1 := by ring
  have s2 : 3 * (r * N + c) + 2 = r * N * 3 + 3 * c + 2 := by ring
  unfold rotOrReflect
  simp only [show (2 : Nat) ≠ 4 by decide, if_false, if_true]
  rw [e0, e1, e2, s0, s1, s2]
  exact ⟨g0, g1, g2⟩

/-- The four blocks of a buffer written by `rotOrReflect 4` hold vectors of the
same squared length. -/
theorem rotOrReflect_four_sqLen (vals : Nat → α) (N t : Nat) (ht : t < N * N) (b : Nat)
    (hb : b < 4) :
    sqLen (rotOrReflect 4 (N * N * 3) N vals) (N * N * 3 * b + 3 * t)
      = sqLen (rotOrReflect 4 (N * N * 3) N vals) (3 * t) := by
  have h3 : N * N * 3 = 3 * (N * N) := Nat.mul_comm _ _
  have h := rotOrReflect_four_self vals (N * N) N t ht
  rw [← h3] at h
  obtain ⟨⟨r10, r11, r12⟩, ⟨r20, r21, r22⟩, ⟨r30, r31, r32⟩⟩ := h
  unfold sqLen
  interval_cases b
  · simp only [Nat.mul_zero, Nat.zero_add]
  · simp only [Nat.mul_one]
    rw [r10, r11, r12]
    ring
  · rw [r20, r21, r22]
    ring
  · rw [r30, r31, r32]
    ring

/-- The mirror copy written by `rotOrReflect 2` holds vectors of the same squared
length as the base block. -/
theorem rotOrReflect_two_sqLen (vals : Nat → α) (N r c : Nat) (hr : r < N) (hc : c < N) :
    sqLen (rotOrReflect 2 (N * N * 3) N vals) (N * N * 3 + 3 * ((N - 1 - r) * N + c))
      = sqLen (rotOrReflect 2 (N * N * 3) N vals) (3 * (r * N + c)) := by
  obtain ⟨g0, g1, g2⟩ := rotOrReflect_two_self vals N r c hr hc
  unfold sqLen
  rw [g0, g1, g2]
  ring

/-- A non-zero real vector divided by its length has squared length `1`. -/
theorem normalize_sqLen (w : Nat → ℝ) (hw : ¬ (w 0 = 0 ∧ w 1 = 0 ∧ w 2 = 0)) :
    normalize Real.sqrt w 0 * normalize Real.sqrt w 0
        + normalize Real.sqrt w 1 * normalize Real.sqrt w 1
        + normalize Real.sqrt w 2 * normalize Real.sqrt w 2 = 1 := by
  have n0 : 0 ≤ w 0 * w 0 := mul_self_nonneg (w 0)
  have n1 : 0 ≤ w 1 * w 1 := mul_self_nonneg (w 1)
  have n2 : 0 ≤ w 2 * w 2 := mul_self_nonneg (w 2)
  have hq0 : 0 ≤ w 0 * w 0 + w 1 * w 1 + w 2 * w 2 := by linarith
  have hq : 0 < w 0 * w 0 + w 1 * w 1 + w 2 * w 2 := by
    rcases lt_or_eq_of_le hq0 with h | h
    · exact h
    · exfalso
      apply hw
      have h0 : w 0 * w 0 = 0 := by linarith
      have h1 : w 1 * w 1 = 0 := by linarith
      have h2 : w 2 * w 2 = 0 := by linarith
      exact ⟨mul_self_eq_zero.mp h0, mul_self_eq_zero.mp h1, mul_self_eq_zero.mp h2⟩
  have hs : Real.sqrt (w 0 * w 0 + w 1 * w 1 + w 2 * w 2) ≠ 0 :=
    (Real.sqrt_pos.mpr hq).ne'
  have hss := Real.mul_self_sqrt hq0
  unfold normalize
  generalize Real.sqrt (w 0 * w 0 + w 1 * w 1 + w 2 * w 2) = l at hs hss
  field_simp
  rw [← hss]
/-- The polar row and its mirror copy in the buffer returned by
`evalBezierWithNorm` with `flag = 2` and a normal fix. -/
theorem evalBezierWithNorm_polar_two (sqrt : α → α) (cp : Nat → Nat → Nat → α) (N : Nat)
    (b0 b1 : Nat → Nat → α) (nf : Nat) (hnf : nf ≠ 0) (verts norms : Nat → α)
    (c : Nat) (hc : c < N) :
    VecAt (evalBezierWithNorm sqrt cp N b0 b1 2 nf verts norms).norms (3 * c) 0
      (if nf = 1 then 1 else -1) 0 ∧
    VecAt (evalBezierWithNorm sqrt cp N b0 b1 2 nf verts norms).norms
      (N * N * 3 + 3 * ((N - 1) * N + c)) 0 (if nf = 1 then 1 else -1) 0 := by
  have hlt := row_lt_block N c hc
  obtain ⟨f0, f1, f2⟩ := evalBezierWithNorm_fix_at N nf hnf
    (evalBezierWithNorm_grid sqrt cp N b0 b1 verts norms).1.2 c hc
  unfold evalBezierWithNorm
  simp only
  generalize evalBezierWithNorm_fix N nf
    (evalBezierWithNorm_grid sqrt cp N b0 b1 verts norms).1.2 = fixed at f0 f1 f2 ⊢
  have hb0 := rotOrReflect_base 2 N fixed (3 * c + 0) (by omega)
  have hb1 := rotOrReflect_base 2 N fixed (3 * c + 1) (by omega)
  have hb2 := rotOrReflect_base 2 N fixed (3 * c + 2) (by omega)
  obtain ⟨g0, g1, g2⟩ := rotOrReflect_two_self fixed N 0 c (by omega) hc
  simp only [Nat.sub_zero, Nat.zero_mul, Nat.zero_add] at g0 g1 g2
  rw [hb0] at g0
  rw [hb1] at g1
  rw [hb2] at g2
  rw [f0] at hb0 g0
  rw [f1] at hb1 g1
  rw [f2] at hb2 g2
  rw [neg_zero] at g2
  exact ⟨⟨hb0, hb1, hb2⟩, ⟨g0, g1, g2⟩⟩

theorem sqLen_of_vecAt (buf : Nat → α) (o nf : Nat)
    (h : VecAt buf o 0 (if nf = 1 then 1 else -1) 0) : sqLen buf o = 1 := by
  obtain ⟨h0, h1, h2⟩ := h
  unfold sqLen
  rw [h0, h1, h2]
  split_ifs <;> ring

/-- Squared length of the computed normal in the base block, over the reals. -/
theorem evalBezierWithNorm_sqLen_base (cp : Nat → Nat → Nat → ℝ) (N : Nat)
    (b0 b1 : Nat → Nat → ℝ) (flag nf : Nat) (verts norms : Nat → ℝ) (u v : Nat)
    (hu : u < N) (hv : v < N) (hfix : nf = 0 ∨ 0 < u)
    (hcross : ¬ (cross (tangentV cp b0 b1 u v) (tangentU cp b0 b1 u v) 0 = 0
      ∧ cross (tangentV cp b0 b1 u v) (tangentU cp b0 b1 u v) 1 = 0
      ∧ cross (tangentV cp b0 b1 u v) (tangentU cp b0 b1 u v) 2 = 0)) :
    sqLen (evalBezierWithNorm Real.sqrt cp N b0 b1 flag nf verts norms).norms
      (3 * (u * N + v)) = 1 := by
  unfold sqLen
  rw [evalBezierWithNorm_norms_base Real.sqrt cp N b0 b1 flag nf verts norms u v 0 hu hv
      (by decide) hfix,
    evalBezierWithNorm_norms_base Real.sqrt cp N b0 b1 flag nf verts norms u v 1 hu hv
      (by decide) hfix,
    evalBezierWithNorm_norms_base Real.sqrt cp N b0 b1 flag nf verts norms u v 2 hu hv
      (by decide) hfix]
  exact normalize_sqLen _ hcross

/-! ## Claim C14 -/

/-- C14: over the reals with the real square root, every normal that
`evalBezierWithNorm` leaves for a vertex `(u, v)` whose two tangents have a
non-zero cross product (and whose row the normal fix does not overwrite) has
Euclidean length `1`, in the base block and in every copy: the four blocks for
`flag = 4`, the base block and the mirrored block (row `N-1-u`) for `flag = 2`.
Every normal written by the normal fix (`normalFix ≠ 0`, row `0`, column `c`) is
`(0, 1, 0)` or `(0, -1, 0)`, of length `1`, in the base block and in every
copy. -/
theorem evalBezierWithNorm_unit_normals (cp : Nat → Nat → Nat → ℝ) (N : Nat)
    (b0 b1 : Nat → Nat → ℝ) (verts norms : Nat → ℝ) (nf u v : Nat)
    (hu : u < N) (hv : v < N) (hfix : nf = 0 ∨ 0 < u)
    (hcross : ¬ (cross (tangentV cp b0 b1 u v) (tangentU cp b0 b1 u v) 0 = 0
      ∧ cross (tangentV cp b0 b1 u v) (tangentU cp b0 b1 u v) 1 = 0
      ∧ cross (tangentV cp b0 b1 u v) (tangentU cp b0 b1 u v) 2 = 0))
    (nf' c : Nat) (hnf' : nf' ≠ 0) (hc : c < N) :
    (∀ b, b < 4 →
      Real.sqrt (sqLen (evalBezierWithNorm Real.sqrt cp N b0 b1 4 nf verts norms).norms
        (N * N * 3 * b + 3 * (u * N + v))) = 1) ∧
    (Real.sqrt (sqLen (evalBezierWithNorm Real.sqrt cp N b0 b1 2 nf verts norms).norms
        (3 * (u * N + v))) = 1 ∧
      Real.sqrt (sqLen (evalBezierWithNorm Real.sqrt cp N b0 b1 2 nf verts norms).norms
        (N * N * 3 + 3 * ((N - 1 - u) * N + v))) = 1) ∧
    (∀ b, b < 4 →
      VecAt (evalBezierWithNorm Real.sqrt cp N b0 b1 4 nf' verts norms).norms
        (N * N * 3 * b + 3 * c) 0 (if nf' = 1 then 1 else -1) 0 ∧
      Real.sqrt (sqLen (evalBezierWithNorm Real.sqrt cp N b0 b1 4 nf' verts norms).norms
        (N * N * 3 * b + 3 * c)) = 1) ∧
    ((VecAt (evalBezierWithNorm Real.sqrt cp N b0 b1 2 nf' verts norms).norms (3 * c) 0
        (if nf' = 1 then 1 else -1) 0 ∧
      Real.sqrt (sqLen (evalBezierWithNorm Real.sqrt cp N b0 b1 2 nf' verts norms).norms
        (3 * c)) = 1) ∧
     (VecAt (evalBezierWithNorm Real.sqrt cp N b0 b1 2 nf' verts norms).norms
        (N * N * 3 + 3 * ((N - 1) * N + c)) 0 (if nf' = 1 then 1 else -1) 0 ∧
      Real.sqrt (sqLen (evalBezierWithNorm Real.sqrt cp N b0 b1 2 nf' verts norms).norms
        (N * N * 3 + 3 * ((N - 1) * N + c))) = 1)) := by
  have ht : u * N + v < N * N := by
    have h1 : (u + 1) * N ≤ N * N := Nat.mul_le_mul_right N (by omega)
    rw [Nat.add_mul, Nat.one_mul] at h1
    omega
  have base4 := evalBezierWithNorm_sqLen_base cp N b0 b1 4 nf verts norms u v hu hv hfix
    hcross
  have base2 := evalBezierWithNorm_sqLen_base cp N b0 b1 2 nf verts norms u v hu hv hfix
    hcross
  refine ⟨?_, ⟨?_, ?_⟩, ?_, ⟨?_, ?_⟩, ?_, ?_⟩
  · intro b hb
    have h : sqLen (evalBezierWithNorm Real.sqrt cp N b0 b1 4 nf verts norms).norms
        (N * N * 3 * b + 3 * (u * N + v))
        = sqLen (evalBezierWithNorm Real.sqrt cp N b0 b1 4 nf verts norms).norms
          (3 * (u * N + v)) := by
      unfold evalBezierWithNorm
      exact rotOrReflect_four_sqLen _ N (u * N + v) ht b hb
    rw [h, base4, Real.sqrt_one]
  · rw [base2, Real.sqrt_one]
  · have h : sqLen (evalBezierWithNorm Real.sqrt cp N b0 b1 2 nf verts norms).norms
        (N * N * 3 + 3 * ((N - 1 - u) * N + v))
        = sqLen (evalBezierWithNorm Real.sqrt cp N b0 b1 2 nf verts norms).norms
          (3 * (u * N + v)) := by
      unfold evalBezierWithNorm
      exact rotOrReflect_two_sqLen _ N u v hu hv
    rw [h, base2, Real.sqrt_one]
  · intro b hb
    have h := evalBezierWithNorm_polar_four Real.sqrt cp N b0 b1 nf' hnf' verts norms c hc
      b hb
    exact ⟨h, by rw [sqLen_of_vecAt _ _ nf' h, Real.sqrt_one]⟩
  · exact (evalBezierWithNorm_polar_two Real.sqrt cp N b0 b1 nf' hnf' verts norms c hc).1
  · rw [sqLen_of_vecAt _ _ nf'
      (evalBezierWithNorm_polar_two Real.sqrt cp N b0 b1 nf' hnf' verts norms c hc).1,
      Real.sqrt_one]
  · exact (evalBezierWithNorm_polar_two Real.sqrt cp N b0 b1 nf' hnf' verts norms c hc).2
  · rw [sqLen_of_vecAt _ _ nf'
      (evalBezierWithNorm_polar_two Real.sqrt cp N b0 b1 nf' hnf' verts norms c hc).2,
      Real.sqrt_one]
/-- The cross product of the two tangents of the flat patch at cell `(0, 0)` for
`N = 2` is not the zero vector: its third component is `-1`. -/
theorem flatPatch_cross_ne :
    ¬ (cross (tangentV (flatPatch : Nat → Nat → Nat → ℝ) (pregenBernstein 2 zeroTab zeroTab).1
          (pregenBernstein 2 zeroTab zeroTab).2 0 0)
        (tangentU flatPatch (pregenBernstein 2 zeroTab zeroTab).1
          (pregenBernstein 2 zeroTab zeroTab).2 0 0) 0 = 0
      ∧ cross (tangentV (flatPatch : Nat → Nat → Nat → ℝ) (pregenBernstein 2 zeroTab zeroTab).1
          (pregenBernstein 2 zeroTab zeroTab).2 0 0)
        (tangentU flatPatch (pregenBernstein 2 zeroTab zeroTab).1
          (pregenBernstein 2 zeroTab zeroTab).2 0 0) 1 = 0
      ∧ cross (tangentV (flatPatch : Nat → Nat → Nat → ℝ) (pregenBernstein 2 zeroTab zeroTab).1
          (pregenBernstein 2 zeroTab zeroTab).2 0 0)
        (tangentU flatPatch (pregenBernstein 2 zeroTab zeroTab).1
          (pregenBernstein 2 zeroTab zeroTab).2 0 0) 2 = 0) := by
  rintro ⟨-, -, h⟩
  unfold cross at h
  rw [if_neg (by decide), if_neg (by decide),
    (flatPatch_tangents 0 (by decide)).1, (flatPatch_tangents 0 (by decide)).2,
    (flatPatch_tangents 1 (by decide)).1, (flatPatch_tangents 1 (by decide)).2] at h
  norm_num at h

/-- C14 at the flat patch with `N = 2` over the reals: the tangents at cell
`(0, 0)` have a non-zero cross product, the normal of that cell in copy `1` of the
four-fold output has length `1`, and with `normalFix = 1` the polar normal of
column `0` in copy `3` is `(0, 1, 0)`. -/
theorem evalBezierWithNorm_unit_normals_witness :
    ((0 : Nat) < 2 ∧ ((0 : Nat) = 0 ∨ 0 < 0) ∧ (1 : Nat) ≠ 0) ∧
    Real.sqrt (sqLen (evalBezierWithNorm Real.sqrt (flatPatch : Nat → Nat → Nat → ℝ) 2
        (pregenBernstein 2 zeroTab zeroTab).1 (pregenBernstein 2 zeroTab zeroTab).2 4 0
        zeroBuf zeroBuf).norms (2 * 2 * 3 * 1 + 3 * (0 * 2 + 0))) = 1 ∧
    VecAt (evalBezierWithNorm Real.sqrt (flatPatch : Nat → Nat → Nat → ℝ) 2
        (pregenBernstein 2 zeroTab zeroTab).1 (pregenBernstein 2 zeroTab zeroTab).2 4 1
        zeroBuf zeroBuf).norms (2 * 2 * 3 * 3 + 3 * 0) 0 (if 1 = 1 then 1 else -1) 0 :=
  ⟨⟨by decide, Or.inl rfl, by decide⟩,
    (evalBezierWithNorm_unit_normals flatPatch 2 _ _ zeroBuf zeroBuf 0 0 0 (by decide)
      (by decide) (Or.inl rfl) flatPatch_cross_ne 1 0 (by decide) (by decide)).1 1
      (by decide),
    ((evalBezierWithNorm_unit_normals flatPatch 2 _ _ zeroBuf zeroBuf 0 0 0 (by decide)
      (by decide) (Or.inl rfl) flatPatch_cross_ne 1 0 (by decide) (by decide)).2.2.1 3
      (by decide)).1⟩

/-! ## Positions are linear in the scale -/

theorem ScaledBelow.update_scaled {M : Nat} {s : α} {f g : Nat → α} (h : ScaledBelow M s f g)
    (i : Nat) {x y : α} (hxy : x = s * y) :
    ScaledBelow M s (Function.update f i x) (Function.update g i y) := by
  intro k hk
  simp only [Function.update_apply]
  by_cases hki : k = i
  · rw [if_pos hki, if_pos hki, hxy]
  · rw [if_neg hki, if_neg hki, h k hk]

theorem evalBezier_row_scaled (s : α) (cpA cpB : Nat → Nat → Nat → α)
    (hcp : ∀ i j c, i < 4 → j < 4 → c < 3 → cpA i j c = s * cpB i j c)
    (b : Nat → Nat → α) (v i c : Nat) (hi : i < 4) (hc : c < 3) :
    evalBezier_row cpA b v i c = s * evalBezier_row cpB b v i c := by
  rw [evalBezier_row_apply cpA b v i c hc, evalBezier_row_apply cpB b v i c hc]
  simp only [Finset.sum_range_succ, Finset.sum_range_zero,
    hcp i 0 c hi (by decide) hc, hcp i 1 c hi (by decide) hc, hcp i 2 c hi (by decide) hc,
    hcp i 3 c hi (by decide) hc]
  ring

theorem evalBezier_acc_scaled (s : α) (cpA cpB : Nat → Nat → Nat → α)
    (hcp : ∀ i j c, i < 4 → j < 4 → c < 3 → cpA i j c = s * cpB i j c)
    (b : Nat → Nat → α) (u v o i M : Nat) (hi : i < 4) (f g : Nat → α)
    (h : ScaledBelow M s f g) :
    ScaledBelow M s (evalBezier_acc cpA b u v o i f) (evalBezier_acc cpB b u v o i g) := by
  intro k hk
  rw [evalBezier_acc_apply, evalBezier_acc_apply]
  by_cases h2 : k = o + 2
  · rw [if_pos h2, if_pos h2, ← h2, h k hk,
      evalBezier_row_scaled s cpA cpB hcp b v i 2 hi (by decide)]
    ring
  · rw [if_neg h2, if_neg h2]
    by_cases h1 : k = o + 1
    · rw [if_pos h1, if_pos h1, ← h1, h k hk,
        evalBezier_row_scaled s cpA cpB hcp b v i 1 hi (by decide)]
      ring
    · rw [if_neg h1, if_neg h1]
      by_cases h0 : k = o + 0
      · rw [if_pos h0, if_pos h0, ← h0, h k hk,
          evalBezier_row_scaled s cpA cpB hcp b v i 0 hi (by decide)]
        ring
      · rw [if_neg h0, if_neg h0, h k hk]

theorem evalBezier_grid_scaled (s : α) (cpA cpB : Nat → Nat → Nat → α)
    (hcp : ∀ i j c, i < 4 → j < 4 → c < 3 → cpA i j c = s * cpB i j c)
    (N : Nat) (b : Nat → Nat → α) (M : Nat) (f g : Nat → α) (h : ScaledBelow M s f g) :
    ScaledBelow M s (evalBezier_grid cpA N b f).1 (evalBezier_grid cpB N b g).1 := by
  unfold evalBezier_grid
  have key := forLoop_rel
    (fun (x y : (Nat → α) × Nat) => x.2 = y.2 ∧ ScaledBelow M s x.1 y.1) N
    (fun u st => forLoop N (fun v (st : (Nat → α) × Nat) =>
      (evalBezier_cell cpA b u v st.2 st.1, st.2 + 3)) st)
    (fun u st => forLoop N (fun v (st : (Nat → α) × Nat) =>
      (evalBezier_cell cpB b u v st.2 st.1, st.2 + 3)) st)
    (fun u _ x y hxy => forLoop_rel
      (fun (x y : (Nat → α) × Nat) => x.2 = y.2 ∧ ScaledBelow M s x.1 y.1) N _ _
      (fun v _ x y hxy => by
        obtain ⟨ho, ha⟩ := hxy
        refine ⟨by simp only [ho], ?_⟩
        show ScaledBelow M s (evalBezier_cell cpA b u v x.2 x.1)
          (evalBezier_cell cpB b u v y.2 y.1)
        rw [ho]
        unfold evalBezier_cell
        exact forLoop_rel (fun (f g : Nat → α) => ScaledBelow M s f g) 4 _ _
          (fun i hi f g hfg => evalBezier_acc_scaled s cpA cpB hcp b u v y.2 i M hi f g hfg)
          _ _ ha)
      x y hxy)
    (f, 0) (g, 0) ⟨rfl, h⟩
  exact key.2

theorem rotOrReflect_rot_scaled (s : α) (i1 i2 i3 o M : Nat) (ho : o + 3 ≤ M)
    (f g : Nat → α) (h : ScaledBelow M s f g) :
    ScaledBelow M s (rotOrReflect_rot i1 i2 i3 o f) (rotOrReflect_rot i1 i2 i3 o g) := by
  unfold rotOrReflect_rot
  have neg : ∀ {x y : α}, x = s * y → -x = s * -y := by
    intro x y hxy
    rw [hxy]
    ring
  have a1 := h.update_scaled (i1 + o + 0) (h (o + 2) (by omega))
  have a2 := a1.update_scaled (i1 + o + 1) (a1 (o + 1) (by omega))
  have a3 := a2.update_scaled (i1 + o + 2) (neg (a2 (o + 0) (by omega)))
  have a4 := a3.update_scaled (i2 + o + 0) (neg (a3 (o + 0) (by omega)))
  have a5 := a4.update_scaled (i2 + o + 1) (a4 (o + 1) (by omega))
  have a6 := a5.update_scaled (i2 + o + 2) (neg (a5 (o + 2) (by omega)))
  have a7 := a6.update_scaled (i3 + o + 0) (neg (a6 (o + 2) (by omega)))
  have a8 := a7.update_scaled (i3 + o + 1) (a7 (o + 1) (by omega))
  have a9 := a8.update_scaled (i3 + o + 2) (a8 (o + 0) (by omega))
  exact a9

theorem rotOrReflect_flip_scaled (c : α) (off i M : Nat) (ho : off + i + 3 ≤ M)
    (s t : (Nat → α) × Nat) (h : s.2 = t.2 ∧ ScaledBelow M c s.1 t.1) :
    (rotOrReflect_flip off i s).2 = (rotOrReflect_flip off i t).2 ∧
    ScaledBelow M c (rotOrReflect_flip off i s).1 (rotOrReflect_flip off i t).1 := by
  obtain ⟨f, o⟩ := s
  obtain ⟨g, o'⟩ := t
  obtain ⟨ho', ha⟩ := h
  simp only at ho' ha
  subst ho'
  unfold rotOrReflect_flip
  refine ⟨rfl, ?_⟩
  simp only
  have neg : ∀ {x y : α}, x = c * y → -x = c * -y := by
    intro x y hxy
    rw [hxy]
    ring
  have a1 := ha.update_scaled (o + 0) (ha (off + i + 0) (by omega))
  have a2 := a1.update_scaled (o + 1) (a1 (off + i + 1) (by omega))
  have a3 := a2.update_scaled (o + 2) (neg (a2 (off + i + 2) (by omega)))
  exact a3

theorem rotOrReflect_scaled (c : α) (flag N M : Nat) (hM : N * N * 3 ≤ M) (f g : Nat → α)
    (h : ScaledBelow M c f g) :
    ScaledBelow M c (rotOrReflect flag (N * N * 3) N f)
      (rotOrReflect flag (N * N * 3) N g) := by
  unfold rotOrReflect
  split_ifs with h4 h2
  · simp only [forStride_three]
    exact forLoop_rel (fun (f g : Nat → α) => ScaledBelow M c f g) (N * N) _ _
      (fun t ht f g hfg => rotOrReflect_rot_scaled c _ _ _ (3 * t) M (by omega) f g hfg)
      f g h
  · exact forLoop_rel (fun (f g : Nat → α) => ScaledBelow M c f g) N _ _
      (fun u hu f g hfg => by
        unfold rotOrReflect_flipRow
        simp only [forStride_three]
        have hm : (N - u - 1) * N + N ≤ N * N := by
          have h1 : (N - u - 1 + 1) * N ≤ N * N := Nat.mul_le_mul_right N (by omega)
          rw [Nat.add_mul, Nat.one_mul] at h1
          exact h1
        exact (forLoop_rel
          (fun (s t : (Nat → α) × Nat) => s.2 = t.2 ∧ ScaledBelow M c s.1 t.1) N _ _
          (fun t ht s s' hss =>
            rotOrReflect_flip_scaled c ((N - u - 1) * N * 3) (3 * t) M (by omega) s s' hss)
          (f, N * N * 3 + u * N * 3) (g, N * N * 3 + u * N * 3) ⟨rfl, hfg⟩).2)
      f g h
  · exact h

/-- Scaling the 16 control points by `s` scales the positions written by
`evalBezier` by `s`, below any bound `M` that covers the base block, when the
buffer on entry is scaled by `s` there. -/
theorem evalBezier_scaled (c : α) (cpA cpB : Nat → Nat → Nat → α)
    (hcp : ∀ i j e, i < 4 → j < 4 → e < 3 → cpA i j e = c * cpB i j e)
    (N : Nat) (b : Nat → Nat → α) (flag M : Nat) (hM : N * N * 3 ≤ M) (f g : Nat → α)
    (h : ScaledBelow M c f g) :
    ScaledBelow M c (evalBezier cpA N b flag f).1 (evalBezier cpB N b flag g).1 := by
  unfold evalBezier
  exact rotOrReflect_scaled c flag N M hM _ _ (evalBezier_grid_scaled c cpA cpB hcp N b M f g h)

/-- The control points collected at scale `c * t` are `c` times those collected
at scale `t`. -/
theorem fghTeapot_cp_scaled (d : TeapotData α) (c t : α) (p : Nat)
    (cp cp' : Nat → Nat → Nat → α) (i j e : Nat) (hi : i < 4) (hj : j < 4) (he : e < 3) :
    fghTeapot_cp d (c * t) p cp i j e = c * fghTeapot_cp d t p cp' i j e := by
  obtain ⟨a0, a1, a2⟩ := fghTeapot_cp_apply d (c * t) p cp i j hi hj
  obtain ⟨b0, b1, b2⟩ := fghTeapot_cp_apply d t p cp' i j hi hj
  interval_cases e
  · rw [a0, b0]; ring
  · rw [a1, b1]; ring
  · rw [a2, b2]; ring

/-- One patch at scale `c * t` against the same patch at scale `t`, through
either evaluator: the counters stay equal and the positions stay in the ratio
`c` below the length of `P` patch copies. -/
theorem fghTeapot_patch_scaled (d : TeapotData α) (sqrt : α → α) (c t : α) (N : Nat)
    (b0 b1 : Nat → Nat → α) (fA fB : Bool) (P p : Nat)
    (sA sB : ((Nat → α) × (Nat → α)) × Nat)
    (h : sA.2 = sB.2 ∧ (∃ q, sB.2 = N * N * 3 * q)
      ∧ ScaledBelow (N * N * 3 * P) c sA.1.1 sB.1.1) :
    (fghTeapot_patch d sqrt (c * t) N b0 b1 fA p sA).2
        = (fghTeapot_patch d sqrt t N b0 b1 fB p sB).2 ∧
    (∃ q, (fghTeapot_patch d sqrt t N b0 b1 fB p sB).2 = N * N * 3 * q) ∧
    ScaledBelow (N * N * 3 * P) c (fghTeapot_patch d sqrt (c * t) N b0 b1 fA p sA).1.1
      (fghTeapot_patch d sqrt t N b0 b1 fB p sB).1.1 := by
  obtain ⟨ho, ⟨q, hq⟩, ha⟩ := h
  rw [fghTeapot_patch_snd, fghTeapot_patch_snd, (fghTeapot_patch_fst _ _ _ _ _ _ _ _ _).1,
    (fghTeapot_patch_fst _ _ _ _ _ _ _ _ _).1]
  refine ⟨by rw [ho], ⟨q + (if p < 6 then 4 else 2), by rw [hq, Nat.mul_add]⟩, ?_⟩
  rw [ho]
  generalize sB.2 = o at hq ho ⊢
  intro k hk
  unfold ptrStore
  by_cases hko : k < o
  · rw [if_pos hko, if_pos hko]
    exact ha k hk
  · rw [if_neg hko, if_neg hko]
    have hcP : q < P := by
      by_contra hge
      have h1 : N * N * 3 * P ≤ N * N * 3 * q := Nat.mul_le_mul_left _ (by omega)
      omega
    have hfit : o + N * N * 3 ≤ N * N * 3 * P := by
      have h1 : N * N * 3 * (q + 1) ≤ N * N * 3 * P := Nat.mul_le_mul_left _ (by omega)
      rw [Nat.mul_succ] at h1
      omega
    have hview : ScaledBelow (N * N * 3 * P - o) c (ptrAdd sA.1.1 o) (ptrAdd sB.1.1 o) := by
      intro j hj
      unfold ptrAdd
      exact ha (o + j) (by omega)
    exact evalBezier_scaled c _ _
      (fun i j e hi hj he => fghTeapot_cp_scaled d c t p _ _ i j e hi hj he)
      N b0 _ (N * N * 3 * P - o) (by omega) _ _ hview (k - o) (by omega)

/-- Patch loop at scale `c * t` against the patch loop at scale `t`, each through
either evaluator: the positions are in the ratio `c` below the length of `P`
patch copies, when the two buffers are so on entry. -/
theorem fghTeapot_patches_scaled (d : TeapotData α) (sqrt : α → α) (c t : α) (N : Nat)
    (b0 b1 : Nat → Nat → α) (fA fB : Bool) (P : Nat) (vA nA vB nB : Nat → α)
    (h : ScaledBelow (N * N * 3 * P) c vA vB) :
    ScaledBelow (N * N * 3 * P) c
      (fghTeapot_patches d sqrt (c * t) N b0 b1 fA vA nA).1.1
      (fghTeapot_patches d sqrt t N b0 b1 fB vB nB).1.1 := by
  unfold fghTeapot_patches
  exact (forLoop_rel
    (fun (sA sB : ((Nat → α) × (Nat → α)) × Nat) =>
      sA.2 = sB.2 ∧ (∃ q, sB.2 = N * N * 3 * q)
        ∧ ScaledBelow (N * N * 3 * P) c sA.1.1 sB.1.1)
    d.nInputPatches _ _
    (fun p _ sA sB hAB => fghTeapot_patch_scaled d sqrt c t N b0 b1 fA fB P p sA sB hAB)
    ((vA, nA), 0) ((vB, nB), 0) ⟨rfl, ⟨0, rfl⟩, h⟩).2.2

theorem memsetZero_scaled (c : α) (f g : Nat → α) (n : Nat) :
    ScaledBelow n c (memsetZero f n) (memsetZero g n) := by
  intro k hk
  unfold memsetZero
  rw [if_pos hk, if_pos hk, mul_zero]
/-! ## Claim C15 -/

section Scaling

variable [DecidableEq α]

/-- C15: for either style `w` (the wire style, `N = 7`, is `w = true`), every
scale `s` and every state in which the style is not yet initialised, every entry
(index below the declared length `nVerts*3`) of the position buffer that
`fghTeapot` builds at scale `s` is `s` times the entry of the buffer it builds at
scale `1` from the same state, and also `s` times the entry of the buffer left by
a call at scale `1` made right after the call at scale `s` (a rebuild through
`evalBezier`, or the unchanged buffer when `s = 1`).  With `s = 2`: the buffer
built at scale `2` is twice, entry by entry, the buffer built afterwards at
scale `1`. -/
theorem fghTeapot_positions_scale (d : TeapotData α) (sqrt : α → α) (s : α) (w : Bool)
    (st : TeapotState α) (h0 : st.inited w = false) (k : Nat) (hk : k < nVertsOf w * 3) :
    (fghTeapot d sqrt s w st).1.verts w k = s * (fghTeapot d sqrt 1 w st).1.verts w k ∧
    (fghTeapot d sqrt s w st).1.verts w k
      = s * (fghTeapot d sqrt 1 w (fghTeapot d sqrt s w st).1).1.verts w k := by
  have e1 := fghTeapot_miss d sqrt s w st (Or.inl h0)
  have e0 := fghTeapot_miss d sqrt 1 w st (Or.inl h0)
  obtain ⟨v0, -, -, -, -⟩ := fghTeapot_regen_first d sqrt 1 w st h0
  obtain ⟨v1, b10, b11, i1, l1⟩ := fghTeapot_regen_first d sqrt s w st h0
  rw [← e1] at v1 b10 b11 i1 l1
  rw [e0, v0]
  generalize (fghTeapot d sqrt s w st).1 = st1 at v1 b10 b11 i1 l1 ⊢
  rw [nVertsOf_eq] at hk
  refine ⟨?_, ?_⟩
  · rw [v1]
    have h := fghTeapot_patches_scaled d sqrt s 1 (nSubDivsOf w)
      (pregenBernstein (nSubDivsOf w) (st.bern_0 w) (st.bern_1 w)).1
      (pregenBernstein (nSubDivsOf w) (st.bern_0 w) (st.bern_1 w)).2 false false
      GLUT_TEAPOT_N_PATCHES _ (st.norms w) _ (st.norms w)
      (memsetZero_scaled s (st.verts w) (st.verts w) _) k hk
    rw [mul_one, ← nVertsOf_eq] at h
    exact h
  · by_cases hs : s = 1
    · rw [fghTeapot_hit d sqrt 1 w st1 i1 (by rw [l1, hs]), hs, one_mul]
    · have e2 := fghTeapot_miss d sqrt 1 w st1
        (Or.inr (by rw [l1]; exact fun h => hs h.symm))
      obtain ⟨v2, -, -, -, -⟩ := fghTeapot_regen_again d sqrt 1 w st1 i1
      rw [e2, v2, b10, b11, v1]
      have h := fghTeapot_patches_scaled d sqrt s 1 (nSubDivsOf w)
        (pregenBernstein (nSubDivsOf w) (st.bern_0 w) (st.bern_1 w)).1
        (pregenBernstein (nSubDivsOf w) (st.bern_0 w) (st.bern_1 w)).2 false true
        GLUT_TEAPOT_N_PATCHES _ (st.norms w) _ (st1.norms w)
        (memsetZero_scaled s (st.verts w) (st1.verts w) _) k hk
      rw [mul_one, ← nVertsOf_eq] at h
      rw [← v1]
      rw [← v1] at h
      exact h

/-- C15 for the wire style on the example data from the initial state: entry
`5` of the buffer built at scale `2` is twice entry `5` of the buffer built
afterwards at scale `1`. -/
theorem fghTeapot_positions_scale_witness :
    ((initState : TeapotState ℚ).inited true = false ∧ 5 < nVertsOf true * 3) ∧
    (fghTeapot exampleData (fun x => x) 2 true (initState : TeapotState ℚ)).1.verts true 5
      = 2 * (fghTeapot exampleData (fun x => x) 1 true
          (fghTeapot exampleData (fun x => x) 2 true
            (initState : TeapotState ℚ)).1).1.verts true 5 :=
  ⟨⟨rfl, by decide⟩,
    (fghTeapot_positions_scale exampleData (fun x => x) 2 true initState rfl 5
      (by decide)).2⟩

end Scaling

/-! ## Normals do not depend on the scale -/

theorem tensorSum_scaled (c : α) (cpA cpB : Nat → Nat → Nat → α)
    (hcp : ∀ i j e, i < 4 → j < 4 → e < 3 → cpA i j e = c * cpB i j e)
    (wu wv : Nat → α) (e : Nat) (he : e < 3) :
    tensorSum cpA wu wv e = c * tensorSum cpB wu wv e := by
  unfold tensorSum
  simp only [Finset.sum_range_succ, Finset.sum_range_zero,
    hcp 0 0 e (by decide) (by decide) he, hcp 0 1 e (by decide) (by decide) he,
    hcp 0 2 e (by decide) (by decide) he, hcp 0 3 e (by decide) (by decide) he,
    hcp 1 0 e (by decide) (by decide) he, hcp 1 1 e (by decide) (by decide) he,
    hcp 1 2 e (by decide) (by decide) he, hcp 1 3 e (by decide) (by decide) he,
    hcp 2 0 e (by decide) (by decide) he, hcp 2 1 e (by decide) (by decide) he,
    hcp 2 2 e (by decide) (by decide) he, hcp 2 3 e (by decide) (by decide) he,
    hcp 3 0 e (by decide) (by decide) he, hcp 3 1 e (by decide) (by decide) he,
    hcp 3 2 e (by decide) (by decide) he, hcp 3 3 e (by decide) (by decide) he]
  ring

theorem cross_scaled (c : α) (A B a b : Nat → α) (hA : ∀ e, e < 3 → A e = c * a e)
    (hB : ∀ e, e < 3 → B e = c * b e) (e : Nat) :
    cross A B e = c * c * cross a b e := by
  unfold cross
  rw [hA 0 (by decide), hA 1 (by decide), hA 2 (by decide), hB 0 (by decide),
    hB 1 (by decide), hB 2 (by decide)]
  split_ifs <;> ring

/-- Over the reals, scaling a vector by a square `c * c` with `c ≠ 0` does not
change its normalisation. -/
theorem normalize_scaled (c : ℝ) (hc : c ≠ 0) (W w : Nat → ℝ)
    (hW : ∀ e, W e = c * c * w e) (e : Nat) :
    normalize Real.sqrt W e = normalize Real.sqrt w e := by
  unfold normalize
  rw [hW 0, hW 1, hW 2, hW e]
  have hcc : 0 < c * c := mul_self_pos.mpr hc
  have e1 : c * c * w 0 * (c * c * w 0) + c * c * w 1 * (c * c * w 1)
      + c * c * w 2 * (c * c * w 2)
      = (c * c) * (c * c) * (w 0 * w 0 + w 1 * w 1 + w 2 * w 2) := by ring
  rw [e1, Real.sqrt_mul (mul_self_nonneg (c * c)), Real.sqrt_mul_self hcc.le]
  rw [mul_div_mul_left _ _ hcc.ne']

/-- The normal that `evalBezierWithNorm` computes for a cell is the same for the
control points collected at any two non-zero scales. -/
theorem fghTeapot_cell_normal_scale (d : TeapotData ℝ) (s1 s2 : ℝ) (h1 : s1 ≠ 0)
    (h2 : s2 ≠ 0) (p : Nat) (b0 b1 : Nat → Nat → ℝ) (u v e : Nat) :
    normalize Real.sqrt (cross
        (tangentV (fghTeapot_cp d s1 p (fun _ _ _ => 0)) b0 b1 u v)
        (tangentU (fghTeapot_cp d s1 p (fun _ _ _ => 0)) b0 b1 u v)) e
      = normalize Real.sqrt (cross
        (tangentV (fghTeapot_cp d s2 p (fun _ _ _ => 0)) b0 b1 u v)
        (tangentU (fghTeapot_cp d s2 p (fun _ _ _ => 0)) b0 b1 u v)) e := by
  have key : ∀ s : ℝ, s ≠ 0 →
      normalize Real.sqrt (cross
        (tangentV (fghTeapot_cp d s p (fun _ _ _ => 0)) b0 b1 u v)
        (tangentU (fghTeapot_cp d s p (fun _ _ _ => 0)) b0 b1 u v)) e
      = normalize Real.sqrt (cross
        (tangentV (fghTeapot_cp d 1 p (fun _ _ _ => 0)) b0 b1 u v)
        (tangentU (fghTeapot_cp d 1 p (fun _ _ _ => 0)) b0 b1 u v)) e := by
    intro s hs
    have hcp : ∀ i j e, i < 4 → j < 4 → e < 3 →
        fghTeapot_cp d s p (fun _ _ _ => 0) i j e
          = s * fghTeapot_cp d 1 p (fun _ _ _ => 0) i j e := by
      intro i j e hi hj he
      have h := fghTeapot_cp_scaled d s 1 p (fun _ _ _ => 0) (fun _ _ _ => 0) i j e hi hj he
      rw [mul_one] at h
      exact h
    exact normalize_scaled s hs _ _
      (fun e => cross_scaled s _ _ _ _
        (fun e he => tensorSum_scaled s _ _ hcp _ _ e he)
        (fun e he => tensorSum_scaled s _ _ hcp _ _ e he) e) e
  rw [key s1 h1, key s2 h2]

/-- The normal buffer after one cell of `evalBezierWithNorm` is the same for the
control points collected at any two non-zero scales, whatever the position
buffers are. -/
theorem fghTeapot_cell_norms_scale (d : TeapotData ℝ) (s1 s2 : ℝ) (h1 : s1 ≠ 0)
    (h2 : s2 ≠ 0) (p : Nat) (b0 b1 : Nat → Nat → ℝ) (u v o : Nat)
    (vA vB norms : Nat → ℝ) :
    (evalBezierWithNorm_cell Real.sqrt (fghTeapot_cp d s1 p (fun _ _ _ => 0)) b0 b1 u v o
        vA norms).2
      = (evalBezierWithNorm_cell Real.sqrt (fghTeapot_cp d s2 p (fun _ _ _ => 0)) b0 b1 u v o
        vB norms).2 := by
  funext k
  by_cases hk : k < o ∨ o + 3 ≤ k
  · rw [evalBezierWithNorm_cell_snd_frame _ _ _ _ _ _ _ _ _ k hk,
      evalBezierWithNorm_cell_snd_frame _ _ _ _ _ _ _ _ _ k hk]
  · obtain ⟨e, he, rfl⟩ : ∃ e, e < 3 ∧ k = o + e := ⟨k - o, by omega, by omega⟩
    rw [evalBezierWithNorm_cell_snd_at _ _ _ _ _ _ _ _ _ e he,
      evalBezierWithNorm_cell_snd_at _ _ _ _ _ _ _ _ _ e he]
    exact fghTeapot_cell_normal_scale d s1 s2 h1 h2 p b0 b1 u v e

/-- The normal buffer returned by `evalBezierWithNorm` is the same for the control
points collected at any two non-zero scales, whatever the position buffers
are. -/
theorem fghTeapot_eval_norms_scale (d : TeapotData ℝ) (s1 s2 : ℝ) (h1 : s1 ≠ 0)
    (h2 : s2 ≠ 0) (p N : Nat) (b0 b1 : Nat → Nat → ℝ) (flag nf : Nat)
    (vA vB norms : Nat → ℝ) :
    (evalBezierWithNorm Real.sqrt (fghTeapot_cp d s1 p (fun _ _ _ => 0)) N b0 b1 flag nf
        vA norms).norms
      = (evalBezierWithNorm Real.sqrt (fghTeapot_cp d s2 p (fun _ _ _ => 0)) N b0 b1 flag nf
        vB norms).norms := by
  have h : (evalBezierWithNorm_grid Real.sqrt (fghTeapot_cp d s1 p (fun _ _ _ => 0)) N b0 b1
        vA norms).1.2
      = (evalBezierWithNorm_grid Real.sqrt (fghTeapot_cp d s2 p (fun _ _ _ => 0)) N b0 b1
        vB norms).1.2 := by
    rw [evalBezierWithNorm_grid_norms, evalBezierWithNorm_grid_norms]
    exact forLoop_congr N
      (fun u s => forLoop N (fun v s =>
        (evalBezierWithNorm_cell Real.sqrt (fghTeapot_cp d s1 p (fun _ _ _ => 0)) b0 b1 u v
          (3 * N * u + 3 * v) (fun _ => 0) s).2) s)
      (fun u s => forLoop N (fun v s =>
        (evalBezierWithNorm_cell Real.sqrt (fghTeapot_cp d s2 p (fun _ _ _ => 0)) b0 b1 u v
          (3 * N * u + 3 * v) (fun _ => 0) s).2) s)
      (fun u _ s => forLoop_congr N
        (fun v s =>
          (evalBezierWithNorm_cell Real.sqrt (fghTeapot_cp d s1 p (fun _ _ _ => 0)) b0 b1 u v
            (3 * N * u + 3 * v) (fun _ => 0) s).2)
        (fun v s =>
          (evalBezierWithNorm_cell Real.sqrt (fghTeapot_cp d s2 p (fun _ _ _ => 0)) b0 b1 u v
            (3 * N * u + 3 * v) (fun _ => 0) s).2)
        (fun v _ s => fghTeapot_cell_norms_scale d s1 s2 h1 h2 p b0 b1 u v
          (3 * N * u + 3 * v) (fun _ => 0) (fun _ => 0) s) s) norms
  unfold evalBezierWithNorm
  simp only
  rw [h]

/-- The patch loops of two first builds at non-zero scales leave the same normal
buffer. -/
theorem fghTeapot_patches_norms_scale (d : TeapotData ℝ) (s1 s2 : ℝ) (h1 : s1 ≠ 0)
    (h2 : s2 ≠ 0) (N : Nat) (b0 b1 : Nat → Nat → ℝ) (vA vB norms : Nat → ℝ) :
    (fghTeapot_patches d Real.sqrt s1 N b0 b1 false vA norms).1.2
      = (fghTeapot_patches d Real.sqrt s2 N b0 b1 false vB norms).1.2 := by
  unfold fghTeapot_patches
  exact (forLoop_rel
    (fun (sA sB : ((Nat → ℝ) × (Nat → ℝ)) × Nat) => sA.2 = sB.2 ∧ sA.1.2 = sB.1.2)
    d.nInputPatches _ _
    (fun p _ sA sB hAB => by
      obtain ⟨ho, hn⟩ := hAB
      refine ⟨by rw [fghTeapot_patch_snd, fghTeapot_patch_snd, ho], ?_⟩
      show (fghTeapot_patch d Real.sqrt s1 N b0 b1 false p sA).1.2
        = (fghTeapot_patch d Real.sqrt s2 N b0 b1 false p sB).1.2
      rw [(fghTeapot_patch_fst _ _ _ _ _ _ _ _ _).2, (fghTeapot_patch_fst _ _ _ _ _ _ _ _ _).2,
        if_pos rfl, if_pos rfl, ho, hn]
      rw [fghTeapot_eval_norms_scale d s1 s2 h1 h2 p N b0 b1 _ _ (ptrAdd sA.1.1 sB.2)
        (ptrAdd sB.1.1 sB.2) (ptrAdd sB.1.2 sB.2)])
    ((vA, norms), 0) ((vB, norms), 0) ⟨rfl, rfl⟩).2

/-- The patch loop of a rebuild leaves the normal buffer as it was. -/
theorem fghTeapot_patches_norms_kept (d : TeapotData α) (sqrt : α → α) (s : α) (N : Nat)
    (b0 b1 : Nat → Nat → α) (verts norms : Nat → α) :
    (fghTeapot_patches d sqrt s N b0 b1 true verts norms).1.2 = norms := by
  unfold fghTeapot_patches
  exact forLoop_inv (fun (st : ((Nat → α) × (Nat → α)) × Nat) => st.1.2 = norms)
    d.nInputPatches _
    (fun p _ st hst => by
      show (fghTeapot_patch d sqrt s N b0 b1 true p st).1.2 = norms
      rw [(fghTeapot_patch_fst _ _ _ _ _ _ _ _ _).2, if_neg (by decide)]
      exact hst)
    ((verts, norms), 0) rfl

/-- Regeneration of a style that is initialised keeps its normal buffer. -/
theorem fghTeapot_regen_again_norms (d : TeapotData α) (sqrt : α → α) (s : α) (w : Bool)
    (st : TeapotState α) (h1 : st.inited w = true) :
    (fghTeapot_regen d sqrt s w st).norms w = st.norms w := by
  have h : (fghTeapot_regen d sqrt s w st).norms w
      = (fghTeapot_patches d sqrt s (nSubDivsOf w) (st.bern_0 w) (st.bern_1 w) true
          (memsetZero (st.verts w) (nVertsOf w * 3)) (st.norms w)).1.2 := by
    cases w <;>
      simp [fghTeapot_regen, TeapotState.verts, TeapotState.bern_0, TeapotState.bern_1,
        TeapotState.inited, TeapotState.lastScale, TeapotState.norms, h1] <;>
      simp_all [TeapotState.inited]
  rw [h, fghTeapot_patches_norms_kept]
/-! ## Claim C16 -/

/-- C16: over the reals with the real square root, for either style `w`, all
scales `s1, s2 > 0` and every state in which the style is not yet initialised:
after a first build at `s1` followed by a call at `s2` (a rebuild, which
recomputes the positions only; or no work at all when `s2 = s1`), every entry of
the cached normal buffer equals the entry of the normal buffer that a first build
at `s2` from the same state produces.  At a vertex whose tangents have a zero
cross product both builds divide by zero, and both get the same entry here. -/
theorem fghTeapot_normals_scale_free (d : TeapotData ℝ) (w : Bool) (s1 s2 : ℝ)
    (h1 : 0 < s1) (h2 : 0 < s2) (st : TeapotState ℝ) (h0 : st.inited w = false)
    (k : Nat) :
    (fghTeapot d Real.sqrt s2 w (fghTeapot d Real.sqrt s1 w st).1).1.norms w k
      = (fghTeapot d Real.sqrt s2 w st).1.norms w k := by
  have e1 := fghTeapot_miss d Real.sqrt s1 w st (Or.inl h0)
  have e2 := fghTeapot_miss d Real.sqrt s2 w st (Or.inl h0)
  have n1 := fghTeapot_regen_first_norms d Real.sqrt s1 w st h0
  have n2 := fghTeapot_regen_first_norms d Real.sqrt s2 w st h0
  obtain ⟨-, -, -, i1, l1⟩ := fghTeapot_regen_first d Real.sqrt s1 w st h0
  rw [← e1] at n1 i1 l1
  rw [e2, n2]
  generalize (fghTeapot d Real.sqrt s1 w st).1 = st1 at n1 i1 l1 ⊢
  have keep : (fghTeapot d Real.sqrt s2 w st1).1.norms w = st1.norms w := by
    by_cases hs : s2 = s1
    · rw [fghTeapot_hit d Real.sqrt s2 w st1 i1 (by rw [l1, hs])]
    · rw [fghTeapot_miss d Real.sqrt s2 w st1 (Or.inr (by rw [l1]; exact hs)),
        fghTeapot_regen_again_norms d Real.sqrt s2 w st1 i1]
  rw [keep, n1, fghTeapot_patches_norms_scale d s1 s2 h1.ne' h2.ne' (nSubDivsOf w) _ _
    (memsetZero (st.verts w) (nVertsOf w * 3)) (memsetZero (st.verts w) (nVertsOf w * 3))
    (st.norms w)]

/-- C16 for the wire style on the example data from the initial state: a build
at scale `1` followed by a rebuild at scale `2` against a first build at scale
`2`, entry `5` of the normal buffer. -/
theorem fghTeapot_normals_scale_free_witness :
    ((0 : ℝ) < 1 ∧ (0 : ℝ) < 2 ∧ (initState : TeapotState ℝ).inited true = false) ∧
    (fghTeapot exampleData Real.sqrt 2 true
        (fghTeapot exampleData Real.sqrt 1 true (initState : TeapotState ℝ)).1).1.norms true 5
      = (fghTeapot exampleData Real.sqrt 2 true (initState : TeapotState ℝ)).1.norms true 5 :=
  ⟨⟨by norm_num, by norm_num, rfl⟩,
    fghTeapot_normals_scale_free exampleData true 1 2 (by norm_num) (by norm_num) initState
      rfl 5⟩

/-! ## Rotated copies against rotated control points -/

theorem rotY_congr (w w' : Nat → α) (h : ∀ e, e < 3 → w e = w' e) (e : Nat) (he : e < 3) :
    rotY w e = rotY w' e := by
  unfold rotY
  rw [h 2 (by decide), h 0 (by decide), h e he]

theorem rotY_iterate_congr (k : Nat) (w w' : Nat → α) (h : ∀ e, e < 3 → w e = w' e)
    (e : Nat) (he : e < 3) : Nat.iterate rotY k w e = Nat.iterate rotY k w' e := by
  induction k generalizing e with
  | zero => exact h e he
  | succ n ih =>
    rw [Function.iterate_succ_apply', Function.iterate_succ_apply']
    exact rotY_congr _ _ ih e he

/-- Block `k` (1, 2, 3) written by `rotOrReflect 4` holds the vertices of the base
block rotated by `k` quarter turns about the Y axis. -/
theorem rotOrReflect_four_block (vals : Nat → α) (N t : Nat) (ht : t < N * N) (k : Nat)
    (hk1 : 1 ≤ k) (hk3 : k ≤ 3) (e : Nat) (he : e < 3) :
    rotOrReflect 4 (N * N * 3) N vals (N * N * 3 * k + (3 * t + e))
      = Nat.iterate rotY k (fun i => rotOrReflect 4 (N * N * 3) N vals (3 * t + i)) e := by
  have h3 : N * N * 3 = 3 * (N * N) := Nat.mul_comm _ _
  have h := rotOrReflect_four_self vals (N * N) N t ht
  rw [← h3] at h
  obtain ⟨⟨r10, r11, r12⟩, ⟨r20, r21, r22⟩, ⟨r30, r31, r32⟩⟩ := h
  interval_cases k <;> interval_cases e <;>
    simp only [Nat.mul_one, ← Nat.add_assoc, r10, r11, r12, r20, r21, r22, r30, r31, r32] <;>
    simp [Function.iterate_succ, rotY]

theorem tensorSum_rotY (cp : Nat → Nat → Nat → α) (wu wv : Nat → α) :
    tensorSum (rotateCpY cp) wu wv = rotY (tensorSum cp wu wv) := by
  funext c
  unfold rotY tensorSum rotateCpY rotY
  split_ifs with h0 h2
  · rfl
  · simp only [if_neg h0, if_pos h2, Finset.sum_range_succ, Finset.sum_range_zero]
    ring
  · rfl

theorem tensorSum_rotY_iterate (k : Nat) (cp : Nat → Nat → Nat → α) (wu wv : Nat → α) :
    tensorSum (Nat.iterate rotateCpY k cp) wu wv = Nat.iterate rotY k (tensorSum cp wu wv) := by
  induction k with
  | zero => rfl
  | succ n ih =>
    rw [Function.iterate_succ_apply', Function.iterate_succ_apply', tensorSum_rotY, ih]

theorem cross_rotY (a b : Nat → α) (e : Nat) (he : e < 3) :
    cross (rotY a) (rotY b) e = rotY (cross a b) e := by
  interval_cases e <;> simp [cross, rotY] <;> ring

theorem normalize_rotY (sqrt : α → α) (w : Nat → α) (e : Nat) :
    normalize sqrt (rotY w) e = rotY (normalize sqrt w) e := by
  have hs : rotY w 0 * rotY w 0 + rotY w 1 * rotY w 1 + rotY w 2 * rotY w 2
      = w 0 * w 0 + w 1 * w 1 + w 2 * w 2 := by
    simp [rotY]
    ring
  unfold normalize
  rw [hs]
  unfold rotY
  split_ifs with h0 h2
  · rfl
  · rw [neg_div]
  · rfl

theorem normalize_congr (sqrt : α → α) (w w' : Nat → α) (h : ∀ e, e < 3 → w e = w' e)
    (e : Nat) (he : e < 3) : normalize sqrt w e = normalize sqrt w' e := by
  unfold normalize
  rw [h 0 (by decide), h 1 (by decide), h 2 (by decide), h e he]

/-- The normal computed for a cell of the control patch rotated by `k` quarter
turns is the normal of the cell of the control patch itself, rotated by `k`
quarter turns. -/
theorem normal_rotY_iterate (sqrt : α → α) (b0 b1 : Nat → Nat → α) (u v k : Nat)
    (cp : Nat → Nat → Nat → α) (e : Nat) (he : e < 3) :
    normalize sqrt (cross (tangentV (Nat.iterate rotateCpY k cp) b0 b1 u v)
        (tangentU (Nat.iterate rotateCpY k cp) b0 b1 u v)) e
      = Nat.iterate rotY k
          (normalize sqrt (cross (tangentV cp b0 b1 u v) (tangentU cp b0 b1 u v))) e := by
  induction k generalizing e with
  | zero => rfl
  | succ n ih =>
    rw [Function.iterate_succ_apply', Function.iterate_succ_apply']
    have hV : tangentV (rotateCpY (Nat.iterate rotateCpY n cp)) b0 b1 u v
        = rotY (tangentV (Nat.iterate rotateCpY n cp) b0 b1 u v) := by
      funext c
      unfold tangentV
      rw [tensorSum_rotY]
    have hU : tangentU (rotateCpY (Nat.iterate rotateCpY n cp)) b0 b1 u v
        = rotY (tangentU (Nat.iterate rotateCpY n cp) b0 b1 u v) := by
      funext c
      unfold tangentU
      rw [tensorSum_rotY]
    rw [hV, hU, normalize_congr sqrt _ _ (fun c hc => cross_rotY _ _ c hc) e he,
      normalize_rotY]
    exact rotY_congr _ _ ih e he

/-- The polar row in the base block of the buffer returned by
`evalBezierWithNorm` with a normal fix, for any `flag`. -/
theorem evalBezierWithNorm_polar_base (sqrt : α → α) (cp : Nat → Nat → Nat → α) (N : Nat)
    (b0 b1 : Nat → Nat → α) (flag nf : Nat) (hnf : nf ≠ 0) (verts norms : Nat → α)
    (c : Nat) (hc : c < N) :
    VecAt (evalBezierWithNorm sqrt cp N b0 b1 flag nf verts norms).norms (3 * c) 0
      (if nf = 1 then 1 else -1) 0 := by
  have hlt := row_lt_block N c hc
  obtain ⟨f0, f1, f2⟩ := evalBezierWithNorm_fix_at N nf hnf
    (evalBezierWithNorm_grid sqrt cp N b0 b1 verts norms).1.2 c hc
  unfold evalBezierWithNorm
  simp only
  generalize evalBezierWithNorm_fix N nf
    (evalBezierWithNorm_grid sqrt cp N b0 b1 verts norms).1.2 = fixed at f0 f1 f2 ⊢
  have hb0 := rotOrReflect_base flag N fixed (3 * c + 0) (by omega)
  have hb1 := rotOrReflect_base flag N fixed (3 * c + 1) (by omega)
  have hb2 := rotOrReflect_base flag N fixed (3 * c + 2) (by omega)
  rw [f0] at hb0
  rw [f1] at hb1
  rw [f2] at hb2
  exact ⟨hb0, hb1, hb2⟩
/-! ## Claim C21 -/

/-- C21: for every control patch `cp`, every `N` and `k = 1, 2, 3`, block `k` of
the buffers written by `evalBezierWithNorm` with `flag = 4` equals, entry by entry
(`j` below the block length `N*N*3`), the base block that `evalBezierWithNorm`
(with any flag, the same tables and the same normal fix) writes for the control
patch whose 16 points have each been rotated `k` times by `(x,y,z) -> (z,y,-x)`:
for the positions, when the base block of `verts` is zero on entry of both calls,
as the evaluator requires, and for the normals.  Exact arithmetic in any field
and for any square root function, so in particular over the reals. -/
theorem evalBezierWithNorm_rotation_replicates (sqrt : α → α) (cp : Nat → Nat → Nat → α)
    (N : Nat) (b0 b1 : Nat → Nat → α) (flag nf : Nat) (verts norms verts' norms' : Nat → α)
    (hz : ∀ i, i < N * N * 3 → verts i = 0) (hz' : ∀ i, i < N * N * 3 → verts' i = 0)
    (k : Nat) (hk1 : 1 ≤ k) (hk3 : k ≤ 3) (j : Nat) (hj : j < N * N * 3) :
    (evalBezierWithNorm sqrt cp N b0 b1 4 nf verts norms).verts (N * N * 3 * k + j)
      = (evalBezierWithNorm sqrt (Nat.iterate rotateCpY k cp) N b0 b1 flag nf
          verts' norms').verts j ∧
    (evalBezierWithNorm sqrt cp N b0 b1 4 nf verts norms).norms (N * N * 3 * k + j)
      = (evalBezierWithNorm sqrt (Nat.iterate rotateCpY k cp) N b0 b1 flag nf
          verts' norms').norms j := by
  have hN : 0 < N := by
    rcases Nat.eq_zero_or_pos N with h | h
    · subst h
      omega
    · exact h
  have hq : j / 3 < N * N := by omega
  have hu : j / 3 / N < N := (Nat.div_lt_iff_lt_mul hN).mpr hq
  have hv : j / 3 % N < N := Nat.mod_lt _ hN
  have ht : j / 3 = j / 3 / N * N + j / 3 % N := by
    have h := Nat.div_add_mod (j / 3) N
    rw [Nat.mul_comm] at h
    exact h.symm
  have hc : j % 3 < 3 := Nat.mod_lt _ (by decide)
  have hjd : j = 3 * (j / 3 / N * N + j / 3 % N) + j % 3 := by
    rw [← ht]
    exact (Nat.div_add_mod j 3).symm
  generalize j / 3 / N = u at hu ht hjd
  generalize j / 3 % N = v at hv ht hjd
  generalize j % 3 = c at hc hjd
  have htl : u * N + v < N * N := by rw [← ht]; exact hq
  subst hjd
  refine ⟨?_, ?_⟩
  · rw [evalBezierWithNorm_verts, evalBezierWithNorm_verts]
    have hA : ∀ e, e < 3 →
        (evalBezier cp N b0 4 verts).1 (3 * (u * N + v) + e)
          = tensorSum cp (b0 u) (b0 v) e := by
      intro e he
      rw [evalBezier_base cp N b0 4 verts u v e hu hv he, hz _ (by omega), zero_add]
      rfl
    have hB : (evalBezier (Nat.iterate rotateCpY k cp) N b0 flag verts').1
          (3 * (u * N + v) + c)
        = tensorSum (Nat.iterate rotateCpY k cp) (b0 u) (b0 v) c := by
      rw [evalBezier_base _ N b0 flag verts' u v c hu hv hc, hz' _ (by omega), zero_add]
      rfl
    rw [hB, tensorSum_rotY_iterate]
    have hR : (evalBezier cp N b0 4 verts).1 (N * N * 3 * k + (3 * (u * N + v) + c))
        = Nat.iterate rotY k
            (fun i => (evalBezier cp N b0 4 verts).1 (3 * (u * N + v) + i)) c := by
      unfold evalBezier
      exact rotOrReflect_four_block _ N (u * N + v) htl k hk1 hk3 c hc
    rw [hR]
    exact rotY_iterate_congr k _ _ hA c hc
  · have hR : (evalBezierWithNorm sqrt cp N b0 b1 4 nf verts norms).norms
          (N * N * 3 * k + (3 * (u * N + v) + c))
        = Nat.iterate rotY k
            (fun i => (evalBezierWithNorm sqrt cp N b0 b1 4 nf verts norms).norms
              (3 * (u * N + v) + i)) c := by
      unfold evalBezierWithNorm
      exact rotOrReflect_four_block _ N (u * N + v) htl k hk1 hk3 c hc
    by_cases hfix : nf = 0 ∨ 0 < u
    · rw [hR, evalBezierWithNorm_norms_base sqrt _ N b0 b1 flag nf verts' norms' u v c hu hv
        hc hfix, normal_rotY_iterate sqrt b0 b1 u v k cp c hc]
      exact rotY_iterate_congr k _ _
        (fun e he => evalBezierWithNorm_norms_base sqrt cp N b0 b1 4 nf verts norms u v e hu
          hv he hfix) c hc
    · have hnf : nf ≠ 0 := fun h => hfix (Or.inl h)
      have hu0 : u = 0 := by
        rcases Nat.eq_zero_or_pos u with h | h
        · exact h
        · exact absurd (Or.inr h) hfix
      subst hu0
      simp only [Nat.zero_mul, Nat.zero_add]
      obtain ⟨p0, p1, p2⟩ := evalBezierWithNorm_polar_four sqrt cp N b0 b1 nf hnf verts norms
        v hv k (by omega)
      obtain ⟨q0, q1, q2⟩ := evalBezierWithNorm_polar_base sqrt (Nat.iterate rotateCpY k cp)
        N b0 b1 flag nf hnf verts' norms' v hv
      interval_cases c
      · rw [← Nat.add_assoc, p0, q0]
      · rw [← Nat.add_assoc, p1, q1]
      · rw [← Nat.add_assoc, p2, q2]

/-- C21 at the flat patch with `N = 2` and zero buffers, over the reals
with the real square root: entry `4` of block `3`
against entry `4` of the base block for the patch rotated three times. -/
theorem evalBezierWithNorm_rotation_replicates_witness :
    ((∀ i, i < 2 * 2 * 3 → (zeroBuf : Nat → ℝ) i = 0) ∧ 1 ≤ 3 ∧ 3 ≤ 3 ∧ 4 < 2 * 2 * 3) ∧
    (evalBezierWithNorm Real.sqrt (flatPatch : Nat → Nat → Nat → ℝ) 2
        (pregenBernstein 2 zeroTab zeroTab).1 (pregenBernstein 2 zeroTab zeroTab).2 4 0
        zeroBuf zeroBuf).norms (2 * 2 * 3 * 3 + 4)
      = (evalBezierWithNorm Real.sqrt (Nat.iterate rotateCpY 3 flatPatch) 2
          (pregenBernstein 2 zeroTab zeroTab).1 (pregenBernstein 2 zeroTab zeroTab).2 4 0
          zeroBuf zeroBuf).norms 4 :=
  ⟨⟨fun _ _ => rfl, by decide, by decide, by decide⟩,
    (evalBezierWithNorm_rotation_replicates Real.sqrt flatPatch 2 _ _ 4 0 zeroBuf zeroBuf
      zeroBuf zeroBuf (fun _ _ => rfl) (fun _ _ => rfl) 3 (by decide) (by decide) 4
      (by decide)).2⟩

end Proofs

end Teapot
